import Mathlib

/-!
# chan-sccp: the reference-counted object registry (`src/sccp_refcount.c`)

A shallow embedding of the registry and theorems about it, followed by the
parts of `src/sccp_line.c` (the global list of lines, call forwarding) and of
`src/sccp_callinfo.c` (the constructor and the setter) that the last theorems
are about.

Conventions of the embedding

* Addresses and function pointers are natural numbers, `0` is `NULL`.
* The handle of an object is the address of its payload (`obj->data`); a
  bucket is the list of its entries, head first.
* `obj_info[]` and `objects[]` are the two global tables; together with the
  `refcount_destroyed` flag they form the `Registry`.  The field `calls` is a
  ghost trace: every invocation `destructor(ptr)` made by the registry is
  appended to it as the pair `(destructor, ptr)`.  What a destructor does in
  its own body is code of the collaborator, not of the registry, and is not
  part of the embedding.  Where the state handed to the destructor matters,
  the destructor is a function parameter, see `remove_obj_calling`.
* Executions are sequential: between the read of `obj->refcount` and the
  compare-and-swap no other thread runs.
* Log output (`ast_log`, `sccp_log`, `pbx_log`) is not modelled.
-/

namespace SccpRefcount

/-! ## Data model -/

/-- The table size, `#define SCCP_HASH_PRIME 563`. -/
@[reducible] def SCCP_HASH_PRIME : Nat := 563

/-- The bucket function, `#define SCCP_SIMPLE_HASH(_a) (((unsigned long)(_a)) % SCCP_HASH_PRIME)`. -/
def SCCP_SIMPLE_HASH (a : Nat) : Nat := a % SCCP_HASH_PRIME

/-- The marker of a live entry, `#define SCCP_LIVE_MARKER 13`. -/
def SCCP_LIVE_MARKER : Int := 13

/-- The type tags that index `obj_info[]`. -/
inductive sccp_refcounted_types where
  | SCCP_REF_DEVICE
  | SCCP_REF_LINE
  | SCCP_REF_CHANNEL
  | SCCP_REF_LINEDEVICE
  | SCCP_REF_EVENT
  | SCCP_REF_TEST
  | SCCP_REF_CONFERENCE
  | SCCP_REF_PARTICIPANT
  deriving DecidableEq, Repr

/-- The logging categories named by the initialiser of `obj_info[]`. -/
inductive sccp_debug_category_t where
  | DEBUGCAT_DEVICE
  | DEBUGCAT_LINE
  | DEBUGCAT_CHANNEL
  | DEBUGCAT_EVENT
  | DEBUGCAT_HIGH
  | DEBUGCAT_CONFERENCE
  deriving DecidableEq, Repr

/-- One descriptor of `obj_info[]`: `struct sccp_refcount_obj_info`. -/
structure sccp_refcount_obj_info where
  destructor : Nat
  datatype : List Char
  debugcat : sccp_debug_category_t
  deriving DecidableEq, Repr

/-- One entry, `struct refcount_object`; `data` is the address of the payload
that follows the header, i.e. the handle. -/
structure RefCountedObject where
  refcount : Int
  type : sccp_refcounted_types
  identifier : List Char
  alive : Int
  len : Nat
  data : Nat
  deriving DecidableEq, Repr

/-- The global state of `sccp_refcount.c`. -/
@[ext] structure Registry where
  refcount_destroyed : Bool
  obj_info : sccp_refcounted_types → sccp_refcount_obj_info
  objects : Fin SCCP_HASH_PRIME → Option (List RefCountedObject)
  calls : List (Nat × Nat)

open sccp_refcounted_types sccp_debug_category_t

/-- The static initialiser of `obj_info[]`. -/
def obj_info_init : sccp_refcounted_types → sccp_refcount_obj_info
  | SCCP_REF_DEVICE => ⟨0, "device".toList, DEBUGCAT_DEVICE⟩
  | SCCP_REF_LINE => ⟨0, "line".toList, DEBUGCAT_LINE⟩
  | SCCP_REF_CHANNEL => ⟨0, "channel".toList, DEBUGCAT_CHANNEL⟩
  | SCCP_REF_LINEDEVICE => ⟨0, "linedevice".toList, DEBUGCAT_LINE⟩
  | SCCP_REF_EVENT => ⟨0, "event".toList, DEBUGCAT_EVENT⟩
  | SCCP_REF_TEST => ⟨0, "test".toList, DEBUGCAT_HIGH⟩
  | SCCP_REF_CONFERENCE => ⟨0, "conference".toList, DEBUGCAT_CONFERENCE⟩
  | SCCP_REF_PARTICIPANT => ⟨0, "participant".toList, DEBUGCAT_CONFERENCE⟩

/-- The state at program start: `refcount_destroyed = TRUE`, no destructor
registered, every slot of `objects[]` empty, no destructor called yet. -/
def Registry.initial : Registry :=
  { refcount_destroyed := true
    obj_info := obj_info_init
    objects := fun _ => none
    calls := [] }

/-! ## Helpers standing for C idioms -/

/-- The slot `objects[hash]` selected by an address. -/
def slot (ptr : Nat) : Fin SCCP_HASH_PRIME :=
  ⟨SCCP_SIMPLE_HASH ptr, Nat.mod_lt ptr (by decide)⟩

/-- Arithmetic of the 32-bit signed `CAS32_TYPE`: the value kept in two's
complement. -/
def wrap32 (x : Int) : Int := (x + 2 ^ 31) % 2 ^ 32 - 2 ^ 31

/-- Modelled from the spec: the macro `CAS32` is not under `src/`.  Section
4.2 describes it as `CAS(counter, old, old+1)`, a compare-and-swap that
succeeds unless another thread changed the counter in between.  The result is
the pair (value returned, value left in the cell). -/
def CAS32 (cell expected desired : Int) : Int × Int :=
  if cell = expected then (cell, desired) else (cell, cell)

/-- Modelled from the spec: `sccp_copy_string` is not under `src/`.  It
"copies the bounded identifier": at most `size - 1` characters of the source
are stored, followed by the terminator. -/
def sccp_copy_string (source : List Char) (size : Nat) : List Char :=
  source.take (size - 1)

/-- The traversal `SCCP_RWLIST_TRAVERSE ... if (obj->data == ptr) ... break`:
the first entry of the list whose payload address is `ptr`. -/
def traverse (l : List RefCountedObject) (ptr : Nat) : Option RefCountedObject :=
  match l with
  | [] => none
  | obj :: rest => if obj.data = ptr then some obj else traverse rest ptr

/-- A store through the pointer that the traversal stopped at: the first
entry whose payload address is `ptr` is replaced by its image under `f`. -/
def store (l : List RefCountedObject) (ptr : Nat) (f : RefCountedObject → RefCountedObject) :
    List RefCountedObject :=
  match l with
  | [] => []
  | obj :: rest => if obj.data = ptr then f obj :: rest else obj :: store rest ptr f

/-- The traversal of `remove_obj` with `SCCP_RWLIST_REMOVE_CURRENT`: the first
entry whose payload address is `ptr` is unlinked. -/
def unlink (l : List RefCountedObject) (ptr : Nat) : List RefCountedObject :=
  match l with
  | [] => []
  | obj :: rest => if obj.data = ptr then rest else obj :: unlink rest ptr

/-- Replace the content of one slot of `objects[]`. -/
def set_slot (s : Registry) (i : Fin SCCP_HASH_PRIME) (b : Option (List RefCountedObject)) :
    Registry :=
  { s with objects := fun j => if j = i then b else s.objects j }

/-- A store through the pointer returned by `find_obj ptr`. -/
def store_obj (s : Registry) (ptr : Nat) (f : RefCountedObject → RefCountedObject) : Registry :=
  match s.objects (slot ptr) with
  | none => s
  | some l => set_slot s (slot ptr) (some (store l ptr f))

/-! ## The operations -/

/-- `sccp_refcount_init`. -/
def sccp_refcount_init (s : Registry) : Registry :=
  { s with refcount_destroyed := false }

/-- `sccp_refcount_isRunning`: `!refcount_destroyed`. -/
def sccp_refcount_isRunning (s : Registry) : Bool :=
  !s.refcount_destroyed

/-- The loop `while ((obj = SCCP_RWLIST_REMOVE_HEAD(...)))` of
`sccp_refcount_destroy` on the bucket in slot `x`, whose list is the third
argument: the head is unlinked, the destructor registered for its type, if
any, is called on `obj->data`, and the block is freed. -/
def sweep (s : Registry) (x : Fin SCCP_HASH_PRIME) : List RefCountedObject → Registry
  | [] => set_slot s x (some [])
  | obj :: rest =>
    let s1 := set_slot s x (some rest)
    let s2 : Registry :=
      if (s1.obj_info obj.type).destructor ≠ 0 then
        { s1 with calls := s1.calls ++ [((s1.obj_info obj.type).destructor, obj.data)] }
      else s1
    sweep s2 x rest

/-- The body of the `for` loop of `sccp_refcount_destroy`: `if (objects[x]) ...`.
The slot itself is not reset, it keeps pointing to the emptied head. -/
def destroy_slot (s : Registry) (x : Fin SCCP_HASH_PRIME) : Registry :=
  match s.objects x with
  | none => s
  | some l => sweep s x l

/-- `sccp_refcount_destroy`: the flag is set, then the slots 0 .. 562 are swept
in ascending order. -/
def sccp_refcount_destroy (s : Registry) : Registry :=
  (List.finRange SCCP_HASH_PRIME).foldl destroy_slot { s with refcount_destroyed := true }

/-- One line written by `sccp_refcount_print_hashtable` through `pbx_cli`: the
frame lines, or a data row.  A data row is written by two `pbx_cli` calls, the
first for the mark (`"| [%3d] "` with the bucket index, here `some x`, or
`"|  +->  "`, here `none`), the second for the columns type name, identifier,
pointer, counter, liveness and size. -/
inductive cli_line where
  | border
  | heading
  | separator
  | row (mark : Option Nat) (datatype identifier : List Char) (ptr : Nat) (refc : Int)
      (live : List Char) (size : Int)
  deriving DecidableEq, Repr

/-- The data row of one entry.  The pointer column shows `obj`, the address of
the header, which lies `header_size` bytes (the offset of `data` in
`struct refcount_object`, not determined under `src/`) below the payload; the
size column shows `(int)obj->len`. -/
def print_row (info : sccp_refcounted_types → sccp_refcount_obj_info) (header_size : Nat)
    (mark : Option Nat) (obj : RefCountedObject) : cli_line :=
  cli_line.row mark (info obj.type).datatype obj.identifier (obj.data - header_size)
    obj.refcount (if SCCP_LIVE_MARKER = obj.alive then "yes".toList else "no".toList)
    (wrap32 obj.len)

/-- The `SCCP_RWLIST_TRAVERSE` loop of `sccp_refcount_print_hashtable` on the
bucket in slot `x`: the rows written and the value of `prev` afterwards. -/
def print_entries (info : sccp_refcounted_types → sccp_refcount_obj_info) (header_size : Nat)
    (x : Nat) : Nat → List RefCountedObject → List cli_line × Nat
  | prev, [] => ([], prev)
  | prev, obj :: rest =>
    let line := print_row info header_size (if prev = x then none else some x) obj
    let r := print_entries info header_size x x rest
    (line :: r.1, r.2)

/-- The body of the `for` loop of `sccp_refcount_print_hashtable`; the
accumulator holds the rows written so far and `prev`. -/
def print_slot (s : Registry) (header_size : Nat) (acc : List cli_line × Nat)
    (x : Fin SCCP_HASH_PRIME) : List cli_line × Nat :=
  match s.objects x with
  | none => acc
  | some l =>
    let r := print_entries s.obj_info header_size x.val acc.2 l
    (acc.1 ++ r.1, r.2)

/-- `sccp_refcount_print_hashtable`: the lines written, `prev` starting at 0.
The registry is only read. -/
def sccp_refcount_print_hashtable (s : Registry) (header_size : Nat) : List cli_line :=
  [cli_line.border, cli_line.heading, cli_line.separator]
    ++ ((List.finRange SCCP_HASH_PRIME).foldl (print_slot s header_size) ([], 0)).1
    ++ [cli_line.border]

/-- The statement `if (!(&obj_info[type])->destructor) (&obj_info[type])->destructor = destructor;`
of `sccp_refcount_object_alloc`. -/
def register_destructor (s : Registry) (type : sccp_refcounted_types) (destructor : Nat) :
    Registry :=
  if (s.obj_info type).destructor = 0 then
    { s with obj_info := fun t =>
        if t = type then { s.obj_info t with destructor := destructor } else s.obj_info t }
  else s

/-- `sccp_refcount_object_alloc`.  The two answers of the allocator are
inputs: `calloc_data` is the payload address `obj->data` of the block that
`calloc` returned, `0` when `calloc` returned `NULL`; `malloc_ok` tells whether
the `malloc` of a new bucket head succeeds (it is only consulted when the slot
is empty).  `REFCOUNT_INDENTIFIER_SIZE` is `sizeof(obj->identifier)`, a
constant whose definition is not under `src/`.  The result is the new state
and the returned pointer. -/
def sccp_refcount_object_alloc (s : Registry) (calloc_data : Nat) (malloc_ok : Bool)
    (REFCOUNT_INDENTIFIER_SIZE : Nat) (size : Nat) (type : sccp_refcounted_types)
    (identifier : List Char) (destructor : Nat) : Registry × Nat :=
  if calloc_data = 0 then (s, 0)
  else
    let s1 := register_destructor s type destructor
    -- the block comes zeroed from calloc; then the fields are initialised
    let obj : RefCountedObject :=
      { refcount := 1, type := type,
        identifier := sccp_copy_string identifier REFCOUNT_INDENTIFIER_SIZE,
        alive := 0, len := size, data := calloc_data }
    let ptr := obj.data
    let hash := slot ptr
    match s1.objects hash with
    | none =>
      if malloc_ok then
        -- head created empty, the entry linked in, then marked live
        (set_slot s1 hash (some [{ obj with alive := SCCP_LIVE_MARKER }]), ptr)
      else (s1, 0)
    | some l =>
      (set_slot s1 hash (some ({ obj with alive := SCCP_LIVE_MARKER } :: l)), ptr)

/-- `find_obj`: the entry of bucket `hash(ptr)` that the traversal stops at,
provided it carries the live marker. -/
def find_obj (s : Registry) (ptr : Nat) : Option RefCountedObject :=
  if ptr = 0 then none
  else
    match s.objects (slot ptr) with
    | none => none
    | some l =>
      match traverse l ptr with
      | none => none
      | some obj => if SCCP_LIVE_MARKER = obj.alive then some obj else none

/-- `remove_obj`: unlink the first entry with payload address `ptr` and, when
one was found, call the destructor registered for its type, if any.  Here the
call is only appended to the trace, which is what a destructor that does not
call into the registry amounts to; `remove_obj_calling` below takes the
destructor as a function, and `remove_obj_calling_record` relates the two. -/
def remove_obj (s : Registry) (ptr : Nat) : Registry :=
  if ptr = 0 then s
  else
    match s.objects (slot ptr) with
    | none => s
    | some l =>
      match traverse l ptr with
      | none => s
      | some obj =>
        let s1 := set_slot s (slot ptr) (some (unlink l ptr))
        if (s1.obj_info obj.type).destructor ≠ 0 then
          { s1 with calls := s1.calls ++ [((s1.obj_info obj.type).destructor, ptr)] }
        else s1

/-- `sccp_refcount_updateIdentifier`. -/
def sccp_refcount_updateIdentifier (s : Registry) (REFCOUNT_INDENTIFIER_SIZE : Nat)
    (ptr : Nat) (identifier : List Char) : Registry :=
  match find_obj s ptr with
  | some _ =>
    store_obj s ptr
      (fun o => { o with identifier := sccp_copy_string identifier REFCOUNT_INDENTIFIER_SIZE })
  | none => s

/-- `sccp_refcount_retain`: new state and returned pointer.  In a sequential
execution the compare-and-swap finds the value just read, so the body of the
`do ... while` runs once; `retain_loop` below keeps the retry and
`retain_loop_one_pass` shows that it ends in the first pass with this result. -/
def sccp_refcount_retain (s : Registry) (ptr : Nat) : Registry × Nat :=
  match find_obj s ptr with
  | some obj =>
    if SCCP_LIVE_MARKER ≠ obj.alive ∨ obj.refcount ≤ 0 then (s, 0)
    else
      let refcountval := obj.refcount
      let newrefcountval := wrap32 (refcountval + 1)
      let cas := CAS32 obj.refcount refcountval newrefcountval
      (store_obj s ptr (fun o => { o with refcount := cas.2 }), obj.data)
  | none => (s, 0)

/-- `sccp_refcount_release`: new state and returned pointer.  As in retain the
body of the `do ... while` runs once, see `release_loop` and
`release_loop_one_pass`. -/
def sccp_refcount_release (s : Registry) (ptr : Nat) : Registry × Nat :=
  match find_obj s ptr with
  | some obj =>
    if SCCP_LIVE_MARKER ≠ obj.alive ∨ obj.refcount < 0 then (s, 0)
    else
      let refcountval := obj.refcount
      -- no overflow here: refcountval is not negative
      let newrefcountval := refcountval - 1
      let cas := CAS32 obj.refcount refcountval newrefcountval
      let s1 := store_obj s ptr (fun o => { o with refcount := cas.2 })
      if newrefcountval = 0 then
        let s2 := store_obj s1 ptr (fun o => { o with alive := 0 })
        (remove_obj s2 ptr, 0)
      else (s1, 0)
  | none => (s, 0)

/-! ## The compare-and-swap loops with the retry kept -/

/-- The `do ... while` of `sccp_refcount_retain` on the fields `alive` and
`refcount` of the entry, with at most `fuel` passes.  The outer `none` means
that the passes are used up, `some none` is the `return NULL` inside the
loop, and `some (some (cell, newrefcountval))` is the normal exit with the
value left in the counter. -/
def retain_loop : Nat → Int → Int → Option (Option (Int × Int))
  | 0, _, _ => none
  | fuel + 1, alive, cell =>
    if SCCP_LIVE_MARKER ≠ alive ∨ cell ≤ 0 then some none
    else
      let refcountval := cell
      let newrefcountval := wrap32 (refcountval + 1)
      if cell ≠ 0 then
        let cas := CAS32 cell refcountval newrefcountval
        if cas.1 ≠ refcountval then retain_loop fuel alive cas.2
        else some (some (cas.2, newrefcountval))
      else some (some (cell, newrefcountval))

/-- The `do ... while` of `sccp_refcount_release`, in the same form. -/
def release_loop : Nat → Int → Int → Option (Option (Int × Int))
  | 0, _, _ => none
  | fuel + 1, alive, cell =>
    if SCCP_LIVE_MARKER ≠ alive ∨ cell < 0 then some none
    else
      let refcountval := cell
      let newrefcountval := refcountval - 1
      if ¬ (cell < 0) then
        let cas := CAS32 cell refcountval newrefcountval
        if cas.1 ≠ refcountval then release_loop fuel alive cas.2
        else some (some (cas.2, newrefcountval))
      else some (some (cell, newrefcountval))

/-! ## Where an entry sits -/

/-- The entry `e` is the entry of handle `h`: bucket `hash(h)` exists and reads
`before ++ e :: after`, where `e` has payload address `h` and no entry in
front of it has. -/
def entry_at (s : Registry) (h : Nat) (before : List RefCountedObject) (e : RefCountedObject)
    (after : List RefCountedObject) : Prop :=
  s.objects (slot h) = some (before ++ e :: after) ∧ e.data = h ∧ ∀ x ∈ before, x.data ≠ h

/-- Everything but the bucket in slot `i` and the destructor trace is the same
in `s` and `t`. -/
def same_outside (s t : Registry) (i : Fin SCCP_HASH_PRIME) : Prop :=
  t.refcount_destroyed = s.refcount_destroyed ∧ t.obj_info = s.obj_info ∧
    ∀ j, j ≠ i → t.objects j = s.objects j

/-- The entry that a successful allocation links in: counter 1, live marker,
bounded copy of the identifier. -/
def new_entry (REFCOUNT_INDENTIFIER_SIZE size : Nat) (type : sccp_refcounted_types)
    (identifier : List Char) (ptr : Nat) : RefCountedObject :=
  { refcount := 1, type := type,
    identifier := identifier.take (REFCOUNT_INDENTIFIER_SIZE - 1),
    alive := 13, len := size, data := ptr }

/-! ## Sequences of calls -/

/-- A call on one fixed handle. -/
inductive HandleCall where
  | retain
  | release
  deriving DecidableEq, Repr

/-- The state after a sequence of `sccp_refcount_retain(h)` and
`sccp_refcount_release(h)` calls, issued one after the other. -/
def apply_calls (s : Registry) (h : Nat) : List HandleCall → Registry
  | [] => s
  | HandleCall.retain :: cs => apply_calls (sccp_refcount_retain s h).1 h cs
  | HandleCall.release :: cs => apply_calls (sccp_refcount_release s h).1 h cs

/-- Starting from the counter value `c`, every call of the sequence leaves the
counter between 1 and `2^31 - 2`. -/
def stays_in_range (c : Int) : List HandleCall → Prop
  | [] => True
  | HandleCall.retain :: cs => c + 1 < 2 ^ 31 - 1 ∧ stays_in_range (c + 1) cs
  | HandleCall.release :: cs => 1 ≤ c - 1 ∧ stays_in_range (c - 1) cs

/-! ## Executions -/

/-- One call of the public interface, with the answers of the allocator for an
allocation. -/
inductive Op where
  | alloc (calloc_data : Nat) (malloc_ok : Bool) (size : Nat) (type : sccp_refcounted_types)
      (identifier : List Char) (destructor : Nat)
  | retain (ptr : Nat)
  | release (ptr : Nat)
  | update (ptr : Nat) (identifier : List Char)
  deriving DecidableEq, Repr

/-- The state after one call; `n` is `REFCOUNT_INDENTIFIER_SIZE`. -/
def step (n : Nat) (s : Registry) : Op → Registry
  | Op.alloc c m size type identifier d =>
    (sccp_refcount_object_alloc s c m n size type identifier d).1
  | Op.retain ptr => (sccp_refcount_retain s ptr).1
  | Op.release ptr => (sccp_refcount_release s ptr).1
  | Op.update ptr identifier => sccp_refcount_updateIdentifier s n ptr identifier

/-- The state after a finite sequence of calls. -/
def run (n : Nat) (s : Registry) : List Op → Registry
  | [] => s
  | op :: rest => run n (step n s op) rest

/-- The payload addresses of the entries of one bucket, in list order. -/
def addrs (s : Registry) (i : Fin SCCP_HASH_PRIME) : List Nat :=
  match s.objects i with
  | none => []
  | some l => l.map (fun o => o.data)

/-- The call is an allocation that returns `p`. -/
def hands_out (n : Nat) (s : Registry) (op : Op) (p : Nat) : Prop :=
  match op with
  | Op.alloc c m size type identifier d =>
    (sccp_refcount_object_alloc s c m n size type identifier d).2 = p
  | _ => False

/-- No call of the sequence, run from `s`, is an allocation that returns `p`. -/
def never_hands_out (n : Nat) (s : Registry) (p : Nat) : List Op → Prop
  | [] => True
  | op :: rest => ¬ hands_out n s op p ∧ never_hands_out n (step n s op) p rest

/-- No entry of the bucket of `p` has payload address `p`. -/
def absent (s : Registry) (p : Nat) : Prop :=
  p ∉ addrs s (slot p)

/-- The allocator never answers with a payload address that an entry of the
table still has.  Only the bucket selected by the address is inspected, which
asks less of the allocator than looking at the whole table. -/
def fresh_allocs (n : Nat) (s : Registry) : List Op → Prop
  | [] => True
  | op :: rest =>
    (match op with
      | Op.alloc c _ _ _ _ _ => c ≠ 0 → absent s c
      | _ => True) ∧ fresh_allocs n (step n s op) rest

/-- The call, made in state `s`, invokes the destructor `d` on `p`. -/
def destructor_called (n : Nat) (s : Registry) (op : Op) (d p : Nat) : Prop :=
  (step n s op).calls = s.calls ++ [(d, p)]

/-- No bucket holds two entries with the same payload address. -/
def distinct_addrs (s : Registry) : Prop :=
  ∀ i, (addrs s i).Nodup

instance absent_decidable (s : Registry) (p : Nat) : Decidable (absent s p) :=
  inferInstanceAs (Decidable (p ∉ addrs s (slot p)))

instance hands_out_decidable (n : Nat) (s : Registry) :
    (op : Op) → (p : Nat) → Decidable (hands_out n s op p)
  | Op.alloc c m size type identifier d, p =>
    inferInstanceAs
      (Decidable ((sccp_refcount_object_alloc s c m n size type identifier d).2 = p))
  | Op.retain _, _ => isFalse (fun h => h)
  | Op.release _, _ => isFalse (fun h => h)
  | Op.update _ _, _ => isFalse (fun h => h)

/-- Decision procedure for `never_hands_out`. -/
def never_hands_out_dec (n : Nat) (p : Nat) :
    (ops : List Op) → (s : Registry) → Decidable (never_hands_out n s p ops)
  | [], _ => isTrue trivial
  | op :: rest, s =>
    match hands_out_decidable n s op p, never_hands_out_dec n p rest (step n s op) with
    | isFalse h1, isTrue h2 => isTrue ⟨h1, h2⟩
    | isTrue h1, _ => isFalse (fun h => h.1 h1)
    | _, isFalse h2 => isFalse (fun h => h2 h.2)

instance never_hands_out_decidable (n : Nat) (s : Registry) (p : Nat) (ops : List Op) :
    Decidable (never_hands_out n s p ops) :=
  never_hands_out_dec n p ops s

/-- Decision procedure for `fresh_allocs`. -/
def fresh_allocs_dec (n : Nat) :
    (ops : List Op) → (s : Registry) → Decidable (fresh_allocs n s ops)
  | [], _ => isTrue trivial
  | Op.alloc c m size type identifier d :: rest, s =>
    match (inferInstance : Decidable (c ≠ 0 → absent s c)),
      fresh_allocs_dec n rest (step n s (Op.alloc c m size type identifier d)) with
    | isTrue h1, isTrue h2 => isTrue ⟨h1, h2⟩
    | isFalse h1, _ => isFalse (fun h => h1 h.1)
    | _, isFalse h2 => isFalse (fun h => h2 h.2)
  | Op.retain q :: rest, s =>
    match fresh_allocs_dec n rest (step n s (Op.retain q)) with
    | isTrue h2 => isTrue ⟨trivial, h2⟩
    | isFalse h2 => isFalse (fun h => h2 h.2)
  | Op.release q :: rest, s =>
    match fresh_allocs_dec n rest (step n s (Op.release q)) with
    | isTrue h2 => isTrue ⟨trivial, h2⟩
    | isFalse h2 => isFalse (fun h => h2 h.2)
  | Op.update q identifier :: rest, s =>
    match fresh_allocs_dec n rest (step n s (Op.update q identifier)) with
    | isTrue h2 => isTrue ⟨trivial, h2⟩
    | isFalse h2 => isFalse (fun h => h2 h.2)

instance fresh_allocs_decidable (n : Nat) (s : Registry) (ops : List Op) :
    Decidable (fresh_allocs n s ops) :=
  fresh_allocs_dec n ops s

instance destructor_called_decidable (n : Nat) (s : Registry) (op : Op) (d p : Nat) :
    Decidable (destructor_called n s op d p) :=
  inferInstanceAs (Decidable ((step n s op).calls = s.calls ++ [(d, p)]))

/-- The calls used to instantiate the theorems about executions: a channel is
allocated at 2000, retained once and released once. -/
def example_history : List Op :=
  [Op.alloc 2000 true 64 SCCP_REF_CHANNEL "SCCP/7001-00000001".toList 8192,
    Op.retain 2000, Op.release 2000]

/-- Calls made after the channel at 2000 was destroyed: a line is allocated in
the same bucket, and the stale pointer 2000 is retained and released. -/
def example_afterwards : List Op :=
  [Op.alloc 2563 true 32 SCCP_REF_LINE "7003".toList 4096, Op.retain 2000, Op.release 2000,
    Op.update 2000 "gone".toList]

/-- The entry of the channel at 2000 when its counter is 1. -/
def example_channel : RefCountedObject :=
  { refcount := 1, type := SCCP_REF_CHANNEL, identifier := "SCCP/7001-00000001".toList,
    alive := 13, len := 64, data := 2000 }

/-- The first allocation of the address 2000. -/
def example_alloc : Op :=
  Op.alloc 2000 true 64 SCCP_REF_CHANNEL "SCCP/7001-00000001".toList 8192

/-- The second allocation of the address 2000, after the first object is gone. -/
def example_realloc : Op :=
  Op.alloc 2000 true 48 SCCP_REF_CHANNEL "SCCP/7002-00000002".toList 8192

/-! ## Invariants of the reachable states -/

/-- The counter of the entry that a retain of `q` finds in `s`, if it finds
one, is below `2^31 - 1`, so that the increment does not leave the range of the
32-bit counter. -/
def retain_fits (s : Registry) (q : Nat) : Prop :=
  ∀ e, find_obj s q = some e → e.refcount < 2 ^ 31 - 1

instance retain_fits_decidable (s : Registry) (q : Nat) : Decidable (retain_fits s q) :=
  match h : find_obj s q with
  | none => isTrue (fun e he => by rw [h] at he; cases he)
  | some e0 =>
    if hc : e0.refcount < 2 ^ 31 - 1 then
      isTrue (fun e he => by rw [h] at he; cases he; exact hc)
    else isFalse (fun hf => hc (hf e0 h))

/-- Every retain of the sequence, run from `s`, fits the counter range. -/
def retains_in_range (n : Nat) (s : Registry) : List Op → Prop
  | [] => True
  | op :: rest =>
    (match op with
      | Op.retain q => retain_fits s q
      | _ => True) ∧ retains_in_range n (step n s op) rest

/-- Decision procedure for `retains_in_range`. -/
def retains_in_range_dec (n : Nat) :
    (ops : List Op) → (s : Registry) → Decidable (retains_in_range n s ops)
  | [], _ => isTrue trivial
  | Op.retain q :: rest, s =>
    match retain_fits_decidable s q, retains_in_range_dec n rest (step n s (Op.retain q)) with
    | isTrue h1, isTrue h2 => isTrue ⟨h1, h2⟩
    | isFalse h1, _ => isFalse (fun h => h1 h.1)
    | _, isFalse h2 => isFalse (fun h => h2 h.2)
  | Op.alloc c m size type identifier d :: rest, s =>
    match retains_in_range_dec n rest (step n s (Op.alloc c m size type identifier d)) with
    | isTrue h2 => isTrue ⟨trivial, h2⟩
    | isFalse h2 => isFalse (fun h => h2 h.2)
  | Op.release q :: rest, s =>
    match retains_in_range_dec n rest (step n s (Op.release q)) with
    | isTrue h2 => isTrue ⟨trivial, h2⟩
    | isFalse h2 => isFalse (fun h => h2 h.2)
  | Op.update q identifier :: rest, s =>
    match retains_in_range_dec n rest (step n s (Op.update q identifier)) with
    | isTrue h2 => isTrue ⟨trivial, h2⟩
    | isFalse h2 => isFalse (fun h => h2 h.2)

instance retains_in_range_decidable (n : Nat) (s : Registry) (ops : List Op) :
    Decidable (retains_in_range n s ops) :=
  retains_in_range_dec n ops s

/-- Every address held by a bucket is non-null and selects the slot of that
bucket. -/
def placed (s : Registry) : Prop :=
  ∀ i, ∀ p ∈ addrs s i, slot p = i ∧ p ≠ 0

/-- Every entry of every bucket carries the live marker and has a counter of
at least 1. -/
def all_live (s : Registry) : Prop :=
  ∀ i l, s.objects i = some l → ∀ e ∈ l, e.alive = SCCP_LIVE_MARKER ∧ 1 ≤ e.refcount

/-! ## What the dump is expected to show -/

/-- The rows owed to the entries of the bucket in slot `x`, in list order: the
first row carries the index unless `x` is 0, the others the continuation
mark. -/
def bucket_rows (info : sccp_refcounted_types → sccp_refcount_obj_info) (header_size : Nat)
    (x : Nat) : List RefCountedObject → List cli_line
  | [] => []
  | e :: rest =>
    print_row info header_size (if x = 0 then none else some x) e
      :: rest.map (print_row info header_size none)

/-- The rows owed to the slot `x` of the table. -/
def slot_rows (s : Registry) (header_size : Nat) (x : Fin SCCP_HASH_PRIME) : List cli_line :=
  match s.objects x with
  | none => []
  | some l => bucket_rows s.obj_info header_size x.val l

/-! ## What the shutdown sweep is expected to call -/

/-- The destructor calls owed to the entries of one bucket: for each entry, in
list order, the destructor registered for its type on its payload address, and
nothing for an entry whose type has no destructor. -/
def destructor_calls_for (info : sccp_refcounted_types → sccp_refcount_obj_info)
    (l : List RefCountedObject) : List (Nat × Nat) :=
  l.filterMap (fun obj =>
    if (info obj.type).destructor ≠ 0 then some ((info obj.type).destructor, obj.data) else none)

/-- The destructor calls owed to the entries of the bucket in slot `x`. -/
def slot_calls (s : Registry) (x : Fin SCCP_HASH_PRIME) : List (Nat × Nat) :=
  match s.objects x with
  | none => []
  | some l => destructor_calls_for s.obj_info l

/-! ## The destructor run as a function

In `remove_obj` and in the loop of `sccp_refcount_destroy` the destructor is a
function that is handed the payload and may itself call into this file.  In
the definitions of this section it is a parameter: `body d m p` is the state in
which the function at address `d`, called on `p` in the state `m`, returns. -/

/-- The destructor that leaves its call in the trace and does nothing else. -/
def record_call (d : Nat) (m : Registry) (p : Nat) : Registry :=
  { m with calls := m.calls ++ [(d, p)] }

/-- `remove_obj` with the destructor run as `body`. -/
def remove_obj_calling (body : Nat → Registry → Nat → Registry) (s : Registry) (ptr : Nat) :
    Registry :=
  if ptr = 0 then s
  else
    match s.objects (slot ptr) with
    | none => s
    | some l =>
      match traverse l ptr with
      | none => s
      | some obj =>
        let s1 := set_slot s (slot ptr) (some (unlink l ptr))
        if (s1.obj_info obj.type).destructor ≠ 0 then
          body (s1.obj_info obj.type).destructor s1 ptr
        else s1

/-- `sccp_refcount_release` with the destructor run as `body`. -/
def sccp_refcount_release_calling (body : Nat → Registry → Nat → Registry) (s : Registry)
    (ptr : Nat) : Registry × Nat :=
  match find_obj s ptr with
  | some obj =>
    if SCCP_LIVE_MARKER ≠ obj.alive ∨ obj.refcount < 0 then (s, 0)
    else
      let refcountval := obj.refcount
      let newrefcountval := refcountval - 1
      let cas := CAS32 obj.refcount refcountval newrefcountval
      let s1 := store_obj s ptr (fun o => { o with refcount := cas.2 })
      if newrefcountval = 0 then
        let s2 := store_obj s1 ptr (fun o => { o with alive := 0 })
        (remove_obj_calling body s2 ptr, 0)
      else (s1, 0)
  | none => (s, 0)

/-- One pass of the loop `while ((obj = SCCP_RWLIST_REMOVE_HEAD(...)))` of
`sccp_refcount_destroy` on the slot `x`, with the destructor run as `body`: the
head is unlinked, then the destructor of its type, if any, is called on
`obj->data`.  The result is `none` when the slot is empty or its list is, which
ends the loop. -/
def sweep_pass_calling (body : Nat → Registry → Nat → Registry) (s : Registry)
    (x : Fin SCCP_HASH_PRIME) : Option Registry :=
  match s.objects x with
  | some (obj :: rest) =>
    let s1 := set_slot s x (some rest)
    some (if (s1.obj_info obj.type).destructor ≠ 0 then
        body (s1.obj_info obj.type).destructor s1 obj.data
      else s1)
  | _ => none

/-! ## `sccp_line.c`: call forwarding -/

/-- The helper `sccp_strlen_zero` is not under `src/`; by its name and its use
it tells whether a string is empty. -/
def sccp_strlen_zero (data : List Char) : Bool :=
  data.isEmpty

/-- The fields `enabled` and `number` of `cfwdAll` and `cfwdBusy`. -/
structure sccp_cfwd_information where
  enabled : Nat
  number : List Char
  deriving DecidableEq, Repr

/-- The fields of `sccp_linedevices_t` that `sccp_line_cfwd` reads or writes;
`device` is a pointer. -/
structure sccp_linedevices_t where
  device : Nat
  lineInstance : Nat
  cfwdAll : sccp_cfwd_information
  cfwdBusy : sccp_cfwd_information
  deriving DecidableEq, Repr

/-- The features that `sccp_line_cfwd` reports as changed. -/
inductive sccp_feature_type where
  | SCCP_FEATURE_CFWDALL
  | SCCP_FEATURE_CFWDBUSY
  | SCCP_FEATURE_CFWDNONE
  deriving DecidableEq, Repr

/-- The calls of `sccp_line_cfwd` to functions outside this file that tell the
device about the change. -/
inductive cfwd_call where
  | sccp_dev_starttone (device : Nat)
  | sccp_feat_changed (device : Nat) (feature : sccp_feature_type)
  | sccp_dev_forward_status (l : Nat) (lineInstance : Nat) (device : Nat)
  deriving DecidableEq, Repr

/-- Both forwards switched off, the stored numbers kept:
`linedevice->cfwdAll.enabled = 0; linedevice->cfwdBusy.enabled = 0;`. -/
def cfwd_disable (linedevice : sccp_linedevices_t) : sccp_linedevices_t :=
  { linedevice with
    cfwdAll := { linedevice.cfwdAll with enabled := 0 }
    cfwdBusy := { linedevice.cfwdBusy with enabled := 0 } }

/-- `sccp_line_cfwd`.  The enumeration constants `SCCP_CFWD_NONE`,
`SCCP_CFWD_ALL`, `SCCP_CFWD_BUSY` and the size `number_size` of the field
`number` are not defined under `src/` and are parameters.  `l` and `device` are
pointers, `found` is the answer of `sccp_linedevice_find(device, l)`, a function
outside `src/`, and `number` is `none` for a null pointer.  The result is the
linedevice after the call and the calls made to tell the device, in order.  The
reference that `sccp_linedevice_find` took is given back at the end. -/
def sccp_line_cfwd (SCCP_CFWD_NONE SCCP_CFWD_ALL SCCP_CFWD_BUSY number_size : Nat)
    (l device : Nat) (found : Option sccp_linedevices_t) (type : Nat)
    (number : Option (List Char)) : Option sccp_linedevices_t × List cfwd_call :=
  if l = 0 ∨ device = 0 then (found, [])
  else
    match found with
    | none => (none, [])
    | some linedevice =>
      let linedevice1 : sccp_linedevices_t :=
        if type = SCCP_CFWD_NONE then cfwd_disable linedevice
        else
          match number with
          | none => cfwd_disable linedevice
          | some number =>
            if sccp_strlen_zero number then cfwd_disable linedevice
            else if type = SCCP_CFWD_ALL then
              { linedevice with
                cfwdAll :=
                  { enabled := 1, number := sccp_copy_string number number_size } }
            else if type = SCCP_CFWD_BUSY then
              { linedevice with
                cfwdBusy :=
                  { enabled := 1, number := sccp_copy_string number number_size } }
            else cfwd_disable linedevice
      let told : List cfwd_call :=
        if linedevice1.device ≠ 0 then
          [cfwd_call.sccp_dev_starttone linedevice1.device,
            cfwd_call.sccp_feat_changed linedevice1.device
              (if type = SCCP_CFWD_ALL then sccp_feature_type.SCCP_FEATURE_CFWDALL
               else if type = SCCP_CFWD_BUSY then sccp_feature_type.SCCP_FEATURE_CFWDBUSY
               else sccp_feature_type.SCCP_FEATURE_CFWDNONE),
            cfwd_call.sccp_dev_forward_status l linedevice1.lineInstance device]
        else []
      (some linedevice1, told)

/-! ## `sccp_line.c`: the global list of lines -/

/-- The function `strcasecmp` of the C library: the strings are compared
character by character after `tolower`; the result is less than, equal to or
greater than zero, and only its sign is kept here. -/
def strcasecmp : List Char → List Char → Int
  | [], [] => 0
  | [], _ :: _ => -1
  | _ :: _, [] => 1
  | a :: as, b :: bs =>
    if a.toLower = b.toLower then strcasecmp as bs
    else if a.toLower < b.toLower then -1
    else 1

/-- The parts of `sccp_line_t` that `sccp_line_addToGlobals` uses: the address
of the line, which is its handle in the registry, and its name. -/
structure sccp_line_t where
  ptr : Nat
  name : List Char
  deriving DecidableEq, Repr

/-- The state that `sccp_line_addToGlobals` works on: the registry, the list
`GLOB(lines)` from its head, and the pointers `event.event.lineCreated.line` of
the `SCCP_EVENT_LINE_CREATED` events fired so far. -/
structure line_globals where
  registry : Registry
  lines : List sccp_line_t
  events : List Nat

/-- `sccp_line_addToGlobals`; the argument `none` is the null pointer.  The
macros `sccp_line_retain` and `sccp_line_release` are not under `src/`; they are
taken as `sccp_refcount_retain` and `sccp_refcount_release` on the line.  The
result is `none` where the C code inserts a null pointer into the list, which
happens when the retain before `SCCP_RWLIST_INSERT_HEAD` fails; otherwise it is
the state after the call and the pointer returned. -/
def sccp_line_addToGlobals (g : line_globals) (line : Option sccp_line_t) :
    Option (line_globals × Option sccp_line_t) :=
  match line with
  | none => some (g, none)
  | some line =>
    match g.lines.find? (fun l => strcasecmp l.name line.name = 0) with
    | some l =>
      some ({ g with registry := (sccp_refcount_release g.registry line.ptr).1 }, some l)
    | none =>
      let r1 := sccp_refcount_retain g.registry line.ptr
      if r1.2 = 0 then none
      else
        let line1 : sccp_line_t := { line with ptr := r1.2 }
        let r2 := sccp_refcount_retain r1.1 line1.ptr
        some ({ registry := r2.1, lines := line1 :: g.lines, events := g.events ++ [r2.2] },
          some line1)

/-- No two lines of the list have names that are equal when case is ignored. -/
def names_unique (lines : List sccp_line_t) : Prop :=
  lines.Pairwise (fun a b => a.name.map Char.toLower ≠ b.name.map Char.toLower)

instance names_unique_decidable (lines : List sccp_line_t) : Decidable (names_unique lines) :=
  inferInstanceAs (Decidable (lines.Pairwise _))

/-! ## `sccp_callinfo.c` -/

/-- The helper `sccp_strequals` is not under `src/`; by its name and its use it
tells whether two strings are equal. -/
def sccp_strequals (data1 data2 : List Char) : Bool :=
  decide (data1 = data2)

/-- `enum callinfo_groups`. -/
inductive callinfo_groups where
  | CALLED_PARTY
  | CALLING_PARTY
  | ORIG_CALLED_PARTY
  | ORIG_CALLING_PARTY
  | LAST_REDIRECTING_PARTY
  | HUNT_PILOT
  deriving DecidableEq, Repr, Fintype

/-- `enum callinfo_types`. -/
inductive callinfo_types where
  | NAME
  | NUMBER
  | VOICEMAILBOX
  deriving DecidableEq, Repr

/-- `callinfo_entry_t`; the validity flags are `uint16_t`. -/
structure callinfo_entry_t where
  Name : List Char
  Number : List Char
  VoiceMailbox : List Char
  NumberValid : Nat
  VoiceMailboxValid : Nat
  deriving DecidableEq, Repr

/-- `struct sccp_callinfo` without its lock: the entry of each group, the two
redirect reasons (`uint32_t`) and the presentation. -/
@[ext] structure sccp_callinfo where
  entries : callinfo_groups → callinfo_entry_t
  originalCdpnRedirectReason : Nat
  lastRedirectingReason : Nat
  presentation : Nat

/-- The keys of `sccp_callinfo_key_t` that select a string: those with a row in
`callinfo_lookup[]`. -/
inductive callinfo_text_key where
  | SCCP_CALLINFO_CALLEDPARTY_NAME
  | SCCP_CALLINFO_CALLEDPARTY_NUMBER
  | SCCP_CALLINFO_CALLEDPARTY_VOICEMAIL
  | SCCP_CALLINFO_CALLINGPARTY_NAME
  | SCCP_CALLINFO_CALLINGPARTY_NUMBER
  | SCCP_CALLINFO_CALLINGPARTY_VOICEMAIL
  | SCCP_CALLINFO_ORIG_CALLEDPARTY_NAME
  | SCCP_CALLINFO_ORIG_CALLEDPARTY_NUMBER
  | SCCP_CALLINFO_ORIG_CALLEDPARTY_VOICEMAIL
  | SCCP_CALLINFO_ORIG_CALLINGPARTY_NAME
  | SCCP_CALLINFO_ORIG_CALLINGPARTY_NUMBER
  | SCCP_CALLINFO_LAST_REDIRECTINGPARTY_NAME
  | SCCP_CALLINFO_LAST_REDIRECTINGPARTY_NUMBER
  | SCCP_CALLINFO_LAST_REDIRECTINGPARTY_VOICEMAIL
  | SCCP_CALLINFO_HUNT_PILOT_NAME
  | SCCP_CALLINFO_HUNT_PILOT_NUMBER
  deriving DecidableEq, Repr

/-- The keys that the loop of `sccp_callinfo_setter` accepts, those between
`SCCP_CALLINFO_NONE` and `SCCP_CALLINFO_KEY_SENTINEL`: the keys of a string and
the three keys handled by a `case` of their own.  The enumeration itself is not
under `src/`. -/
inductive sccp_callinfo_key_t where
  | text (key : callinfo_text_key)
  | SCCP_CALLINFO_ORIG_CALLEDPARTY_REDIRECT_REASON
  | SCCP_CALLINFO_LAST_REDIRECT_REASON
  | SCCP_CALLINFO_PRESENTATION
  deriving DecidableEq, Repr

/-- One key of the variable argument list with the value that follows it, read
by `va_arg` with the type that the key asks for: an `int` for the two reasons,
a `sccp_calleridpresence_t` for the presentation, a `char *` (`none` for the
null pointer) for every other key.  An argument list is the list of these pairs
in front of the key that ends the loop. -/
inductive setter_arg where
  | orig_reason (new_value : Int)
  | last_reason (new_value : Int)
  | presentation (new_value : Nat)
  | text (curkey : callinfo_text_key) (new_value : Option (List Char))
  deriving DecidableEq, Repr

/-- The key of an argument. -/
def setter_arg.curkey : setter_arg → sccp_callinfo_key_t
  | setter_arg.orig_reason _ => sccp_callinfo_key_t.SCCP_CALLINFO_ORIG_CALLEDPARTY_REDIRECT_REASON
  | setter_arg.last_reason _ => sccp_callinfo_key_t.SCCP_CALLINFO_LAST_REDIRECT_REASON
  | setter_arg.presentation _ => sccp_callinfo_key_t.SCCP_CALLINFO_PRESENTATION
  | setter_arg.text curkey _ => sccp_callinfo_key_t.text curkey

/-- One row of `callinfo_lookup[]`. -/
structure callinfo_lookup_entry where
  group : callinfo_groups
  type : callinfo_types
  deriving DecidableEq, Repr

open callinfo_groups callinfo_types callinfo_text_key

/-- The table `callinfo_lookup[]`. -/
def callinfo_lookup : callinfo_text_key → callinfo_lookup_entry
  | SCCP_CALLINFO_CALLEDPARTY_NAME => ⟨CALLED_PARTY, NAME⟩
  | SCCP_CALLINFO_CALLEDPARTY_NUMBER => ⟨CALLED_PARTY, NUMBER⟩
  | SCCP_CALLINFO_CALLEDPARTY_VOICEMAIL => ⟨CALLED_PARTY, VOICEMAILBOX⟩
  | SCCP_CALLINFO_CALLINGPARTY_NAME => ⟨CALLING_PARTY, NAME⟩
  | SCCP_CALLINFO_CALLINGPARTY_NUMBER => ⟨CALLING_PARTY, NUMBER⟩
  | SCCP_CALLINFO_CALLINGPARTY_VOICEMAIL => ⟨CALLING_PARTY, VOICEMAILBOX⟩
  | SCCP_CALLINFO_ORIG_CALLEDPARTY_NAME => ⟨ORIG_CALLED_PARTY, NAME⟩
  | SCCP_CALLINFO_ORIG_CALLEDPARTY_NUMBER => ⟨ORIG_CALLED_PARTY, NUMBER⟩
  | SCCP_CALLINFO_ORIG_CALLEDPARTY_VOICEMAIL => ⟨ORIG_CALLED_PARTY, VOICEMAILBOX⟩
  | SCCP_CALLINFO_ORIG_CALLINGPARTY_NAME => ⟨ORIG_CALLING_PARTY, NAME⟩
  | SCCP_CALLINFO_ORIG_CALLINGPARTY_NUMBER => ⟨ORIG_CALLING_PARTY, NUMBER⟩
  | SCCP_CALLINFO_LAST_REDIRECTINGPARTY_NAME => ⟨LAST_REDIRECTING_PARTY, NAME⟩
  | SCCP_CALLINFO_LAST_REDIRECTINGPARTY_NUMBER => ⟨LAST_REDIRECTING_PARTY, NUMBER⟩
  | SCCP_CALLINFO_LAST_REDIRECTINGPARTY_VOICEMAIL => ⟨LAST_REDIRECTING_PARTY, VOICEMAILBOX⟩
  | SCCP_CALLINFO_HUNT_PILOT_NAME => ⟨HUNT_PILOT, NAME⟩
  | SCCP_CALLINFO_HUNT_PILOT_NUMBER => ⟨HUNT_PILOT, NUMBER⟩

/-- `sccp_callinfo_ctor`: `none` when `sccp_calloc` fails, otherwise the zeroed
struct with the presentation set to `CALLERID_PRESENCE_ALLOWED`, a constant
whose value is not under `src/`. -/
def sccp_callinfo_ctor (calloc_ok : Bool) (CALLERID_PRESENCE_ALLOWED : Nat) :
    Option sccp_callinfo :=
  if calloc_ok then
    some
      { entries := fun _ =>
          { Name := [], Number := [], VoiceMailbox := [], NumberValid := 0,
            VoiceMailboxValid := 0 }
        originalCdpnRedirectReason := 0
        lastRedirectingReason := 0
        presentation := CALLERID_PRESENCE_ALLOWED }
  else none

/-- The conversion of an `int` to `uint32_t`. -/
def uint32_of_int (value : Int) : Nat :=
  (value % 2 ^ 32).toNat

/-- The string that `dstPtr` points to after the inner `switch (entry.type)`. -/
def read_dst (callinfo : callinfo_entry_t) : callinfo_types → List Char
  | callinfo_types.NAME => callinfo.Name
  | callinfo_types.NUMBER => callinfo.Number
  | callinfo_types.VOICEMAILBOX => callinfo.VoiceMailbox

/-- A store of a string through `dstPtr`. -/
def write_dst (callinfo : callinfo_entry_t) (type : callinfo_types) (value : List Char) :
    callinfo_entry_t :=
  match type with
  | callinfo_types.NAME => { callinfo with Name := value }
  | callinfo_types.NUMBER => { callinfo with Number := value }
  | callinfo_types.VOICEMAILBOX => { callinfo with VoiceMailbox := value }

/-- The statement `if (validPtr) *validPtr = ...`: `validPtr` is null for a
name. -/
def write_valid (callinfo : callinfo_entry_t) (type : callinfo_types) (value : Nat) :
    callinfo_entry_t :=
  match type with
  | callinfo_types.NAME => callinfo
  | callinfo_types.NUMBER => { callinfo with NumberValid := value }
  | callinfo_types.VOICEMAILBOX => { callinfo with VoiceMailboxValid := value }

/-- The body of the `for` loop of `sccp_callinfo_setter` for one key and its
value; `StationMaxDirnumSize` is a constant whose value is not under `src/`.
The `int` of a reason is compared with and stored into a `uint32_t`, hence the
conversion modulo `2^32`. -/
def setter_body (StationMaxDirnumSize : Nat) (ci : sccp_callinfo) (changes : Nat) :
    setter_arg → sccp_callinfo × Nat
  | setter_arg.orig_reason new_value =>
    if uint32_of_int new_value ≠ ci.originalCdpnRedirectReason then
      ({ ci with originalCdpnRedirectReason := uint32_of_int new_value }, changes + 1)
    else (ci, changes)
  | setter_arg.last_reason new_value =>
    if uint32_of_int new_value ≠ ci.lastRedirectingReason then
      ({ ci with lastRedirectingReason := uint32_of_int new_value }, changes + 1)
    else (ci, changes)
  | setter_arg.presentation new_value =>
    if new_value ≠ ci.presentation then
      ({ ci with presentation := new_value }, changes + 1)
    else (ci, changes)
  | setter_arg.text _ none => (ci, changes)
  | setter_arg.text curkey (some new_value) =>
    let entry := callinfo_lookup curkey
    let callinfo := ci.entries entry.group
    if ¬ sccp_strequals (read_dst callinfo entry.type) new_value then
      let callinfo1 :=
        write_dst callinfo entry.type (sccp_copy_string new_value StationMaxDirnumSize)
      let callinfo2 :=
        write_valid callinfo1 entry.type (if sccp_strlen_zero new_value then 0 else 1)
      ({ ci with entries := fun g => if g = entry.group then callinfo2 else ci.entries g },
        changes + 1)
    else (ci, changes)

/-- The `for` loop of `sccp_callinfo_setter` over the argument list. -/
def setter_loop (StationMaxDirnumSize : Nat) :
    sccp_callinfo → Nat → List setter_arg → sccp_callinfo × Nat
  | ci, changes, [] => (ci, changes)
  | ci, changes, arg :: rest =>
    setter_loop StationMaxDirnumSize (setter_body StationMaxDirnumSize ci changes arg).1
      (setter_body StationMaxDirnumSize ci changes arg).2 rest

/-- `sccp_callinfo_setter`: the callinfo after the call and the value
returned, `changes`. -/
def sccp_callinfo_setter (StationMaxDirnumSize : Nat) (ci : sccp_callinfo)
    (args : List setter_arg) : sccp_callinfo × Nat :=
  setter_loop StationMaxDirnumSize ci 0 args

/-- The callinfo after a sequence of `sccp_callinfo_setter` calls. -/
def setter_calls (StationMaxDirnumSize : Nat) (ci : sccp_callinfo) :
    List (List setter_arg) → sccp_callinfo
  | [] => ci
  | args :: rest =>
    setter_calls StationMaxDirnumSize (sccp_callinfo_setter StationMaxDirnumSize ci args).1 rest

/-- In one entry, each validity flag is 1 when its string is not empty and 0
when it is. -/
def entry_valid (callinfo : callinfo_entry_t) : Prop :=
  callinfo.NumberValid = (if callinfo.Number = [] then 0 else 1) ∧
  callinfo.VoiceMailboxValid = (if callinfo.VoiceMailbox = [] then 0 else 1)

instance entry_valid_decidable (callinfo : callinfo_entry_t) :
    Decidable (entry_valid callinfo) :=
  inferInstanceAs (Decidable (_ ∧ _))

/-- The validity flags agree with the stored strings in every group. -/
def flags_valid (ci : sccp_callinfo) : Prop :=
  ∀ g, entry_valid (ci.entries g)

instance flags_valid_decidable (ci : sccp_callinfo) : Decidable (flags_valid ci) :=
  inferInstanceAs (Decidable (∀ g, entry_valid (ci.entries g)))

/-- The argument sets a name. -/
def names_only : setter_arg → Prop
  | setter_arg.text curkey _ => (callinfo_lookup curkey).type = callinfo_types.NAME
  | _ => False

instance names_only_decidable : (arg : setter_arg) → Decidable (names_only arg)
  | setter_arg.text curkey _ =>
    inferInstanceAs (Decidable ((callinfo_lookup curkey).type = callinfo_types.NAME))
  | setter_arg.orig_reason _ => isFalse (fun h => h)
  | setter_arg.last_reason _ => isFalse (fun h => h)
  | setter_arg.presentation _ => isFalse (fun h => h)

/-- The value that the argument supplies is not null and differs from the
value stored in the field that its key selects. -/
def arg_differs (ci : sccp_callinfo) : setter_arg → Bool
  | setter_arg.orig_reason new_value =>
    decide (uint32_of_int new_value ≠ ci.originalCdpnRedirectReason)
  | setter_arg.last_reason new_value =>
    decide (uint32_of_int new_value ≠ ci.lastRedirectingReason)
  | setter_arg.presentation new_value => decide (new_value ≠ ci.presentation)
  | setter_arg.text _ none => false
  | setter_arg.text curkey (some new_value) =>
    decide (read_dst (ci.entries (callinfo_lookup curkey).group) (callinfo_lookup curkey).type
      ≠ new_value)

/-- The string of the argument, if it has one, is shorter than the field
size. -/
def arg_fits (StationMaxDirnumSize : Nat) : setter_arg → Prop
  | setter_arg.text _ (some new_value) => new_value.length < StationMaxDirnumSize
  | _ => True

instance arg_fits_decidable (StationMaxDirnumSize : Nat) :
    (arg : setter_arg) → Decidable (arg_fits StationMaxDirnumSize arg)
  | setter_arg.text _ (some new_value) =>
    inferInstanceAs (Decidable (new_value.length < StationMaxDirnumSize))
  | setter_arg.text _ none => isTrue trivial
  | setter_arg.orig_reason _ => isTrue trivial
  | setter_arg.last_reason _ => isTrue trivial
  | setter_arg.presentation _ => isTrue trivial

/-- The strings of the argument list are shorter than the field size. -/
def strings_fit (StationMaxDirnumSize : Nat) (args : List setter_arg) : Prop :=
  ∀ arg ∈ args, arg_fits StationMaxDirnumSize arg

instance strings_fit_decidable (StationMaxDirnumSize : Nat) (args : List setter_arg) :
    Decidable (strings_fit StationMaxDirnumSize args) :=
  inferInstanceAs (Decidable (∀ arg ∈ args, arg_fits StationMaxDirnumSize arg))

/-! ## `sccp_line.c`: a destructor that calls back into the registry -/

/-- `__sccp_lineDevice_destroy`, the destructor of a linedevice: the line and
the device that the linedevice refers to are released.  `line` and `device` are
the values of `linedevice->line` and `linedevice->device` when the destructor
is called, `0` for a null pointer; the macros `sccp_line_release` and
`sccp_device_release` are not under `src/` and are taken as
`sccp_refcount_release`; `body` runs the destructors that these releases
call in turn. -/
def __sccp_lineDevice_destroy (body : Nat → Registry → Nat → Registry) (line device : Nat)
    (m : Registry) : Registry :=
  let m1 := if line ≠ 0 then (sccp_refcount_release_calling body m line).1 else m
  if device ≠ 0 then (sccp_refcount_release_calling body m1 device).1 else m1

/-! ## A concrete registry used to instantiate the theorems

Two lines share bucket 437: the handle 1563 (counter 1) in front of the handle
1000 (counter 2); bucket 5 holds an entry for the address 568 that has lost its
live marker.  The type `line` has the destructor at address 4096. -/

/-- The entry of handle 1563. -/
def example_first : RefCountedObject :=
  { refcount := 1, type := SCCP_REF_LINE, identifier := "7002".toList, alive := 13,
    len := 64, data := 1563 }

/-- The entry of handle 1000. -/
def example_second : RefCountedObject :=
  { refcount := 2, type := SCCP_REF_LINE, identifier := "7001".toList, alive := 13,
    len := 64, data := 1000 }

/-- An entry without the live marker. -/
def example_dead : RefCountedObject :=
  { refcount := 0, type := SCCP_REF_DEVICE, identifier := "SEP01".toList, alive := 0,
    len := 32, data := 568 }

/-- The example registry. -/
def example_registry : Registry :=
  { refcount_destroyed := false
    obj_info := fun t =>
      if t = SCCP_REF_LINE then ⟨4096, "line".toList, DEBUGCAT_LINE⟩ else obj_info_init t
    objects := fun i =>
      if i.val = 437 then some [example_first, example_second]
      else if i.val = 5 then some [example_dead]
      else none
    calls := [] }

/-- A live entry whose counter is 0. -/
def example_zero : RefCountedObject :=
  { refcount := 0, type := SCCP_REF_DEVICE, identifier := "SEP02".toList, alive := 13,
    len := 32, data := 3000 }

/-- A live entry whose counter is negative. -/
def example_negative : RefCountedObject :=
  { refcount := -1, type := SCCP_REF_DEVICE, identifier := "SEP03".toList, alive := 13,
    len := 32, data := 3563 }

/-- A registry whose bucket 185 holds the two entries above; the type `device`
has the destructor at address 12288. -/
def example_fading : Registry :=
  { refcount_destroyed := false
    obj_info := fun t =>
      if t = SCCP_REF_DEVICE then ⟨12288, "device".toList, DEBUGCAT_DEVICE⟩ else obj_info_init t
    objects := fun i => if i.val = 185 then some [example_zero, example_negative] else none
    calls := [] }

/-- The allocation of a line at 2563, in the bucket of the channel at 2000. -/
def example_realloc_other : Op :=
  Op.alloc 2563 true 32 SCCP_REF_LINE "7003".toList 4096

/-- The entry of the line at 2563. -/
def example_other : RefCountedObject :=
  { refcount := 1, type := SCCP_REF_LINE, identifier := "7003".toList, alive := 13,
    len := 32, data := 2563 }

/-- A registry with one entry whose payload size does not fit an `int`. -/
def example_huge : Registry :=
  { refcount_destroyed := false
    obj_info := obj_info_init
    objects := fun i =>
      if i.val = 5 then
        some [{ refcount := 1, type := SCCP_REF_TEST, identifier := "big".toList, alive := 13,
                len := 2147483648, data := 568 }]
      else none
    calls := [] }

/-- The state in which the channel at 2000 was allocated, retained, released
and released again: its destructor has run and the pointer 2000 is stale. -/
def example_destroyed : Registry :=
  run 25 Registry.initial (example_history ++ [Op.release 2000])

/-- The state in which the allocation of the line at 2563 has registered the
destructor 4096 for the type `line`. -/
def example_registered : Registry :=
  run 25 Registry.initial [example_realloc_other]

/-- A linedevice with a busy forward set and an old number kept in `cfwdAll`. -/
def example_linedevice : sccp_linedevices_t :=
  { device := 7000, lineInstance := 1
    cfwdAll := { enabled := 0, number := "100".toList }
    cfwdBusy := { enabled := 1, number := "200".toList } }

/-- A state in which the list of lines holds the line `7002` at 1563. -/
def example_globals : line_globals :=
  { registry := example_registry
    lines := [{ ptr := 1563, name := "7002".toList }]
    events := [] }

/-- A callinfo with a called party and a redirect reason set. -/
def example_callinfo : sccp_callinfo :=
  { entries := fun g =>
      if g = CALLED_PARTY then
        { Name := "Alice".toList, Number := "100".toList, VoiceMailbox := [], NumberValid := 1,
          VoiceMailboxValid := 0 }
      else
        { Name := [], Number := [], VoiceMailbox := [], NumberValid := 0,
          VoiceMailboxValid := 0 }
    originalCdpnRedirectReason := 0
    lastRedirectingReason := 2
    presentation := 1 }

/-- An argument list for `sccp_callinfo_setter`: the called number as it is
stored, a new calling number, a null calling name, and a new redirect reason. -/
def example_args : List setter_arg :=
  [setter_arg.text SCCP_CALLINFO_CALLEDPARTY_NUMBER (some "100".toList),
    setter_arg.text SCCP_CALLINFO_CALLINGPARTY_NUMBER (some "200".toList),
    setter_arg.text SCCP_CALLINFO_CALLINGPARTY_NAME none,
    setter_arg.last_reason 5]

/-- The entry of a linedevice at 2000, counter 1. -/
def example_linedevice_entry : RefCountedObject :=
  { refcount := 1, type := SCCP_REF_LINEDEVICE, identifier := [], alive := 13, len := 96,
    data := 2000 }

/-- The example registry with the linedevice at 2000 in bucket 311; the type
`linedevice` has the destructor at address 16384. -/
def example_attached : Registry :=
  { refcount_destroyed := false
    obj_info := fun t =>
      if t = SCCP_REF_LINEDEVICE then ⟨16384, "linedevice".toList, DEBUGCAT_LINE⟩
      else example_registry.obj_info t
    objects := fun i =>
      if i.val = 311 then some [example_linedevice_entry] else example_registry.objects i
    calls := [] }

/-- The destructors as functions: the one at 16384 is `__sccp_lineDevice_destroy`
on the linedevice whose `line` is the line at 1000 and whose `device` is null;
every other destructor only leaves its call in the trace. -/
def example_destructors (d : Nat) (m : Registry) (p : Nat) : Registry :=
  if d = 16384 then __sccp_lineDevice_destroy record_call 1000 0 (record_call d m p)
  else record_call d m p

/-! ## Basic facts -/

theorem wrap32_of_range (x : Int) (h1 : -2147483648 ≤ x) (h2 : x < 2147483648) :
    wrap32 x = x := by
  unfold wrap32
  norm_num
  omega

theorem CAS32_hit (c d : Int) : CAS32 c c d = (c, d) := by
  simp [CAS32]

theorem traverse_append (before after : List RefCountedObject) (e : RefCountedObject) (h : Nat)
    (he : e.data = h) (hb : ∀ x ∈ before, x.data ≠ h) :
    traverse (before ++ e :: after) h = some e := by
  induction before with
  | nil => simp [traverse, he]
  | cons b bs ih =>
    have hb1 : b.data ≠ h := hb b (by simp)
    have hb2 : ∀ x ∈ bs, x.data ≠ h := fun x hx => hb x (by simp [hx])
    simp [traverse, hb1, ih hb2]

theorem store_append (before after : List RefCountedObject) (e : RefCountedObject) (h : Nat)
    (f : RefCountedObject → RefCountedObject)
    (he : e.data = h) (hb : ∀ x ∈ before, x.data ≠ h) :
    store (before ++ e :: after) h f = before ++ f e :: after := by
  induction before with
  | nil => simp [store, he]
  | cons b bs ih =>
    have hb1 : b.data ≠ h := hb b (by simp)
    have hb2 : ∀ x ∈ bs, x.data ≠ h := fun x hx => hb x (by simp [hx])
    simp [store, hb1, ih hb2]

theorem unlink_append (before after : List RefCountedObject) (e : RefCountedObject) (h : Nat)
    (he : e.data = h) (hb : ∀ x ∈ before, x.data ≠ h) :
    unlink (before ++ e :: after) h = before ++ after := by
  induction before with
  | nil => simp [unlink, he]
  | cons b bs ih =>
    have hb1 : b.data ≠ h := hb b (by simp)
    have hb2 : ∀ x ∈ bs, x.data ≠ h := fun x hx => hb x (by simp [hx])
    simp [unlink, hb1, ih hb2]

theorem traverse_some_split (l : List RefCountedObject) (h : Nat) (e : RefCountedObject)
    (ht : traverse l h = some e) :
    ∃ before after, l = before ++ e :: after ∧ e.data = h ∧ ∀ x ∈ before, x.data ≠ h := by
  induction l with
  | nil => simp [traverse] at ht
  | cons b bs ih =>
    by_cases hb : b.data = h
    · simp [traverse, hb] at ht
      subst ht
      exact ⟨[], bs, by simp, hb, by simp⟩
    · simp [traverse, hb] at ht
      obtain ⟨p, q, hl, hd, hp⟩ := ih ht
      refine ⟨b :: p, q, by simp [hl], hd, ?_⟩
      intro x hx
      rcases List.mem_cons.mp hx with hx | hx
      · subst hx; exact hb
      · exact hp x hx

theorem traverse_none_iff (l : List RefCountedObject) (h : Nat) :
    traverse l h = none ↔ ∀ x ∈ l, x.data ≠ h := by
  induction l with
  | nil => simp [traverse]
  | cons b bs ih =>
    by_cases hb : b.data = h
    · simp [traverse, hb]
    · simp [traverse, hb, ih]

theorem set_slot_same (s : Registry) (i : Fin SCCP_HASH_PRIME)
    (b : Option (List RefCountedObject)) : (set_slot s i b).objects i = b := by
  simp [set_slot]

theorem set_slot_other (s : Registry) (i j : Fin SCCP_HASH_PRIME)
    (b : Option (List RefCountedObject)) (hj : j ≠ i) :
    (set_slot s i b).objects j = s.objects j := by
  simp [set_slot, hj]

theorem set_slot_set_slot (s : Registry) (i : Fin SCCP_HASH_PRIME)
    (b c : Option (List RefCountedObject)) :
    set_slot (set_slot s i b) i c = set_slot s i c := by
  apply Registry.ext <;> simp [set_slot]
  funext j
  by_cases hj : j = i <;> simp [hj]

theorem set_slot_id (s : Registry) (i : Fin SCCP_HASH_PRIME)
    (b : Option (List RefCountedObject)) (hb : s.objects i = b) : set_slot s i b = s := by
  apply Registry.ext <;> simp [set_slot]
  funext j
  by_cases hj : j = i <;> simp [hj, hb]

/-- The lookup succeeds exactly on a non-null handle whose entry carries the
live marker. -/
theorem find_obj_eq_some_iff (s : Registry) (h : Nat) (e : RefCountedObject) :
    find_obj s h = some e ↔
      h ≠ 0 ∧ e.alive = SCCP_LIVE_MARKER ∧ ∃ before after, entry_at s h before e after := by
  unfold find_obj entry_at
  constructor
  · intro hf
    by_cases h0 : h = 0
    · simp [h0] at hf
    · simp only [h0, if_false] at hf
      cases hb : s.objects (slot h) with
      | none => simp [hb] at hf
      | some l =>
        simp only [hb] at hf
        cases ht : traverse l h with
        | none => simp [ht] at hf
        | some o =>
          simp only [ht] at hf
          by_cases ha : SCCP_LIVE_MARKER = o.alive
          · simp only [ha, if_true, Option.some.injEq] at hf
            subst hf
            obtain ⟨p, q, hl, hd, hp⟩ := traverse_some_split l h o ht
            exact ⟨h0, ha.symm, p, q, by rw [hl], hd, hp⟩
          · simp [ha] at hf
  · rintro ⟨h0, ha, p, q, hb, hd, hp⟩
    simp [h0, hb, traverse_append p q e h hd hp, ha]

theorem find_obj_of_entry_at (s : Registry) (h : Nat) (before after : List RefCountedObject)
    (e : RefCountedObject) (h0 : h ≠ 0) (hat : entry_at s h before e after)
    (ha : e.alive = SCCP_LIVE_MARKER) : find_obj s h = some e :=
  (find_obj_eq_some_iff s h e).mpr ⟨h0, ha, before, after, hat⟩

theorem store_obj_of_entry_at (s : Registry) (h : Nat) (before after : List RefCountedObject)
    (e : RefCountedObject) (f : RefCountedObject → RefCountedObject)
    (hat : entry_at s h before e after) :
    store_obj s h f = set_slot s (slot h) (some (before ++ f e :: after)) := by
  obtain ⟨hb, hd, hp⟩ := hat
  simp [store_obj, hb, store_append before after e h f hd hp]

theorem entry_at_set_slot (s : Registry) (h : Nat) (before after : List RefCountedObject)
    (e : RefCountedObject) (hd : e.data = h) (hp : ∀ x ∈ before, x.data ≠ h) :
    entry_at (set_slot s (slot h) (some (before ++ e :: after))) h before e after :=
  ⟨set_slot_same _ _ _, hd, hp⟩

/-! ## The loops end in their first pass -/

theorem retain_loop_one_pass (fuel : Nat) (alive cell : Int) :
    retain_loop (fuel + 1) alive cell =
      some (if SCCP_LIVE_MARKER ≠ alive ∨ cell ≤ 0 then none
        else some (wrap32 (cell + 1), wrap32 (cell + 1))) := by
  by_cases hc : SCCP_LIVE_MARKER ≠ alive ∨ cell ≤ 0
  · simp [retain_loop, hc]
  · have h0 : cell ≠ 0 := by
      intro h
      exact hc (Or.inr (by omega))
    have ha : SCCP_LIVE_MARKER = alive := by
      by_contra h
      exact hc (Or.inl h)
    have hpos : ¬ (cell ≤ 0) := fun h => hc (Or.inr h)
    simp [retain_loop, h0, hpos, ha, CAS32_hit]

theorem release_loop_one_pass (fuel : Nat) (alive cell : Int) :
    release_loop (fuel + 1) alive cell =
      some (if SCCP_LIVE_MARKER ≠ alive ∨ cell < 0 then none
        else some (cell - 1, cell - 1)) := by
  by_cases hc : SCCP_LIVE_MARKER ≠ alive ∨ cell < 0
  · simp [release_loop, hc]
  · have h0 : ¬ (cell < 0) := fun h => hc (Or.inr h)
    have ha : SCCP_LIVE_MARKER = alive := by
      by_contra h
      exact hc (Or.inl h)
    simp [release_loop, h0, ha, CAS32_hit]

/-- With any positive number of passes allowed, the loop of retain returns
what `sccp_refcount_retain` stores and returns. -/
theorem retain_agrees_with_loop (fuel : Nat) (s : Registry) (ptr : Nat) :
    sccp_refcount_retain s ptr =
      (match find_obj s ptr with
        | some obj =>
          match retain_loop (fuel + 1) obj.alive obj.refcount with
          | some (some (cell, _)) =>
            (store_obj s ptr (fun o => { o with refcount := cell }), obj.data)
          | _ => (s, 0)
        | none => (s, 0)) := by
  cases hf : find_obj s ptr with
  | none => simp [sccp_refcount_retain, hf]
  | some obj =>
    simp only []
    rw [retain_loop_one_pass]
    by_cases hc : SCCP_LIVE_MARKER ≠ obj.alive ∨ obj.refcount ≤ 0
    · simp [sccp_refcount_retain, hf, hc]
    · simp [sccp_refcount_retain, hf, hc, CAS32_hit]

/-- With any positive number of passes allowed, the loop of release returns
what `sccp_refcount_release` stores and tests against zero. -/
theorem release_agrees_with_loop (fuel : Nat) (s : Registry) (ptr : Nat) :
    sccp_refcount_release s ptr =
      (match find_obj s ptr with
        | some obj =>
          match release_loop (fuel + 1) obj.alive obj.refcount with
          | some (some (cell, newrefcountval)) =>
            if newrefcountval = 0 then
              (remove_obj
                (store_obj (store_obj s ptr (fun o => { o with refcount := cell })) ptr
                  (fun o => { o with alive := 0 })) ptr, 0)
            else (store_obj s ptr (fun o => { o with refcount := cell }), 0)
          | _ => (s, 0)
        | none => (s, 0)) := by
  cases hf : find_obj s ptr with
  | none => simp [sccp_refcount_release, hf]
  | some obj =>
    simp only []
    rw [release_loop_one_pass]
    by_cases hc : SCCP_LIVE_MARKER ≠ obj.alive ∨ obj.refcount < 0
    · simp [sccp_refcount_release, hf, hc]
    · simp [sccp_refcount_release, hf, hc, CAS32_hit]

/-! ## The three outcomes of retain and release -/

theorem retain_of_miss (s : Registry) (h : Nat) (hf : find_obj s h = none) :
    sccp_refcount_retain s h = (s, 0) := by
  simp [sccp_refcount_retain, hf]

theorem release_of_miss (s : Registry) (h : Nat) (hf : find_obj s h = none) :
    sccp_refcount_release s h = (s, 0) := by
  simp [sccp_refcount_release, hf]

theorem retain_of_hit (s : Registry) (h : Nat) (before after : List RefCountedObject)
    (e : RefCountedObject) (h0 : h ≠ 0) (hat : entry_at s h before e after)
    (ha : e.alive = SCCP_LIVE_MARKER) (c1 : 1 ≤ e.refcount) (c2 : e.refcount < 2 ^ 31 - 1) :
    sccp_refcount_retain s h =
      (set_slot s (slot h) (some (before ++ { e with refcount := e.refcount + 1 } :: after)), h) := by
  have hf := find_obj_of_entry_at s h before after e h0 hat ha
  have hw : wrap32 (e.refcount + 1) = e.refcount + 1 := by
    apply wrap32_of_range
    · omega
    · norm_num at c2; omega
  have hneg : ¬ (e.refcount ≤ 0) := by omega
  simp [sccp_refcount_retain, hf, ha, hneg, CAS32_hit, hw,
    store_obj_of_entry_at s h before after e _ hat, hat.2.1]

theorem release_of_hit_many (s : Registry) (h : Nat) (before after : List RefCountedObject)
    (e : RefCountedObject) (h0 : h ≠ 0) (hat : entry_at s h before e after)
    (ha : e.alive = SCCP_LIVE_MARKER) (c : 0 ≤ e.refcount) (c1 : e.refcount ≠ 1) :
    sccp_refcount_release s h =
      (set_slot s (slot h) (some (before ++ { e with refcount := e.refcount - 1 } :: after)), 0) := by
  have hf := find_obj_of_entry_at s h before after e h0 hat ha
  have hneg : ¬ (e.refcount < 0) := by omega
  have hne : ¬ (e.refcount - 1 = 0) := by omega
  simp [sccp_refcount_release, hf, ha, hneg, hne, CAS32_hit,
    store_obj_of_entry_at s h before after e _ hat]

theorem remove_obj_of_entry_at (s : Registry) (h : Nat) (before after : List RefCountedObject)
    (e : RefCountedObject) (h0 : h ≠ 0) (hat : entry_at s h before e after) :
    remove_obj s h =
      { set_slot s (slot h) (some (before ++ after)) with
        calls := s.calls ++
          (if (s.obj_info e.type).destructor ≠ 0 then [((s.obj_info e.type).destructor, h)]
           else []) } := by
  obtain ⟨hb, hd, hp⟩ := hat
  by_cases hz : (s.obj_info e.type).destructor = 0
  · simp [remove_obj, h0, hb, traverse_append before after e h hd hp,
      unlink_append before after e h hd hp, set_slot, hz]
  · simp [remove_obj, h0, hb, traverse_append before after e h hd hp,
      unlink_append before after e h hd hp, set_slot, hz]

theorem release_of_hit_last (s : Registry) (h : Nat) (before after : List RefCountedObject)
    (e : RefCountedObject) (h0 : h ≠ 0) (hat : entry_at s h before e after)
    (ha : e.alive = SCCP_LIVE_MARKER) (c1 : e.refcount = 1) :
    sccp_refcount_release s h =
      ({ set_slot s (slot h) (some (before ++ after)) with
         calls := s.calls ++
           (if (s.obj_info e.type).destructor ≠ 0 then [((s.obj_info e.type).destructor, h)]
            else []) }, 0) := by
  have hf := find_obj_of_entry_at s h before after e h0 hat ha
  have hd : e.data = h := hat.2.1
  have hp := hat.2.2
  have hs1 := store_obj_of_entry_at s h before after e
    (fun o => { o with refcount := e.refcount - 1 }) hat
  have hat1 : entry_at
      (set_slot s (slot h) (some (before ++ { e with refcount := e.refcount - 1 } :: after)))
      h before { e with refcount := e.refcount - 1 } after :=
    entry_at_set_slot s h before after _ hd hp
  have hs2 := store_obj_of_entry_at _ h before after { e with refcount := e.refcount - 1 }
    (fun o => { o with alive := (0 : Int) }) hat1
  have hat2 : entry_at (set_slot s (slot h)
      (some (before ++ { e with refcount := e.refcount - 1, alive := 0 } :: after)))
      h before { e with refcount := e.refcount - 1, alive := 0 } after :=
    entry_at_set_slot s h before after _ hd hp
  have hr := remove_obj_of_entry_at _ h before after _ h0 hat2
  rw [set_slot_set_slot] at hs2 hr
  have hcond : ¬ (SCCP_LIVE_MARKER ≠ e.alive ∨ e.refcount < 0) := by
    simp [ha, c1]
  have hz : e.refcount - 1 = 0 := by omega
  unfold sccp_refcount_release
  simp only [hf, hcond, if_false, CAS32_hit, hz, if_true]
  rw [hz] at hs1 hs2 hr
  rw [hs1, hs2, hr]
  rfl

/-- A lookup misses in each of the four situations: null handle, no bucket,
no entry with that address in the bucket, or the entry found is not live. -/
theorem find_obj_of_miss (s : Registry) (h : Nat)
    (hm : h = 0 ∨ s.objects (slot h) = none ∨
      (∃ l, s.objects (slot h) = some l ∧ ∀ x ∈ l, x.data ≠ h) ∨
      (∃ before e after, entry_at s h before e after ∧ e.alive ≠ SCCP_LIVE_MARKER)) :
    find_obj s h = none := by
  rcases hm with h0 | hn | ⟨l, hl, hx⟩ | ⟨p, e, q, ⟨hb, hd, hp⟩, ha⟩
  · simp [find_obj, h0]
  · simp [find_obj, hn]
  · simp [find_obj, hl, (traverse_none_iff l h).mpr hx]
  · have ha2 : ¬ (SCCP_LIVE_MARKER = e.alive) := fun hh => ha hh.symm
    simp [find_obj, hb, traverse_append p q e h hd hp, ha2]

theorem same_outside_set_slot (s : Registry) (i : Fin SCCP_HASH_PRIME)
    (b : Option (List RefCountedObject)) : same_outside s (set_slot s i b) i :=
  ⟨rfl, rfl, fun j hj => set_slot_other s i j b hj⟩

/-! ## Allocation -/

theorem register_destructor_objects (s : Registry) (type : sccp_refcounted_types) (d : Nat) :
    (register_destructor s type d).objects = s.objects := by
  unfold register_destructor
  split <;> rfl

theorem register_destructor_calls (s : Registry) (type : sccp_refcounted_types) (d : Nat) :
    (register_destructor s type d).calls = s.calls := by
  unfold register_destructor
  split <;> rfl

/-- The outcomes of an allocation: `calloc` failed, the bucket head could not
be created, or the new entry became the head of its bucket. -/
theorem alloc_cases (s : Registry) (p : Nat) (m : Bool) (n size : Nat)
    (type : sccp_refcounted_types) (identifier : List Char) (d : Nat) :
    sccp_refcount_object_alloc s p m n size type identifier d = (s, 0) ∨
    sccp_refcount_object_alloc s p m n size type identifier d
      = (register_destructor s type d, 0) ∨
    (p ≠ 0 ∧ ∃ rest,
      (s.objects (slot p) = some rest ∨ (s.objects (slot p) = none ∧ rest = [])) ∧
      sccp_refcount_object_alloc s p m n size type identifier d
        = (set_slot (register_destructor s type d) (slot p)
            (some (new_entry n size type identifier p :: rest)), p)) := by
  by_cases h0 : p = 0
  · left
    simp [sccp_refcount_object_alloc, h0]
  · right
    cases hb : s.objects (slot p) with
    | none =>
      cases m with
      | false =>
        left
        simp [sccp_refcount_object_alloc, h0, register_destructor_objects, hb]
      | true =>
        right
        refine ⟨h0, [], Or.inr ⟨rfl, rfl⟩, ?_⟩
        simp [sccp_refcount_object_alloc, h0, register_destructor_objects, hb, new_entry,
          sccp_copy_string, SCCP_LIVE_MARKER]
    | some l =>
      right
      refine ⟨h0, l, Or.inl rfl, ?_⟩
      simp [sccp_refcount_object_alloc, h0, register_destructor_objects, hb, new_entry,
        sccp_copy_string, SCCP_LIVE_MARKER]

theorem alloc_of_success (s : Registry) (p : Nat) (m : Bool) (n size : Nat)
    (type : sccp_refcounted_types) (identifier : List Char) (d : Nat)
    (hok : (sccp_refcount_object_alloc s p m n size type identifier d).2 ≠ 0) :
    p ≠ 0 ∧ ∃ rest,
      (s.objects (slot p) = some rest ∨ (s.objects (slot p) = none ∧ rest = [])) ∧
      sccp_refcount_object_alloc s p m n size type identifier d
        = (set_slot (register_destructor s type d) (slot p)
            (some (new_entry n size type identifier p :: rest)), p) := by
  rcases alloc_cases s p m n size type identifier d with h | h | h
  · rw [h] at hok; exact absurd rfl hok
  · rw [h] at hok; exact absurd rfl hok
  · exact h

/-! ## Sequences of retain and release on one handle -/

theorem apply_calls_append (s : Registry) (h : Nat) (a b : List HandleCall) :
    apply_calls s h (a ++ b) = apply_calls (apply_calls s h a) h b := by
  induction a generalizing s with
  | nil => rfl
  | cons x xs ih =>
    cases x <;> simp [apply_calls, ih]

/-- While the counter stays in range the sequence only moves the counter of the
entry, here the head of its bucket. -/
theorem apply_calls_head (h : Nat) (h0 : h ≠ 0) (rest : List RefCountedObject)
    (cs : List HandleCall) :
    ∀ (s : Registry) (e : RefCountedObject), s.objects (slot h) = some (e :: rest) →
      e.data = h → e.alive = SCCP_LIVE_MARKER → 1 ≤ e.refcount →
      stays_in_range e.refcount cs →
      apply_calls s h cs = set_slot s (slot h)
        (some ({ e with refcount := e.refcount + cs.count HandleCall.retain
                  - cs.count HandleCall.release } :: rest)) := by
  induction cs with
  | nil =>
    intro s e hs _ _ _ _
    simp only [apply_calls, List.count_nil, Nat.cast_zero, add_zero, sub_zero]
    exact (set_slot_id s (slot h) _ hs).symm
  | cons x xs ih =>
    intro s e hs hd ha hc hr
    have hat : entry_at s h [] e rest := ⟨hs, hd, by simp⟩
    cases x with
    | retain =>
      obtain ⟨hr1, hr2⟩ := hr
      have hstep := retain_of_hit s h [] rest e h0 hat ha hc (by omega)
      simp only [apply_calls, hstep, List.nil_append]
      rw [ih _ { e with refcount := e.refcount + 1 } (set_slot_same _ _ _) hd ha
        (by show 1 ≤ e.refcount + 1; omega) hr2, set_slot_set_slot]
      have hcount : e.refcount + 1 + (xs.count HandleCall.retain : Int)
            - xs.count HandleCall.release
          = e.refcount + ((HandleCall.retain :: xs).count HandleCall.retain : Int)
            - (HandleCall.retain :: xs).count HandleCall.release := by
        simp [List.count_cons]; ring
      simp only [hcount]
    | release =>
      obtain ⟨hr1, hr2⟩ := hr
      have hstep := release_of_hit_many s h [] rest e h0 hat ha (by omega) (by omega)
      simp only [apply_calls, hstep, List.nil_append]
      rw [ih _ { e with refcount := e.refcount - 1 } (set_slot_same _ _ _) hd ha
        (by show 1 ≤ e.refcount - 1; omega) hr2, set_slot_set_slot]
      have hcount : e.refcount - 1 + (xs.count HandleCall.retain : Int)
            - xs.count HandleCall.release
          = e.refcount + ((HandleCall.release :: xs).count HandleCall.retain : Int)
            - (HandleCall.release :: xs).count HandleCall.release := by
        simp [List.count_cons]; ring
      simp only [hcount]

/-- The condition on the prefixes, stated with the numbers of calls, gives the
step-by-step condition. -/
theorem stays_in_range_of_prefixes (cs : List HandleCall) :
    ∀ c : Int,
      (∀ k, k ≤ cs.length →
        1 ≤ c + (cs.take k).count HandleCall.retain - (cs.take k).count HandleCall.release ∧
        c + (cs.take k).count HandleCall.retain - (cs.take k).count HandleCall.release
          < 2 ^ 31 - 1) →
      stays_in_range c cs := by
  induction cs with
  | nil => intro c _; trivial
  | cons x xs ih =>
    intro c hk
    have h1 := hk 1 (by simp)
    cases x with
    | retain =>
      simp at h1
      refine ⟨by norm_num; omega, ih (c + 1) ?_⟩
      intro k hkl
      have := hk (k + 1) (by simp; omega)
      simp [List.take_succ_cons, List.count_cons] at this ⊢
      constructor <;> omega
    | release =>
      simp at h1
      refine ⟨by omega, ih (c - 1) ?_⟩
      intro k hkl
      have := hk (k + 1) (by simp; omega)
      simp [List.take_succ_cons, List.count_cons] at this ⊢
      constructor <;> omega

theorem stays_in_range_replicate (N M : Nat) :
    ∀ c : Int, 1 ≤ c → c + N < 2 ^ 31 - 1 → (M : Int) ≤ c + N - 1 →
      stays_in_range c
        (List.replicate N HandleCall.retain ++ List.replicate M HandleCall.release) := by
  induction N with
  | zero =>
    induction M with
    | zero => intro c _ _ _; trivial
    | succ M ihM =>
      intro c h1 h2 h3
      simp only [List.replicate, List.nil_append] at ihM ⊢
      push_cast at h3 h2
      refine ⟨by omega, ihM (c - 1) (by omega) ?_ (by push_cast; omega)⟩
      push_cast; norm_num at h2 ⊢; omega
  | succ N ihN =>
    intro c h1 h2 h3
    simp only [List.replicate, List.cons_append]
    push_cast at h2 h3
    refine ⟨?_, ihN (c + 1) (by omega) ?_ (by omega)⟩
    · norm_num at h2 ⊢; omega
    · norm_num at h2 ⊢; omega

theorem alloc_state (s0 : Registry) (p : Nat) (m : Bool) (n size : Nat)
    (type : sccp_refcounted_types) (identifier : List Char) (d : Nat) (s1 : Registry) (h : Nat)
    (halloc : sccp_refcount_object_alloc s0 p m n size type identifier d = (s1, h))
    (hok : h ≠ 0) :
    h = p ∧ ∃ rest, s1.objects (slot h) = some (new_entry n size type identifier h :: rest) ∧
      s1.calls = s0.calls ∧ s1.obj_info = (register_destructor s0 type d).obj_info := by
  have hok2 : (sccp_refcount_object_alloc s0 p m n size type identifier d).2 ≠ 0 := by
    rw [halloc]; exact hok
  obtain ⟨_, rest, _, heq⟩ := alloc_of_success s0 p m n size type identifier d hok2
  rw [heq] at halloc
  have h1 : set_slot (register_destructor s0 type d) (slot p)
      (some (new_entry n size type identifier p :: rest)) = s1 := congrArg Prod.fst halloc
  have h2 : p = h := congrArg Prod.snd halloc
  subst h2
  subst h1
  exact ⟨rfl, rest, set_slot_same _ _ _, register_destructor_calls s0 type d, rfl⟩

/-- The state after a sequence of calls that keeps the counter in range, seen
from the head entry `e` of the bucket of `h`. -/
theorem apply_calls_result (s : Registry) (h : Nat) (h0 : h ≠ 0) (e : RefCountedObject)
    (rest : List RefCountedObject) (hs : s.objects (slot h) = some (e :: rest))
    (hd : e.data = h) (ha : e.alive = SCCP_LIVE_MARKER) (hc : e.refcount = 1)
    (cs : List HandleCall) (hr : stays_in_range 1 cs) :
    entry_at (apply_calls s h cs) h []
      { e with refcount := 1 + cs.count HandleCall.retain - cs.count HandleCall.release } rest ∧
    find_obj (apply_calls s h cs) h
      = some { e with refcount := 1 + cs.count HandleCall.retain
                - cs.count HandleCall.release } ∧
    (apply_calls s h cs).calls = s.calls ∧ (apply_calls s h cs).obj_info = s.obj_info := by
  have hrun := apply_calls_head h h0 rest cs s e hs hd ha (by omega) (by rw [hc]; exact hr)
  rw [hc] at hrun
  rw [hrun]
  have hat : entry_at (set_slot s (slot h)
      (some ({ e with refcount := 1 + cs.count HandleCall.retain
                - cs.count HandleCall.release } :: rest))) h []
      { e with refcount := 1 + cs.count HandleCall.retain - cs.count HandleCall.release } rest :=
    entry_at_set_slot s h [] rest _ hd (by simp)
  exact ⟨hat, find_obj_of_entry_at _ h [] rest _ h0 hat ha, rfl, rfl⟩

theorem prefixes_take (cs : List HandleCall) (k : Nat)
    (hpre : ∀ j, j ≤ cs.length →
      (cs.take j).count HandleCall.release ≤ (cs.take j).count HandleCall.retain ∧
      (1 : Int) + (cs.take j).count HandleCall.retain - (cs.take j).count HandleCall.release
        < 2 ^ 31 - 1) :
    stays_in_range 1 (cs.take k) := by
  apply stays_in_range_of_prefixes
  intro j hj
  rw [List.take_take]
  rw [List.length_take] at hj
  obtain ⟨h1, h2⟩ := hpre (min j k) (by omega)
  exact ⟨by omega, h2⟩

/-- The destructor trace after the release that takes the counter of the head
entry from 1 to 0, following a sequence that kept the counter in range and
ended with as many releases as retains. -/
theorem release_after_balanced (s : Registry) (h : Nat) (h0 : h ≠ 0) (e : RefCountedObject)
    (rest : List RefCountedObject) (hs : s.objects (slot h) = some (e :: rest))
    (hd : e.data = h) (ha : e.alive = SCCP_LIVE_MARKER) (hc : e.refcount = 1)
    (cs : List HandleCall) (hr : stays_in_range 1 cs)
    (heq : cs.count HandleCall.release = cs.count HandleCall.retain) :
    (sccp_refcount_release (apply_calls s h cs) h).1.calls =
      s.calls ++ (if (s.obj_info e.type).destructor ≠ 0
        then [((s.obj_info e.type).destructor, h)] else []) := by
  obtain ⟨hat, _, hcalls, hinfo⟩ := apply_calls_result s h h0 e rest hs hd ha hc cs hr
  have hone : (1 : Int) + cs.count HandleCall.retain - cs.count HandleCall.release = 1 := by
    rw [heq]; ring
  rw [release_of_hit_last (apply_calls s h cs) h [] rest _ h0 hat ha hone]
  simp only [hcalls, hinfo]

/-! ## The effect of each call -/

theorem retain_cases (s : Registry) (q : Nat) :
    sccp_refcount_retain s q = (s, 0) ∨
    ∃ before e after, entry_at s q before e after ∧
      sccp_refcount_retain s q =
        (set_slot s (slot q)
          (some (before ++ { e with refcount := wrap32 (e.refcount + 1) } :: after)), q) := by
  cases hf : find_obj s q with
  | none => left; exact retain_of_miss s q hf
  | some e =>
    obtain ⟨_, ha, p, a, hat⟩ := (find_obj_eq_some_iff s q e).mp hf
    by_cases hc : e.refcount ≤ 0
    · left
      simp [sccp_refcount_retain, hf, hc]
    · right
      refine ⟨p, e, a, hat, ?_⟩
      simp [sccp_refcount_retain, hf, ha, hc, CAS32_hit,
        store_obj_of_entry_at s q p a e _ hat, hat.2.1]

theorem release_cases (s : Registry) (q : Nat) :
    sccp_refcount_release s q = (s, 0) ∨
    (∃ before e after, entry_at s q before e after ∧
      sccp_refcount_release s q =
        (set_slot s (slot q)
          (some (before ++ { e with refcount := e.refcount - 1 } :: after)), 0)) ∨
    (∃ before e after, q ≠ 0 ∧ entry_at s q before e after ∧
      e.alive = SCCP_LIVE_MARKER ∧ e.refcount = 1 ∧
      sccp_refcount_release s q =
        ({ set_slot s (slot q) (some (before ++ after)) with
           calls := s.calls ++
             (if (s.obj_info e.type).destructor ≠ 0
               then [((s.obj_info e.type).destructor, q)] else []) }, 0)) := by
  cases hf : find_obj s q with
  | none => left; exact release_of_miss s q hf
  | some e =>
    obtain ⟨h0, ha, p, a, hat⟩ := (find_obj_eq_some_iff s q e).mp hf
    by_cases hc : e.refcount < 0
    · left
      simp [sccp_refcount_release, hf, hc]
    · by_cases h1 : e.refcount = 1
      · right; right
        exact ⟨p, e, a, h0, hat, ha, h1, release_of_hit_last s q p a e h0 hat ha h1⟩
      · right; left
        exact ⟨p, e, a, hat, release_of_hit_many s q p a e h0 hat ha (by omega) h1⟩

theorem update_cases (s : Registry) (n q : Nat) (identifier : List Char) :
    sccp_refcount_updateIdentifier s n q identifier = s ∨
    ∃ before e after, entry_at s q before e after ∧
      sccp_refcount_updateIdentifier s n q identifier =
        set_slot s (slot q)
          (some (before ++ { e with identifier := sccp_copy_string identifier n } :: after)) := by
  cases hf : find_obj s q with
  | none => left; simp [sccp_refcount_updateIdentifier, hf]
  | some e =>
    obtain ⟨_, _, p, a, hat⟩ := (find_obj_eq_some_iff s q e).mp hf
    right
    refine ⟨p, e, a, hat, ?_⟩
    simp [sccp_refcount_updateIdentifier, hf, store_obj_of_entry_at s q p a e _ hat]

/-! ## Payload addresses held by the buckets -/

theorem addrs_set_slot_same (s : Registry) (i : Fin SCCP_HASH_PRIME)
    (l : List RefCountedObject) :
    addrs (set_slot s i (some l)) i = l.map (fun o => o.data) := by
  simp [addrs, set_slot]

theorem addrs_set_slot_other (s : Registry) (i j : Fin SCCP_HASH_PRIME)
    (b : Option (List RefCountedObject)) (hj : j ≠ i) :
    addrs (set_slot s i b) j = addrs s j := by
  simp [addrs, set_slot, hj]

theorem addrs_of_objects_eq (s t : Registry) (ho : t.objects = s.objects)
    (i : Fin SCCP_HASH_PRIME) : addrs t i = addrs s i := by
  simp [addrs, ho]

theorem addrs_of_entry_at (s : Registry) (q : Nat) (before after : List RefCountedObject)
    (e : RefCountedObject) (hat : entry_at s q before e after) :
    addrs s (slot q) = before.map (fun o => o.data) ++ q :: after.map (fun o => o.data) := by
  obtain ⟨hb, hd, _⟩ := hat
  simp [addrs, hb, hd]

/-- A store into the entry of `q` that keeps its payload address keeps the
addresses of every bucket. -/
theorem addrs_of_store (s : Registry) (q : Nat) (before after : List RefCountedObject)
    (e e2 : RefCountedObject) (hat : entry_at s q before e after) (hd : e2.data = e.data)
    (i : Fin SCCP_HASH_PRIME) :
    addrs (set_slot s (slot q) (some (before ++ e2 :: after))) i = addrs s i := by
  by_cases hi : i = slot q
  · subst hi
    rw [addrs_set_slot_same, addrs_of_entry_at s q before after e hat]
    simp [hd, hat.2.1]
  · exact addrs_set_slot_other s (slot q) i _ hi

/-- What one call does to the addresses of a bucket: nothing, or it is the
last release of `q` and takes `q` out, or it is an allocation that returns `c`
and puts `c` in front. -/
theorem step_addrs (n : Nat) (s : Registry) (op : Op) (i : Fin SCCP_HASH_PRIME) :
    addrs (step n s op) i = addrs s i ∨
    (∃ q l1 l2, op = Op.release q ∧ i = slot q ∧ addrs s i = l1 ++ q :: l2 ∧
      addrs (step n s op) i = l1 ++ l2) ∨
    (∃ c, c ≠ 0 ∧ hands_out n s op c ∧ i = slot c ∧ addrs (step n s op) i = c :: addrs s i) := by
  cases op with
  | alloc c m size type identifier d =>
    rcases alloc_cases s c m n size type identifier d with h | h | ⟨h0, rest, hrest, h⟩
    · left; simp [step, h]
    · left
      simp only [step, h]
      exact addrs_of_objects_eq _ _ (register_destructor_objects s type d) i
    · by_cases hi : i = slot c
      · right; right
        refine ⟨c, h0, by simp [hands_out, h], hi, ?_⟩
        subst hi
        simp only [step, h]
        rw [addrs_set_slot_same]
        rcases hrest with hr | ⟨hr, hnil⟩
        · simp [addrs, hr, new_entry]
        · simp [addrs, hr, hnil, new_entry]
      · left
        simp only [step, h]
        rw [addrs_set_slot_other _ _ _ _ hi]
        exact addrs_of_objects_eq _ _ (register_destructor_objects s type d) i
  | retain q =>
    left
    rcases retain_cases s q with h | ⟨p, e, a, hat, h⟩
    · simp [step, h]
    · simp only [step, h]
      exact addrs_of_store s q p a e _ hat (by rfl) i
  | release q =>
    rcases release_cases s q with h | ⟨p, e, a, hat, h⟩ | ⟨p, e, a, _, hat, _, _, h⟩
    · left; simp [step, h]
    · left
      simp only [step, h]
      exact addrs_of_store s q p a e _ hat (by rfl) i
    · by_cases hi : i = slot q
      · right; left
        refine ⟨q, p.map (fun o => o.data), a.map (fun o => o.data), rfl, hi, ?_, ?_⟩
        · rw [hi]; exact addrs_of_entry_at s q p a e hat
        · subst hi
          simp [step, h, addrs, set_slot]
      · left
        simp [step, h, addrs, set_slot, hi]
  | update q identifier =>
    left
    rcases update_cases s n q identifier with h | ⟨p, e, a, hat, h⟩
    · simp [step, h]
    · simp only [step, h]
      exact addrs_of_store s q p a e _ hat (by rfl) i

/-- What one call does to the destructor trace: nothing, or it is a release of
a non-null `q` that finds the entry of `q` and appends at most the call of the
destructor of its type on `q`. -/
theorem step_calls (n : Nat) (s : Registry) (op : Op) :
    (step n s op).calls = s.calls ∨
    ∃ q before e after, op = Op.release q ∧ q ≠ 0 ∧ entry_at s q before e after ∧
      (step n s op).calls = s.calls ++
        (if (s.obj_info e.type).destructor ≠ 0
          then [((s.obj_info e.type).destructor, q)] else []) := by
  cases op with
  | alloc c m size type identifier d =>
    left
    rcases alloc_cases s c m n size type identifier d with h | h | ⟨_, rest, _, h⟩
    · simp [step, h]
    · simp [step, h, register_destructor_calls]
    · simp [step, h, set_slot, register_destructor_calls]
  | retain q =>
    left
    rcases retain_cases s q with h | ⟨p, e, a, _, h⟩
    · simp [step, h]
    · simp [step, h, set_slot]
  | release q =>
    rcases release_cases s q with h | ⟨p, e, a, _, h⟩ | ⟨p, e, a, h0, hat, _, _, h⟩
    · left; simp [step, h]
    · left; simp [step, h, set_slot]
    · right
      exact ⟨q, p, e, a, rfl, h0, hat, by simp [step, h]⟩
  | update q identifier =>
    left
    rcases update_cases s n q identifier with h | ⟨p, e, a, _, h⟩
    · simp [step, h]
    · simp [step, h, set_slot]

/-! ## Executions: distinct addresses and absent handles -/

theorem run_append (n : Nat) (s : Registry) (a b : List Op) :
    run n s (a ++ b) = run n (run n s a) b := by
  induction a generalizing s with
  | nil => rfl
  | cons x xs ih => simp [run, ih]

theorem fresh_allocs_append (n : Nat) (s : Registry) (a b : List Op) :
    fresh_allocs n s (a ++ b) ↔ fresh_allocs n s a ∧ fresh_allocs n (run n s a) b := by
  induction a generalizing s with
  | nil => simp [fresh_allocs, run]
  | cons x xs ih => simp [fresh_allocs, run, ih, and_assoc]

theorem hands_out_alloc (n : Nat) (s : Registry) (c : Nat) (m : Bool) (size : Nat)
    (type : sccp_refcounted_types) (identifier : List Char) (d p : Nat) (hp : p ≠ 0)
    (ho : hands_out n s (Op.alloc c m size type identifier d) p) : c = p := by
  simp only [hands_out] at ho
  rcases alloc_cases s c m n size type identifier d with h | h | ⟨_, _, _, h⟩
  · rw [h] at ho; exact absurd ho.symm hp
  · rw [h] at ho; exact absurd ho.symm hp
  · rw [h] at ho; exact ho

theorem distinct_addrs_initial : distinct_addrs Registry.initial := by
  intro i
  simp [addrs, Registry.initial]

theorem step_distinct (n : Nat) (s : Registry) (op : Op) (hd : distinct_addrs s)
    (hfresh : fresh_allocs n s [op]) : distinct_addrs (step n s op) := by
  intro i
  rcases step_addrs n s op i with h | ⟨q, l1, l2, _, _, hs, h⟩ | ⟨c, hc, ho, hi, h⟩
  · rw [h]; exact hd i
  · rw [h]
    have := hd i
    rw [hs] at this
    exact this.sublist (List.Sublist.append_left (List.sublist_cons_self q l2) l1)
  · rw [h]
    refine List.nodup_cons.mpr ⟨?_, hd i⟩
    cases op with
    | alloc c2 m size type identifier d =>
      have hcc := hands_out_alloc n s c2 m size type identifier d c hc ho
      subst hcc
      have hf := hfresh.1 hc
      subst hi
      exact hf
    | retain q => exact absurd ho (by simp [hands_out])
    | release q => exact absurd ho (by simp [hands_out])
    | update q identifier => exact absurd ho (by simp [hands_out])

theorem run_distinct (n : Nat) (ops : List Op) :
    ∀ s : Registry, distinct_addrs s → fresh_allocs n s ops → distinct_addrs (run n s ops) := by
  induction ops with
  | nil => intro s hd _; exact hd
  | cons x xs ih =>
    intro s hd hf
    exact ih (step n s x) (step_distinct n s x hd ⟨hf.1, trivial⟩) hf.2

theorem step_absent (n : Nat) (s : Registry) (op : Op) (p : Nat) (ha : absent s p)
    (hno : ¬ hands_out n s op p) : absent (step n s op) p := by
  unfold absent at ha ⊢
  rcases step_addrs n s op (slot p) with h | ⟨q, l1, l2, _, _, hs, h⟩ | ⟨c, _, ho, _, h⟩
  · rw [h]; exact ha
  · rw [h]
    rw [hs] at ha
    intro hmem
    apply ha
    rcases List.mem_append.mp hmem with hm | hm
    · exact List.mem_append.mpr (Or.inl hm)
    · exact List.mem_append.mpr (Or.inr (List.mem_cons_of_mem q hm))
  · rw [h]
    intro hmem
    rcases List.mem_cons.mp hmem with hm | hm
    · subst hm; exact hno ho
    · exact ha hm

theorem run_absent (n : Nat) (p : Nat) (ops : List Op) :
    ∀ s : Registry, absent s p → never_hands_out n s p ops → absent (run n s ops) p := by
  induction ops with
  | nil => intro s ha _; exact ha
  | cons x xs ih =>
    intro s ha hn
    exact ih (step n s x) (step_absent n s x p ha hn.1) hn.2

theorem find_obj_of_absent (s : Registry) (p : Nat) (ha : absent s p) : find_obj s p = none := by
  apply find_obj_of_miss
  cases hb : s.objects (slot p) with
  | none => exact Or.inr (Or.inl rfl)
  | some l =>
    refine Or.inr (Or.inr (Or.inl ⟨l, rfl, ?_⟩))
    intro x hx hxp
    apply ha
    simp only [addrs, hb]
    exact List.mem_map.mpr ⟨x, hx, hxp⟩

theorem not_absent_of_entry_at (s : Registry) (p : Nat) (before after : List RefCountedObject)
    (e : RefCountedObject) (hat : entry_at s p before e after) : ¬ absent s p := by
  intro ha
  apply ha
  rw [addrs_of_entry_at s p before after e hat]
  simp

/-- After the last release of `p` in a state with distinct addresses no entry
of the bucket has address `p`. -/
theorem absent_after_last_release (s : Registry) (p : Nat) (before after : List RefCountedObject)
    (e : RefCountedObject) (hd : distinct_addrs s) (h0 : p ≠ 0)
    (hat : entry_at s p before e after) (ha : e.alive = SCCP_LIVE_MARKER)
    (hc : e.refcount = 1) : absent (sccp_refcount_release s p).1 p := by
  rw [release_of_hit_last s p before after e h0 hat ha hc]
  have hn := hd (slot p)
  rw [addrs_of_entry_at s p before after e hat] at hn
  have hnot : p ∉ before.map (fun o => o.data) ++ after.map (fun o => o.data) := by
    intro hmem
    have h1 := (List.nodup_append.mp hn).1
    have h2 := (List.nodup_cons.mp (List.nodup_append.mp hn).2.1).1
    have h3 := (List.nodup_append.mp hn).2.2
    rcases List.mem_append.mp hmem with hm | hm
    · exact h3 hm (List.mem_cons_self p _)
    · exact h2 hm
  unfold absent
  simpa [addrs, set_slot] using hnot

/-- A call that invokes a destructor on `p` is the last release of `p`: it
finds the entry of `p`, and afterwards `p` is absent. -/
theorem absent_of_destructor_called (n : Nat) (s : Registry) (op : Op) (d p : Nat)
    (hd : distinct_addrs s) (hcall : destructor_called n s op d p) :
    ¬ absent s p ∧ absent (step n s op) p := by
  unfold destructor_called at hcall
  have hne : (step n s op).calls ≠ s.calls := by
    rw [hcall]
    intro h
    have := congrArg List.length h
    simp at this
  cases op with
  | alloc c m size type identifier d2 =>
    rcases step_calls n s (Op.alloc c m size type identifier d2) with h | ⟨_, _, _, _, h, _⟩
    · exact absurd h hne
    · cases h
  | retain q =>
    rcases step_calls n s (Op.retain q) with h | ⟨_, _, _, _, h, _⟩
    · exact absurd h hne
    · cases h
  | update q identifier =>
    rcases step_calls n s (Op.update q identifier) with h | ⟨_, _, _, _, h, _⟩
    · exact absurd h hne
    · cases h
  | release q =>
    simp only [step] at hcall hne ⊢
    rcases release_cases s q with h | ⟨b, e, a, hat, h⟩ | ⟨b, e, a, h0, hat, ha, hc, h⟩
    · rw [h] at hne; exact absurd rfl hne
    · rw [h] at hne; exact absurd rfl hne
    · have hq : q = p := by
        rw [h] at hcall
        by_cases hz : (s.obj_info e.type).destructor = 0
        · simp [hz] at hcall
        · simp [hz] at hcall
          exact hcall.2
      subst hq
      exact ⟨not_absent_of_entry_at s q b a e hat,
        absent_after_last_release s q b a e hd h0 hat ha hc⟩

theorem absent_initial (p : Nat) : absent Registry.initial p := by
  simp [absent, addrs, Registry.initial]

/-- When it is not true that no call of the sequence hands out `p`, one of its
calls is an allocation that returns `p`. -/
theorem exists_hands_out (n : Nat) (p : Nat) (ops : List Op) :
    ∀ s : Registry, ¬ never_hands_out n s p ops →
      ∃ front a back, ops = front ++ a :: back ∧ hands_out n (run n s front) a p := by
  induction ops with
  | nil => intro s h; exact absurd trivial h
  | cons x xs ih =>
    intro s h
    by_cases hx : hands_out n s x p
    · exact ⟨[], x, xs, rfl, hx⟩
    · have hrest : ¬ never_hands_out n (step n s x) p xs := fun hr => h ⟨hx, hr⟩
      obtain ⟨f, a, b, hxs, ha⟩ := ih (step n s x) hrest
      exact ⟨x :: f, a, b, by simp [hxs], ha⟩

/-! ## The shutdown sweep -/

theorem sweep_eq (x : Fin SCCP_HASH_PRIME) (l : List RefCountedObject) :
    ∀ s : Registry, sweep s x l =
      { set_slot s x (some []) with
        calls := s.calls ++ destructor_calls_for s.obj_info l } := by
  induction l with
  | nil =>
    intro s
    simp only [sweep, destructor_calls_for, List.filterMap_nil, List.append_nil]
    rfl
  | cons obj rest ih =>
    intro s
    have hfun : (fun j => if j = x then some ([] : List RefCountedObject)
          else if j = x then some rest else s.objects j)
        = fun j => if j = x then some [] else s.objects j := by
      funext j
      by_cases hj : j = x <;> simp [hj]
    by_cases hz : (s.obj_info obj.type).destructor = 0
    · simp only [sweep, set_slot, hz, ne_eq, not_true_eq_false, if_false]
      rw [ih]
      simp [set_slot, destructor_calls_for, List.filterMap_cons, hz, hfun]
    · simp only [sweep, set_slot, hz, ne_eq, not_false_eq_true, if_true]
      rw [ih]
      simp [set_slot, destructor_calls_for, List.filterMap_cons, hz, hfun]

theorem destroy_slot_eq (s : Registry) (x : Fin SCCP_HASH_PRIME) :
    destroy_slot s x =
      { s with
        objects := fun j => if j = x then (s.objects x).map (fun _ => []) else s.objects j
        calls := s.calls ++ slot_calls s x } := by
  unfold destroy_slot slot_calls
  cases hb : s.objects x with
  | none =>
    apply Registry.ext <;> simp
    funext j
    by_cases hj : j = x
    · simp [hj, hb]
    · simp [hj]
  | some l =>
    simp only [sweep_eq, set_slot, Option.map_some']

theorem flatMap_eq_of_eq_on {α β : Type} (f g : α → List β) (l : List α)
    (hfg : ∀ a ∈ l, f a = g a) : l.flatMap f = l.flatMap g := by
  induction l with
  | nil => rfl
  | cons a r ih =>
    simp only [List.flatMap_cons]
    rw [hfg a (List.mem_cons_self a r), ih (fun b hb => hfg b (List.mem_cons_of_mem a hb))]

theorem foldl_destroy_slot (xs : List (Fin SCCP_HASH_PRIME)) :
    ∀ s : Registry, xs.Nodup →
      xs.foldl destroy_slot s =
        { s with
          objects := fun j => if j ∈ xs then (s.objects j).map (fun _ => []) else s.objects j
          calls := s.calls ++ xs.flatMap (slot_calls s) } := by
  induction xs with
  | nil =>
    intro s _
    simp
  | cons x r ih =>
    intro s hnd
    obtain ⟨hx, hr⟩ := List.nodup_cons.mp hnd
    rw [List.foldl_cons, ih (destroy_slot s x) hr]
    have hcalls : r.flatMap (slot_calls (destroy_slot s x)) = r.flatMap (slot_calls s) := by
      apply flatMap_eq_of_eq_on
      intro j hj
      have hjx : j ≠ x := fun h => hx (h ▸ hj)
      simp [slot_calls, destroy_slot_eq, hjx]
    rw [hcalls]
    rw [destroy_slot_eq]
    apply Registry.ext
    · rfl
    · rfl
    · funext j
      by_cases hjr : j ∈ r
      · have hjx : j ≠ x := fun h => hx (h ▸ hjr)
        simp [hjr, hjx]
      · by_cases hjx : j = x
        · subst hjx
          simp [hjr]
        · simp [hjr, hjx]
    · simp [List.flatMap_cons, List.append_assoc]

/-- The state after `sccp_refcount_destroy`: the flag is set, the type table is
kept, every existing bucket is emptied (and stays an existing bucket), and the
destructor calls owed to the entries are appended bucket by bucket. -/
theorem destroy_eq (s : Registry) :
    sccp_refcount_destroy s =
      { refcount_destroyed := true
        obj_info := s.obj_info
        objects := fun j => (s.objects j).map (fun _ => [])
        calls := s.calls ++ (List.finRange SCCP_HASH_PRIME).flatMap (slot_calls s) } := by
  unfold sccp_refcount_destroy
  rw [foldl_destroy_slot _ _ (List.nodup_finRange _)]
  apply Registry.ext
  · rfl
  · rfl
  · funext j
    simp
  · have : (slot_calls { s with refcount_destroyed := true }) = slot_calls s := by
      funext j
      simp [slot_calls]
    simp [this]

/-! ## The running flag and the type table -/

theorem register_destructor_flag (s : Registry) (type : sccp_refcounted_types) (d : Nat) :
    (register_destructor s type d).refcount_destroyed = s.refcount_destroyed := by
  unfold register_destructor
  split <;> rfl

theorem register_destructor_same (s : Registry) (type : sccp_refcounted_types) (d : Nat) :
    ((register_destructor s type d).obj_info type).destructor
        = (if (s.obj_info type).destructor = 0 then d else (s.obj_info type).destructor) ∧
      ((register_destructor s type d).obj_info type).datatype = (s.obj_info type).datatype ∧
      ((register_destructor s type d).obj_info type).debugcat = (s.obj_info type).debugcat := by
  unfold register_destructor
  by_cases hz : (s.obj_info type).destructor = 0
  · simp [hz]
  · simp [hz]

theorem register_destructor_other (s : Registry) (type other : sccp_refcounted_types) (d : Nat)
    (ho : other ≠ type) :
    (register_destructor s type d).obj_info other = s.obj_info other := by
  unfold register_destructor
  by_cases hz : (s.obj_info type).destructor = 0
  · simp [hz, ho]
  · simp [hz]

theorem register_destructor_registered (s : Registry) (type other : sccp_refcounted_types)
    (d : Nat) (hr : (s.obj_info other).destructor ≠ 0) :
    (register_destructor s type d).obj_info other = s.obj_info other := by
  by_cases ho : other = type
  · subst ho
    simp [register_destructor, hr]
  · exact register_destructor_other s type other d ho

/-- Past the block allocation the type table is the one left by the
registration statement, whether or not the bucket can be created. -/
theorem alloc_obj_info (s : Registry) (c : Nat) (m : Bool) (n size : Nat)
    (type : sccp_refcounted_types) (identifier : List Char) (d : Nat) (hc : c ≠ 0) :
    (sccp_refcount_object_alloc s c m n size type identifier d).1.obj_info
      = (register_destructor s type d).obj_info := by
  simp only [sccp_refcount_object_alloc, hc, if_false]
  cases (register_destructor s type d).objects (slot c) with
  | none => cases m <;> rfl
  | some l => rfl

theorem alloc_flag (s : Registry) (c : Nat) (m : Bool) (n size : Nat)
    (type : sccp_refcounted_types) (identifier : List Char) (d : Nat) :
    (sccp_refcount_object_alloc s c m n size type identifier d).1.refcount_destroyed
      = s.refcount_destroyed := by
  rcases alloc_cases s c m n size type identifier d with h | h | ⟨_, _, _, h⟩
  · rw [h]
  · rw [h]; exact register_destructor_flag s type d
  · rw [h]; exact register_destructor_flag s type d

theorem retain_frame (s : Registry) (q : Nat) :
    (sccp_refcount_retain s q).1.refcount_destroyed = s.refcount_destroyed ∧
    (sccp_refcount_retain s q).1.obj_info = s.obj_info := by
  rcases retain_cases s q with h | ⟨_, _, _, _, h⟩ <;> rw [h] <;> exact ⟨rfl, rfl⟩

theorem release_frame (s : Registry) (q : Nat) :
    (sccp_refcount_release s q).1.refcount_destroyed = s.refcount_destroyed ∧
    (sccp_refcount_release s q).1.obj_info = s.obj_info := by
  rcases release_cases s q with h | ⟨_, _, _, _, h⟩ | ⟨_, _, _, _, _, _, _, h⟩ <;> rw [h] <;>
    exact ⟨rfl, rfl⟩

theorem update_frame (s : Registry) (n q : Nat) (identifier : List Char) :
    (sccp_refcount_updateIdentifier s n q identifier).refcount_destroyed
      = s.refcount_destroyed ∧
    (sccp_refcount_updateIdentifier s n q identifier).obj_info = s.obj_info := by
  rcases update_cases s n q identifier with h | ⟨_, _, _, _, h⟩ <;> rw [h] <;> exact ⟨rfl, rfl⟩

theorem step_flag (n : Nat) (s : Registry) (op : Op) :
    (step n s op).refcount_destroyed = s.refcount_destroyed := by
  cases op with
  | alloc c m size type identifier d => exact alloc_flag s c m n size type identifier d
  | retain q => exact (retain_frame s q).1
  | release q => exact (release_frame s q).1
  | update q identifier => exact (update_frame s n q identifier).1

theorem run_flag (n : Nat) (ops : List Op) :
    ∀ s : Registry, (run n s ops).refcount_destroyed = s.refcount_destroyed := by
  induction ops with
  | nil => intro s; rfl
  | cons x xs ih =>
    intro s
    simp only [run]
    rw [ih, step_flag]

/-- A registered destructor, and the rest of its descriptor, survives every
call. -/
theorem step_registered (n : Nat) (s : Registry) (op : Op) (t : sccp_refcounted_types)
    (hr : (s.obj_info t).destructor ≠ 0) : (step n s op).obj_info t = s.obj_info t := by
  cases op with
  | alloc c m size type identifier d =>
    by_cases hc : c = 0
    · simp [step, sccp_refcount_object_alloc, hc]
    · simp only [step]
      rw [alloc_obj_info s c m n size type identifier d hc]
      exact register_destructor_registered s type t d hr
  | retain q => simp only [step]; rw [(retain_frame s q).2]
  | release q => simp only [step]; rw [(release_frame s q).2]
  | update q identifier => simp only [step]; rw [(update_frame s n q identifier).2]

theorem run_registered (n : Nat) (ops : List Op) (t : sccp_refcounted_types) :
    ∀ s : Registry, (s.obj_info t).destructor ≠ 0 → (run n s ops).obj_info t = s.obj_info t := by
  induction ops with
  | nil => intro s _; rfl
  | cons x xs ih =>
    intro s hr
    simp only [run]
    have hstep := step_registered n s x t hr
    rw [ih (step n s x) (by rw [hstep]; exact hr), hstep]

/-! ## The bucket function on strided addresses -/

/-- For a stride that 563 does not divide, the addresses `b + i * s` that fall
into bucket `r` are those whose index `i` lies in one residue class modulo
563. -/
theorem strided_bucket_modEq (b s r : Nat) (hs : ¬ 563 ∣ s) (hr : r < 563) :
    ∃ v, ∀ i, SCCP_SIMPLE_HASH (b + i * s) = r ↔ i ≡ v [MOD 563] := by
  haveI : Fact (Nat.Prime 563) := ⟨by norm_num⟩
  have hs0 : (s : ZMod 563) ≠ 0 := by
    intro h
    exact hs ((ZMod.natCast_zmod_eq_zero_iff_dvd s 563).mp h)
  refine ⟨((((r : ZMod 563) - b) * (s : ZMod 563)⁻¹)).val, fun i => ?_⟩
  have h1 : SCCP_SIMPLE_HASH (b + i * s) = r ↔ (b + i * s) % 563 = r % 563 := by
    simp [SCCP_SIMPLE_HASH, SCCP_HASH_PRIME, Nat.mod_eq_of_lt hr]
  rw [h1, ← ZMod.natCast_eq_natCast_iff', ← ZMod.natCast_eq_natCast_iff, ZMod.natCast_zmod_val]
  push_cast
  constructor
  · intro h
    field_simp
    rw [← h]
    ring
  · intro h
    rw [h]
    field_simp

/-! ## Placement and liveness along executions -/

theorem placed_initial : placed Registry.initial := by
  intro i p hp
  simp [addrs, Registry.initial] at hp

theorem step_placed (n : Nat) (s : Registry) (op : Op) (hp : placed s) :
    placed (step n s op) := by
  intro i p hmem
  rcases step_addrs n s op i with h | ⟨q, l1, l2, _, _, hs, h⟩ | ⟨c, hc, _, hi, h⟩
  · rw [h] at hmem
    exact hp i p hmem
  · rw [h] at hmem
    apply hp i p
    rw [hs]
    rcases List.mem_append.mp hmem with hm | hm
    · exact List.mem_append.mpr (Or.inl hm)
    · exact List.mem_append.mpr (Or.inr (List.mem_cons_of_mem q hm))
  · rw [h] at hmem
    rcases List.mem_cons.mp hmem with hm | hm
    · subst hm
      exact ⟨hi.symm, hc⟩
    · exact hp i p hm

theorem run_placed (n : Nat) (ops : List Op) :
    ∀ s : Registry, placed s → placed (run n s ops) := by
  induction ops with
  | nil => intro s hp; exact hp
  | cons x xs ih =>
    intro s hp
    exact ih (step n s x) (step_placed n s x hp)

theorem all_live_initial : all_live Registry.initial := by
  intro i l hl
  simp [Registry.initial] at hl

theorem all_live_of_objects_eq (s t : Registry) (ho : t.objects = s.objects)
    (hl : all_live s) : all_live t := by
  intro i l hb
  rw [ho] at hb
  exact hl i l hb

/-- Replacing the bucket of one slot by a list of live entries keeps the
invariant. -/
theorem all_live_set_slot (s : Registry) (i : Fin SCCP_HASH_PRIME)
    (l : List RefCountedObject) (hl : all_live s)
    (hnew : ∀ e ∈ l, e.alive = SCCP_LIVE_MARKER ∧ 1 ≤ e.refcount) :
    all_live (set_slot s i (some l)) := by
  intro j l2 hb
  by_cases hj : j = i
  · subst hj
    rw [set_slot_same] at hb
    cases hb
    exact hnew
  · rw [set_slot_other _ _ _ _ hj] at hb
    exact hl j l2 hb

theorem retain_found_cases (s : Registry) (q : Nat) :
    sccp_refcount_retain s q = (s, 0) ∨
    ∃ before e after, find_obj s q = some e ∧ entry_at s q before e after ∧
      sccp_refcount_retain s q =
        (set_slot s (slot q)
          (some (before ++ { e with refcount := wrap32 (e.refcount + 1) } :: after)), q) := by
  cases hf : find_obj s q with
  | none => left; exact retain_of_miss s q hf
  | some e =>
    obtain ⟨_, ha, p, a, hat⟩ := (find_obj_eq_some_iff s q e).mp hf
    by_cases hc : e.refcount ≤ 0
    · left
      simp [sccp_refcount_retain, hf, hc]
    · right
      refine ⟨p, e, a, rfl, hat, ?_⟩
      simp [sccp_refcount_retain, hf, ha, hc, CAS32_hit,
        store_obj_of_entry_at s q p a e _ hat, hat.2.1]

theorem release_counted_cases (s : Registry) (q : Nat) :
    sccp_refcount_release s q = (s, 0) ∨
    (∃ before e after, entry_at s q before e after ∧ 0 ≤ e.refcount ∧ e.refcount ≠ 1 ∧
      sccp_refcount_release s q =
        (set_slot s (slot q)
          (some (before ++ { e with refcount := e.refcount - 1 } :: after)), 0)) ∨
    (∃ before e after, entry_at s q before e after ∧
      (sccp_refcount_release s q).1.objects
        = (set_slot s (slot q) (some (before ++ after))).objects) := by
  cases hf : find_obj s q with
  | none => left; exact release_of_miss s q hf
  | some e =>
    obtain ⟨h0, ha, p, a, hat⟩ := (find_obj_eq_some_iff s q e).mp hf
    by_cases hc : e.refcount < 0
    · left
      simp [sccp_refcount_release, hf, hc]
    · by_cases h1 : e.refcount = 1
      · right; right
        refine ⟨p, e, a, hat, ?_⟩
        rw [release_of_hit_last s q p a e h0 hat ha h1]
      · right; left
        exact ⟨p, e, a, hat, by omega, h1,
          release_of_hit_many s q p a e h0 hat ha (by omega) h1⟩

theorem mem_of_entry_at (s : Registry) (q : Nat) (before after : List RefCountedObject)
    (e : RefCountedObject) (hat : entry_at s q before e after) (hl : all_live s) :
    (e.alive = SCCP_LIVE_MARKER ∧ 1 ≤ e.refcount) ∧
    ∀ x ∈ before ++ after, x.alive = SCCP_LIVE_MARKER ∧ 1 ≤ x.refcount := by
  have hall := hl (slot q) _ hat.1
  refine ⟨hall e (by simp), fun x hx => hall x ?_⟩
  rcases List.mem_append.mp hx with hm | hm
  · exact List.mem_append.mpr (Or.inl hm)
  · exact List.mem_append.mpr (Or.inr (List.mem_cons_of_mem e hm))

/-- A store into the entry of `q` that leaves it live with a counter of at
least 1 keeps the invariant. -/
theorem all_live_store (s : Registry) (q : Nat) (before after : List RefCountedObject)
    (e e2 : RefCountedObject) (hat : entry_at s q before e after) (hl : all_live s)
    (h2 : e2.alive = SCCP_LIVE_MARKER ∧ 1 ≤ e2.refcount) :
    all_live (set_slot s (slot q) (some (before ++ e2 :: after))) := by
  apply all_live_set_slot s _ _ hl
  obtain ⟨_, hrest⟩ := mem_of_entry_at s q before after e hat hl
  intro x hx
  rcases List.mem_append.mp hx with hm | hm
  · exact hrest x (List.mem_append.mpr (Or.inl hm))
  · rcases List.mem_cons.mp hm with hm2 | hm2
    · subst hm2; exact h2
    · exact hrest x (List.mem_append.mpr (Or.inr hm2))

theorem step_live (n : Nat) (s : Registry) (op : Op) (hl : all_live s)
    (hr : retains_in_range n s [op]) : all_live (step n s op) := by
  cases op with
  | alloc c m size type identifier d =>
    have hreg : all_live (register_destructor s type d) :=
      all_live_of_objects_eq s _ (register_destructor_objects s type d) hl
    rcases alloc_cases s c m n size type identifier d with h | h | ⟨_, rest, hrest, h⟩
    · simp only [step, h]; exact hl
    · simp only [step, h]; exact hreg
    · simp only [step, h]
      apply all_live_set_slot _ _ _ hreg
      intro x hx
      rcases List.mem_cons.mp hx with hm | hm
      · subst hm
        exact ⟨rfl, by simp [new_entry]⟩
      · rcases hrest with hb | ⟨_, hnil⟩
        · exact hl (slot c) rest hb x hm
        · rw [hnil] at hm; cases hm
  | retain q =>
    rcases retain_found_cases s q with h | ⟨p, e, a, hf, hat, h⟩
    · simp only [step, h]; exact hl
    · simp only [step, h]
      obtain ⟨⟨ha, hc⟩, _⟩ := mem_of_entry_at s q p a e hat hl
      have hfit : e.refcount < 2 ^ 31 - 1 := hr.1 e hf
      have hw : wrap32 (e.refcount + 1) = e.refcount + 1 := by
        apply wrap32_of_range
        · omega
        · norm_num at hfit; omega
      apply all_live_store s q p a e _ hat hl
      refine ⟨ha, ?_⟩
      show 1 ≤ wrap32 (e.refcount + 1)
      rw [hw]; omega
  | release q =>
    rcases release_counted_cases s q with h | ⟨p, e, a, hat, _, hne, h⟩ | ⟨p, e, a, hat, h⟩
    · simp only [step, h]; exact hl
    · simp only [step, h]
      obtain ⟨⟨ha, hc⟩, _⟩ := mem_of_entry_at s q p a e hat hl
      apply all_live_store s q p a e _ hat hl
      refine ⟨ha, ?_⟩
      show 1 ≤ e.refcount - 1
      omega
    · apply all_live_of_objects_eq _ _ h
      apply all_live_set_slot s _ _ hl
      exact (mem_of_entry_at s q p a e hat hl).2
  | update q identifier =>
    rcases update_cases s n q identifier with h | ⟨p, e, a, hat, h⟩
    · simp only [step, h]; exact hl
    · simp only [step, h]
      obtain ⟨⟨ha, hc⟩, _⟩ := mem_of_entry_at s q p a e hat hl
      exact all_live_store s q p a e _ hat hl ⟨ha, hc⟩

theorem run_live (n : Nat) (ops : List Op) :
    ∀ s : Registry, all_live s → retains_in_range n s ops → all_live (run n s ops) := by
  induction ops with
  | nil => intro s hl _; exact hl
  | cons x xs ih =>
    intro s hl hr
    exact ih (step n s x) (step_live n s x hl ⟨hr.1, trivial⟩) hr.2

/-- In a state where the addresses select their slots and all entries are
live, the lookup finds exactly the addresses held by the table. -/
theorem found_iff_in_table (s : Registry) (hp : placed s) (hl : all_live s) (h : Nat) :
    (∃ e, find_obj s h = some e) ↔ ∃ i, h ∈ addrs s i := by
  constructor
  · rintro ⟨e, hf⟩
    obtain ⟨_, _, p, a, hat⟩ := (find_obj_eq_some_iff s h e).mp hf
    refine ⟨slot h, ?_⟩
    rw [addrs_of_entry_at s h p a e hat]
    simp
  · rintro ⟨i, hi⟩
    obtain ⟨hslot, h0⟩ := hp i h hi
    subst hslot
    cases hb : s.objects (slot h) with
    | none => simp [addrs, hb] at hi
    | some l =>
      simp only [addrs, hb, List.mem_map] at hi
      obtain ⟨x, hx, hxd⟩ := hi
      cases ht : traverse l h with
      | none => exact absurd hxd ((traverse_none_iff l h).mp ht x hx)
      | some e =>
        obtain ⟨p, a, hsplit, hd, hpre⟩ := traverse_some_split l h e ht
        have hat : entry_at s h p e a := ⟨by rw [hb, hsplit], hd, hpre⟩
        have ha := (hl (slot h) l hb e (by rw [hsplit]; simp)).1
        exact ⟨e, find_obj_of_entry_at s h p a e h0 hat ha⟩

/-! ## The dump -/

theorem print_entries_same (info : sccp_refcounted_types → sccp_refcount_obj_info)
    (header_size x : Nat) (l : List RefCountedObject) :
    print_entries info header_size x x l = (l.map (print_row info header_size none), x) := by
  induction l with
  | nil => rfl
  | cons e rest ih => simp [print_entries, ih]

theorem print_entries_cons (info : sccp_refcounted_types → sccp_refcount_obj_info)
    (header_size x prev : Nat) (e : RefCountedObject) (rest : List RefCountedObject) :
    print_entries info header_size x prev (e :: rest)
      = (print_row info header_size (if prev = x then none else some x) e
          :: rest.map (print_row info header_size none), x) := by
  simp [print_entries, print_entries_same]

/-- One pass of the `for` loop appends the rows owed to the slot, provided
`prev` equals the index exactly when the index is 0. -/
theorem print_slot_eq (s : Registry) (header_size : Nat) (acc : List cli_line × Nat)
    (x : Fin SCCP_HASH_PRIME) (hprev : acc.2 = x.val ↔ x.val = 0) :
    (print_slot s header_size acc x).1 = acc.1 ++ slot_rows s header_size x ∧
    ((print_slot s header_size acc x).2 = acc.2 ∨
      (print_slot s header_size acc x).2 = x.val) := by
  unfold print_slot slot_rows
  cases hb : s.objects x with
  | none => simp
  | some l =>
    cases l with
    | nil => simp [print_entries, bucket_rows]
    | cons e rest =>
      simp only [print_entries_cons, bucket_rows]
      by_cases h0 : x.val = 0
      · simp [h0, hprev.mpr h0]
      · have hne : ¬ acc.2 = x.val := fun h => h0 (hprev.mp h)
        simp [h0, hne]

theorem foldl_print_slot (s : Registry) (header_size : Nat)
    (xs : List (Fin SCCP_HASH_PRIME)) :
    ∀ acc : List cli_line × Nat, xs.Pairwise (fun a b => a < b) →
      (∀ x ∈ xs, (acc.2 = x.val ↔ x.val = 0)) →
      (xs.foldl (print_slot s header_size) acc).1
        = acc.1 ++ xs.flatMap (slot_rows s header_size) := by
  induction xs with
  | nil => intro acc _ _; simp
  | cons x r ih =>
    intro acc hsorted hprev
    obtain ⟨hx, hr⟩ := List.pairwise_cons.mp hsorted
    obtain ⟨hrows, hnext⟩ := print_slot_eq s header_size acc x (hprev x (List.mem_cons_self x r))
    rw [List.foldl_cons, ih (print_slot s header_size acc x) hr, hrows]
    · simp [List.flatMap_cons, List.append_assoc]
    · intro y hy
      have hlt : x.val < y.val := hx y hy
      have hy0 : y.val ≠ 0 := by omega
      constructor
      · intro h
        exfalso
        rcases hnext with hn | hn
        · rw [hn] at h
          exact hy0 ((hprev y (List.mem_cons_of_mem x hy)).mp h)
        · rw [hn] at h
          omega
      · intro h
        exact absurd h hy0

/-- The dump in closed form: the frame lines around the rows owed to the slots
0 .. 562, in this order. -/
theorem print_eq (s : Registry) (header_size : Nat) :
    sccp_refcount_print_hashtable s header_size
      = [cli_line.border, cli_line.heading, cli_line.separator]
        ++ (List.finRange SCCP_HASH_PRIME).flatMap (slot_rows s header_size)
        ++ [cli_line.border] := by
  unfold sccp_refcount_print_hashtable
  rw [foldl_print_slot s header_size _ ([], 0) (List.pairwise_lt_finRange _)]
  · simp
  · intro x _
    constructor
    · intro h; exact h.symm
    · intro h; exact h.symm

theorem flatMap_split {α β : Type} (f : α → List β) (l : List α) (a : α) (ha : a ∈ l) :
    ∃ front back, l = front ++ a :: back ∧
      l.flatMap f = front.flatMap f ++ f a ++ back.flatMap f := by
  obtain ⟨front, back, hl⟩ := List.append_of_mem ha
  refine ⟨front, back, hl, ?_⟩
  rw [hl]
  simp [List.flatMap_append, List.flatMap_cons, List.append_assoc]

theorem flatMap_eq_nil_of_forall {α β : Type} (f : α → List β) (l : List α)
    (h : ∀ a ∈ l, f a = []) : l.flatMap f = [] := by
  induction l with
  | nil => rfl
  | cons a r ih =>
    simp only [List.flatMap_cons]
    rw [h a (List.mem_cons_self a r), ih (fun b hb => h b (List.mem_cons_of_mem a hb))]
    rfl

/-- The rows of one slot stand together in the dump. -/
theorem print_split (s : Registry) (header_size : Nat) (x : Fin SCCP_HASH_PRIME) :
    ∃ front back, List.finRange SCCP_HASH_PRIME = front ++ x :: back ∧
      sccp_refcount_print_hashtable s header_size
        = ([cli_line.border, cli_line.heading, cli_line.separator]
            ++ front.flatMap (slot_rows s header_size))
          ++ slot_rows s header_size x
          ++ (back.flatMap (slot_rows s header_size) ++ [cli_line.border]) := by
  obtain ⟨front, back, hl, hflat⟩ :=
    flatMap_split (slot_rows s header_size) _ x (List.mem_finRange x)
  refine ⟨front, back, hl, ?_⟩
  rw [print_eq, hflat]
  simp [List.append_assoc]

/-- The dump of a registry in which only the slot `x` may hold a bucket. -/
theorem print_single (s : Registry) (header_size : Nat) (x : Fin SCCP_HASH_PRIME)
    (hx : ∀ y, y ≠ x → s.objects y = none) :
    sccp_refcount_print_hashtable s header_size
      = [cli_line.border, cli_line.heading, cli_line.separator]
        ++ slot_rows s header_size x ++ [cli_line.border] := by
  obtain ⟨front, back, hl, hp⟩ := print_split s header_size x
  have hnd : (front ++ x :: back).Nodup := hl ▸ List.nodup_finRange _
  have hfront : front.flatMap (slot_rows s header_size) = [] := by
    apply flatMap_eq_nil_of_forall
    intro y hy
    have hyx : y ≠ x := by
      intro h
      subst h
      exact (List.nodup_append.mp hnd).2.2 hy (List.mem_cons_self y back)
    simp [slot_rows, hx y hyx]
  have hback : back.flatMap (slot_rows s header_size) = [] := by
    apply flatMap_eq_nil_of_forall
    intro y hy
    have hyx : y ≠ x := by
      intro h
      subst h
      exact (List.nodup_cons.mp (List.nodup_append.mp hnd).2.1).1 hy
    simp [slot_rows, hx y hyx]
  rw [hp, hfront, hback]
  simp

theorem bucket_rows_split (info : sccp_refcounted_types → sccp_refcount_obj_info)
    (header_size x : Nat) (before after : List RefCountedObject) :
    ∃ front back mark, ∀ e,
      bucket_rows info header_size x (before ++ e :: after)
        = front ++ print_row info header_size mark e :: back := by
  cases before with
  | nil =>
    exact ⟨[], after.map (print_row info header_size none), if x = 0 then none else some x,
      fun e => by simp [bucket_rows]⟩
  | cons b bs =>
    exact ⟨print_row info header_size (if x = 0 then none else some x) b
        :: bs.map (print_row info header_size none),
      after.map (print_row info header_size none), none,
      fun e => by simp [bucket_rows]⟩

/-- The dump after a store into the entry of `q`: all lines but the row of this
entry are fixed, and this row shows the stored entry. -/
theorem print_store (s : Registry) (header_size q : Nat)
    (before after : List RefCountedObject) :
    ∃ front back mark, ∀ e2,
      sccp_refcount_print_hashtable
          (set_slot s (slot q) (some (before ++ e2 :: after))) header_size
        = front ++ print_row s.obj_info header_size mark e2 :: back := by
  obtain ⟨fr, bk, hl⟩ := List.append_of_mem (List.mem_finRange (slot q))
  obtain ⟨frB, bkB, mark, hB⟩ :=
    bucket_rows_split s.obj_info header_size (slot q).val before after
  have hnd : (fr ++ slot q :: bk).Nodup := hl ▸ List.nodup_finRange _
  refine ⟨[cli_line.border, cli_line.heading, cli_line.separator]
      ++ fr.flatMap (slot_rows s header_size) ++ frB,
    bkB ++ bk.flatMap (slot_rows s header_size) ++ [cli_line.border], mark, fun e2 => ?_⟩
  have hfr : fr.flatMap (slot_rows (set_slot s (slot q) (some (before ++ e2 :: after)))
      header_size) = fr.flatMap (slot_rows s header_size) := by
    apply flatMap_eq_of_eq_on
    intro y hy
    have hyx : y ≠ slot q := by
      intro h
      subst h
      exact (List.nodup_append.mp hnd).2.2 hy (List.mem_cons_self _ bk)
    simp [slot_rows, set_slot, hyx]
  have hbk : bk.flatMap (slot_rows (set_slot s (slot q) (some (before ++ e2 :: after)))
      header_size) = bk.flatMap (slot_rows s header_size) := by
    apply flatMap_eq_of_eq_on
    intro y hy
    have hyx : y ≠ slot q := by
      intro h
      subst h
      exact (List.nodup_cons.mp (List.nodup_append.mp hnd).2.1).1 hy
    simp [slot_rows, set_slot, hyx]
  have hmid : slot_rows (set_slot s (slot q) (some (before ++ e2 :: after))) header_size (slot q)
      = frB ++ print_row s.obj_info header_size mark e2 :: bkB := by
    simp only [slot_rows, set_slot_same]
    exact hB e2
  rw [print_eq, hl, List.flatMap_append, List.flatMap_cons, hfr, hbk, hmid]
  simp [List.append_assoc]

/-! ## Retain followed by release -/

/-- On a live entry with a counter between 1 and `2^31 - 2`, retain followed by
release gives back the state. -/
theorem retain_then_release (s : Registry) (h : Nat) (before after : List RefCountedObject)
    (e : RefCountedObject) (h0 : h ≠ 0) (hat : entry_at s h before e after)
    (ha : e.alive = SCCP_LIVE_MARKER) (c1 : 1 ≤ e.refcount) (c2 : e.refcount < 2 ^ 31 - 1) :
    sccp_refcount_release (sccp_refcount_retain s h).1 h = (s, 0) := by
  rw [retain_of_hit s h before after e h0 hat ha c1 c2]
  have hat2 : entry_at
      (set_slot s (slot h) (some (before ++ { e with refcount := e.refcount + 1 } :: after)))
      h before { e with refcount := e.refcount + 1 } after :=
    entry_at_set_slot s h before after _ hat.2.1 hat.2.2
  rw [release_of_hit_many _ h before after _ h0 hat2 ha
    (by show 0 ≤ e.refcount + 1; omega) (by show e.refcount + 1 ≠ 1; omega), set_slot_set_slot]
  have hback : ({ ({ e with refcount := e.refcount + 1 } : RefCountedObject) with
      refcount := e.refcount + 1 - 1 } : RefCountedObject) = e := by
    cases e
    simp
  rw [hback, set_slot_id s (slot h) _ hat.1]

/-! ## The destructor that an entry is owed -/

theorem mem_slot_calls (s : Registry) (j : Fin SCCP_HASH_PRIME) (d p : Nat) :
    (d, p) ∈ slot_calls s j ↔
      ∃ l, s.objects j = some l ∧
        ∃ obj ∈ l, (s.obj_info obj.type).destructor = d ∧ d ≠ 0 ∧ obj.data = p := by
  unfold slot_calls
  cases hb : s.objects j with
  | none => simp
  | some l =>
    simp only [destructor_calls_for, List.mem_filterMap, Option.some.injEq, exists_eq_left']
    constructor
    · rintro ⟨obj, hobj, hcall⟩
      by_cases hz : (s.obj_info obj.type).destructor = 0
      · simp [hz] at hcall
      · simp only [ne_eq, hz, not_false_eq_true, if_true, Option.some.injEq, Prod.mk.injEq]
          at hcall
        exact ⟨obj, hobj, hcall.1, by rw [← hcall.1]; exact hz, hcall.2⟩
    · rintro ⟨obj, hobj, hd, hz, hp⟩
      refine ⟨obj, hobj, ?_⟩
      subst hd
      simp [hz, hp]

/-- An allocation for a type that has a destructor leaves the type table as it
is. -/
theorem register_destructor_of_registered (s : Registry) (T : sccp_refcounted_types) (d : Nat)
    (hr : (s.obj_info T).destructor ≠ 0) : register_destructor s T d = s := by
  simp [register_destructor, hr]

/-! ## The state in which a destructor is called -/

/-- With the destructor that only records its call, `remove_obj_calling` is
`remove_obj`. -/
theorem remove_obj_calling_record (s : Registry) (ptr : Nat) :
    remove_obj_calling record_call s ptr = remove_obj s ptr := by
  unfold remove_obj_calling remove_obj record_call
  rfl

/-- With the destructor that only records its call, the release of this section
is `sccp_refcount_release`. -/
theorem release_calling_record (s : Registry) (ptr : Nat) :
    sccp_refcount_release_calling record_call s ptr = sccp_refcount_release s ptr := by
  unfold sccp_refcount_release_calling sccp_refcount_release
  simp only [remove_obj_calling_record]

/-- A pass of the sweep with the recording destructor is one unfolding of
`sweep`, so that the passes, repeated until the list is empty, make up
`destroy_slot`. -/
theorem sweep_pass_record (s : Registry) (x : Fin SCCP_HASH_PRIME) (obj : RefCountedObject)
    (rest : List RefCountedObject) (hs : s.objects x = some (obj :: rest)) :
    ∃ t, sweep_pass_calling record_call s x = some t ∧ t.objects x = some rest ∧
      destroy_slot s x = destroy_slot t x := by
  by_cases hz : (s.obj_info obj.type).destructor = 0
  · refine ⟨set_slot s x (some rest), ?_, set_slot_same _ _ _, ?_⟩
    · simp [sweep_pass_calling, hs, set_slot, hz]
    · simp [destroy_slot, hs, sweep, set_slot, hz]
  · refine ⟨record_call (s.obj_info obj.type).destructor (set_slot s x (some rest)) obj.data,
      ?_, set_slot_same _ _ _, ?_⟩
    · simp [sweep_pass_calling, hs, set_slot, hz]
    · simp [destroy_slot, hs, sweep, set_slot, hz, record_call]

theorem remove_obj_calling_of_entry_at (body : Nat → Registry → Nat → Registry) (s : Registry)
    (h : Nat) (before after : List RefCountedObject) (e : RefCountedObject) (h0 : h ≠ 0)
    (hat : entry_at s h before e after) (hz : (s.obj_info e.type).destructor ≠ 0) :
    remove_obj_calling body s h =
      body (s.obj_info e.type).destructor (set_slot s (slot h) (some (before ++ after))) h := by
  obtain ⟨hb, hd, hp⟩ := hat
  simp [remove_obj_calling, h0, hb, traverse_append before after e h hd hp,
    unlink_append before after e h hd hp, set_slot, hz]

/-- The release that takes the counter from 1 to 0 hands the destructor the
state in which the entry is unlinked. -/
theorem release_calling_of_hit_last (body : Nat → Registry → Nat → Registry) (s : Registry)
    (h : Nat) (before after : List RefCountedObject) (e : RefCountedObject) (h0 : h ≠ 0)
    (hat : entry_at s h before e after) (ha : e.alive = SCCP_LIVE_MARKER)
    (c1 : e.refcount = 1) (hz : (s.obj_info e.type).destructor ≠ 0) :
    sccp_refcount_release_calling body s h =
      (body (s.obj_info e.type).destructor (set_slot s (slot h) (some (before ++ after))) h,
        0) := by
  have hf := find_obj_of_entry_at s h before after e h0 hat ha
  have hd : e.data = h := hat.2.1
  have hp := hat.2.2
  have hs1 := store_obj_of_entry_at s h before after e
    (fun o => { o with refcount := e.refcount - 1 }) hat
  have hat1 : entry_at
      (set_slot s (slot h) (some (before ++ { e with refcount := e.refcount - 1 } :: after)))
      h before { e with refcount := e.refcount - 1 } after :=
    entry_at_set_slot s h before after _ hd hp
  have hs2 := store_obj_of_entry_at _ h before after { e with refcount := e.refcount - 1 }
    (fun o => { o with alive := (0 : Int) }) hat1
  have hat2 : entry_at (set_slot s (slot h)
      (some (before ++ { e with refcount := e.refcount - 1, alive := 0 } :: after)))
      h before { e with refcount := e.refcount - 1, alive := 0 } after :=
    entry_at_set_slot s h before after _ hd hp
  have hr := remove_obj_calling_of_entry_at body _ h before after _ h0 hat2 hz
  rw [set_slot_set_slot] at hs2 hr
  have hcond : ¬ (SCCP_LIVE_MARKER ≠ e.alive ∨ e.refcount < 0) := by
    simp [ha, c1]
  have hzero : e.refcount - 1 = 0 := by omega
  unfold sccp_refcount_release_calling
  simp only [hf, hcond, if_false, CAS32_hit, hzero, if_true]
  rw [hzero] at hs1 hs2 hr
  rw [hs1, hs2, hr]
  rfl

/-- Once its entry is unlinked, an address that the bucket held once is absent. -/
theorem absent_of_unlinked (s : Registry) (p : Nat) (before after : List RefCountedObject)
    (e : RefCountedObject) (hd : distinct_addrs s) (hat : entry_at s p before e after) :
    absent (set_slot s (slot p) (some (before ++ after))) p := by
  have hn := hd (slot p)
  rw [addrs_of_entry_at s p before after e hat] at hn
  have hnot : p ∉ before.map (fun o => o.data) ++ after.map (fun o => o.data) := by
    intro hmem
    have h2 := (List.nodup_cons.mp (List.nodup_append.mp hn).2.1).1
    have h3 := (List.nodup_append.mp hn).2.2
    rcases List.mem_append.mp hmem with hm | hm
    · exact h3 hm (List.mem_cons_self p _)
    · exact h2 hm
  unfold absent
  simpa [addrs, set_slot] using hnot

/-- The head of a bucket removed: what is left keeps the invariants, and the
address of the head is absent. -/
theorem head_removed (s : Registry) (x : Fin SCCP_HASH_PRIME) (obj : RefCountedObject)
    (rest : List RefCountedObject) (hd : distinct_addrs s) (hp : placed s)
    (hs : s.objects x = some (obj :: rest)) :
    absent (set_slot s x (some rest)) obj.data ∧ distinct_addrs (set_slot s x (some rest)) ∧
      placed (set_slot s x (some rest)) := by
  have haddr : addrs s x = obj.data :: rest.map (fun o => o.data) := by
    simp [addrs, hs]
  have hslot : slot obj.data = x := (hp x obj.data (by rw [haddr]; exact List.mem_cons_self _ _)).1
  have hn := hd x
  rw [haddr] at hn
  refine ⟨?_, ?_, ?_⟩
  · unfold absent
    rw [hslot, addrs_set_slot_same]
    exact (List.nodup_cons.mp hn).1
  · intro i
    by_cases hi : i = x
    · subst hi
      rw [addrs_set_slot_same]
      exact (List.nodup_cons.mp hn).2
    · rw [addrs_set_slot_other _ _ _ _ hi]
      exact hd i
  · intro i q hq
    by_cases hi : i = x
    · subst hi
      rw [addrs_set_slot_same] at hq
      exact hp i q (by rw [haddr]; exact List.mem_cons_of_mem _ hq)
    · rw [addrs_set_slot_other _ _ _ _ hi] at hq
      exact hp i q hq

/-! ## Names compared without case -/

theorem strcasecmp_eq_zero_iff (a : List Char) :
    ∀ b : List Char, strcasecmp a b = 0 ↔ a.map Char.toLower = b.map Char.toLower := by
  induction a with
  | nil =>
    intro b
    cases b with
    | nil => simp [strcasecmp]
    | cons y ys => simp [strcasecmp]
  | cons x xs ih =>
    intro b
    cases b with
    | nil => simp [strcasecmp]
    | cons y ys =>
      by_cases hxy : x.toLower = y.toLower
      · simp [strcasecmp, hxy, ih ys]
      · by_cases hlt : x.toLower < y.toLower
        · simp [strcasecmp, hxy, hlt]
        · simp [strcasecmp, hxy, hlt]

/-- A retain of a handle found with a counter of at least 1 returns the handle. -/
theorem retain_returns (s : Registry) (h : Nat) (e : RefCountedObject)
    (hf : find_obj s h = some e) (hc : 1 ≤ e.refcount) : (sccp_refcount_retain s h).2 = h := by
  obtain ⟨_, ha, _, _, hat⟩ := (find_obj_eq_some_iff s h e).mp hf
  have hcond : ¬ (SCCP_LIVE_MARKER ≠ e.alive ∨ e.refcount ≤ 0) := by
    simp only [ha, ne_eq, not_true_eq_false, false_or, not_le]
    omega
  unfold sccp_refcount_retain
  simp only [hf, hcond, if_false]
  exact hat.2.1

/-! ## The setter of `sccp_callinfo.c` -/

theorem callinfo_lookup_injective (k1 k2 : callinfo_text_key)
    (h : callinfo_lookup k1 = callinfo_lookup k2) : k1 = k2 := by
  cases k1 <;> cases k2 <;> first | rfl | (exact absurd h (by decide))

theorem read_write_same (c : callinfo_entry_t) (t : callinfo_types) (v : List Char) (w : Nat) :
    read_dst (write_valid (write_dst c t v) t w) t = v := by
  cases t <;> rfl

theorem read_write_other (c : callinfo_entry_t) (t t2 : callinfo_types) (v : List Char)
    (w : Nat) (ht : t2 ≠ t) :
    read_dst (write_valid (write_dst c t v) t w) t2 = read_dst c t2 := by
  cases t <;> cases t2 <;> first | rfl | exact absurd rfl ht

theorem copy_of_short (v : List Char) (size : Nat) (h : v.length < size) :
    sccp_copy_string v size = v := by
  unfold sccp_copy_string
  exact List.take_of_length_le (by omega)

/-- The body of the loop counts one change exactly when the argument differs
from what is stored, and leaves the callinfo alone when it does not. -/
theorem setter_body_count (size : Nat) (ci : sccp_callinfo) (n : Nat) (a : setter_arg) :
    (setter_body size ci n a).2 = n + (if arg_differs ci a then 1 else 0) ∧
    (arg_differs ci a = false → (setter_body size ci n a).1 = ci) ∧
    (setter_body size ci n a).1 = (setter_body size ci 0 a).1 := by
  cases a with
  | orig_reason v =>
    by_cases h : uint32_of_int v = ci.originalCdpnRedirectReason <;>
      simp [setter_body, arg_differs, h]
  | last_reason v =>
    by_cases h : uint32_of_int v = ci.lastRedirectingReason <;>
      simp [setter_body, arg_differs, h]
  | presentation v =>
    by_cases h : v = ci.presentation <;> simp [setter_body, arg_differs, h]
  | text k v =>
    cases v with
    | none => simp [setter_body, arg_differs]
    | some v =>
      by_cases h : read_dst (ci.entries (callinfo_lookup k).group) (callinfo_lookup k).type = v
        <;> simp [setter_body, arg_differs, sccp_strequals, h]

/-- After the body of the loop ran for an argument whose string fits, the
argument does not differ any more. -/
theorem setter_body_settles (size : Nat) (ci : sccp_callinfo) (n : Nat) (a : setter_arg)
    (hfit : arg_fits size a) : arg_differs (setter_body size ci n a).1 a = false := by
  cases a with
  | orig_reason v =>
    by_cases h : uint32_of_int v = ci.originalCdpnRedirectReason <;>
      simp [setter_body, arg_differs, h]
  | last_reason v =>
    by_cases h : uint32_of_int v = ci.lastRedirectingReason <;>
      simp [setter_body, arg_differs, h]
  | presentation v =>
    by_cases h : v = ci.presentation <;> simp [setter_body, arg_differs, h]
  | text k v =>
    cases v with
    | none => simp [arg_differs]
    | some v =>
      have hcopy := copy_of_short v size hfit
      by_cases h : read_dst (ci.entries (callinfo_lookup k).group) (callinfo_lookup k).type = v
      · simp [setter_body, arg_differs, sccp_strequals, h]
      · simp [setter_body, arg_differs, sccp_strequals, h, hcopy, read_write_same]

/-- The body of the loop for one key does not change whether an argument with
another key differs. -/
theorem setter_body_frame (size : Nat) (ci : sccp_callinfo) (n : Nat) (a b : setter_arg)
    (hk : a.curkey ≠ b.curkey) :
    arg_differs (setter_body size ci n a).1 b = arg_differs ci b := by
  cases a with
  | orig_reason v =>
    cases b with
    | orig_reason w => exact absurd rfl hk
    | last_reason w =>
      by_cases h : uint32_of_int v = ci.originalCdpnRedirectReason <;>
        simp [setter_body, arg_differs, h]
    | presentation w =>
      by_cases h : uint32_of_int v = ci.originalCdpnRedirectReason <;>
        simp [setter_body, arg_differs, h]
    | text k2 w =>
      cases w <;>
        by_cases h : uint32_of_int v = ci.originalCdpnRedirectReason <;>
          simp [setter_body, arg_differs, h]
  | last_reason v =>
    cases b with
    | orig_reason w =>
      by_cases h : uint32_of_int v = ci.lastRedirectingReason <;>
        simp [setter_body, arg_differs, h]
    | last_reason w => exact absurd rfl hk
    | presentation w =>
      by_cases h : uint32_of_int v = ci.lastRedirectingReason <;>
        simp [setter_body, arg_differs, h]
    | text k2 w =>
      cases w <;>
        by_cases h : uint32_of_int v = ci.lastRedirectingReason <;>
          simp [setter_body, arg_differs, h]
  | presentation v =>
    cases b with
    | orig_reason w =>
      by_cases h : v = ci.presentation <;> simp [setter_body, arg_differs, h]
    | last_reason w =>
      by_cases h : v = ci.presentation <;> simp [setter_body, arg_differs, h]
    | presentation w => exact absurd rfl hk
    | text k2 w =>
      cases w <;> by_cases h : v = ci.presentation <;> simp [setter_body, arg_differs, h]
  | text k v =>
    cases v with
    | none => simp [setter_body]
    | some v =>
      by_cases h : read_dst (ci.entries (callinfo_lookup k).group) (callinfo_lookup k).type = v
      · simp [setter_body, sccp_strequals, h]
      · cases b with
        | orig_reason w => simp [setter_body, arg_differs, sccp_strequals, h]
        | last_reason w => simp [setter_body, arg_differs, sccp_strequals, h]
        | presentation w => simp [setter_body, arg_differs, sccp_strequals, h]
        | text k2 w =>
          cases w with
          | none => simp [arg_differs]
          | some w =>
            have hkk : k2 ≠ k := fun hh => hk (by rw [hh]; rfl)
            have hread : read_dst
                ((setter_body size ci n (setter_arg.text k (some v))).1.entries
                  (callinfo_lookup k2).group) (callinfo_lookup k2).type
                = read_dst (ci.entries (callinfo_lookup k2).group) (callinfo_lookup k2).type := by
              simp only [setter_body, sccp_strequals, h, decide_False, Bool.false_eq_true,
                not_false_eq_true, if_true]
              by_cases hg : (callinfo_lookup k2).group = (callinfo_lookup k).group
              · have ht : (callinfo_lookup k2).type ≠ (callinfo_lookup k).type := by
                  intro ht
                  apply hkk
                  apply callinfo_lookup_injective
                  cases h1 : callinfo_lookup k2
                  cases h2 : callinfo_lookup k
                  rw [h1, h2] at hg ht
                  simp only at hg ht
                  rw [hg, ht]
                simp only [hg, if_true]
                exact read_write_other _ _ _ _ _ ht
              · simp only [hg, if_false]
            simp only [arg_differs, hread]

/-- The loop over arguments all of which agree with what is stored changes
nothing. -/
theorem setter_loop_of_same (size : Nat) (args : List setter_arg) :
    ∀ (ci : sccp_callinfo) (n : Nat), (∀ a ∈ args, arg_differs ci a = false) →
      setter_loop size ci n args = (ci, n) := by
  induction args with
  | nil => intro ci n _; rfl
  | cons a rest ih =>
    intro ci n hall
    have ha := hall a (List.mem_cons_self _ _)
    obtain ⟨h2, h1, _⟩ := setter_body_count size ci n a
    have e1 : (setter_body size ci n a).1 = ci := h1 ha
    have e2 : (setter_body size ci n a).2 = n := by rw [h2, ha]; simp
    simp only [setter_loop, e1, e2]
    exact ih ci n (fun b hb => hall b (List.mem_cons_of_mem _ hb))

/-- The loop over a list with pairwise different keys whose strings fit: the
count, the arguments settled, and the arguments with other keys left alone. -/
theorem setter_loop_count (size : Nat) (args : List setter_arg) :
    ∀ (ci : sccp_callinfo) (n : Nat), (args.map setter_arg.curkey).Nodup →
      strings_fit size args →
      (setter_loop size ci n args).2 = n + (args.filter (arg_differs ci)).length ∧
      (∀ a ∈ args, arg_differs (setter_loop size ci n args).1 a = false) ∧
      (∀ b, (∀ a ∈ args, a.curkey ≠ b.curkey) →
        arg_differs (setter_loop size ci n args).1 b = arg_differs ci b) := by
  induction args with
  | nil =>
    intro ci n _ _
    simp [setter_loop]
  | cons a rest ih =>
    intro ci n hnodup hfit
    rw [List.map_cons, List.nodup_cons] at hnodup
    obtain ⟨hnotin, hrest⟩ := hnodup
    have hne : ∀ b ∈ rest, b.curkey ≠ a.curkey := by
      intro b hb hbk
      exact hnotin (hbk ▸ List.mem_map_of_mem _ hb)
    have hfitrest : strings_fit size rest := fun b hb => hfit b (List.mem_cons_of_mem _ hb)
    obtain ⟨i1, i2, i3⟩ := ih (setter_body size ci n a).1 (setter_body size ci n a).2 hrest
      hfitrest
    obtain ⟨c1, _, _⟩ := setter_body_count size ci n a
    have hfilter : rest.filter (arg_differs (setter_body size ci n a).1)
        = rest.filter (arg_differs ci) := by
      apply List.filter_congr
      intro b hb
      exact setter_body_frame size ci n a b (fun h => hne b hb h.symm)
    refine ⟨?_, ?_, ?_⟩
    · simp only [setter_loop]
      rw [i1, c1, hfilter]
      by_cases hd : arg_differs ci a = true
      · simp [List.filter_cons, hd]
        omega
      · simp [List.filter_cons, hd]
    · intro b hb
      simp only [setter_loop]
      rcases List.mem_cons.mp hb with hba | hbrest
      · subst hba
        rw [i3 b hne]
        exact setter_body_settles size ci n b (hfit b (List.mem_cons_self _ _))
      · exact i2 b hbrest
    · intro b hb
      simp only [setter_loop]
      rw [i3 b (fun x hx => hb x (List.mem_cons_of_mem _ hx))]
      exact setter_body_frame size ci n a b (hb a (List.mem_cons_self _ _))

theorem entry_valid_write (c : callinfo_entry_t) (t : callinfo_types) (v : List Char)
    (size : Nat) (hsize : 2 ≤ size) (hc : entry_valid c) :
    entry_valid (write_valid (write_dst c t (sccp_copy_string v size)) t
      (if sccp_strlen_zero v then 0 else 1)) := by
  have hempty : sccp_copy_string v size = [] ↔ v = [] := by
    unfold sccp_copy_string
    cases v with
    | nil => simp
    | cons x xs =>
      obtain ⟨k, hk⟩ : ∃ k, size - 1 = k + 1 := ⟨size - 2, by omega⟩
      simp [hk]
  obtain ⟨h1, h2⟩ := hc
  cases t with
  | NAME => exact ⟨h1, h2⟩
  | NUMBER =>
    refine ⟨?_, h2⟩
    show (if sccp_strlen_zero v = true then 0 else 1)
      = if sccp_copy_string v size = [] then 0 else 1
    cases v with
    | nil => simp [sccp_strlen_zero, sccp_copy_string]
    | cons x xs =>
      have hne : ¬ sccp_copy_string (x :: xs) size = [] := fun h => by
        have := hempty.mp h
        cases this
      simp [sccp_strlen_zero, hne]
  | VOICEMAILBOX =>
    refine ⟨h1, ?_⟩
    show (if sccp_strlen_zero v = true then 0 else 1)
      = if sccp_copy_string v size = [] then 0 else 1
    cases v with
    | nil => simp [sccp_strlen_zero, sccp_copy_string]
    | cons x xs =>
      have hne : ¬ sccp_copy_string (x :: xs) size = [] := fun h => by
        have := hempty.mp h
        cases this
      simp [sccp_strlen_zero, hne]

theorem setter_body_valid (size : Nat) (hsize : 2 ≤ size) (ci : sccp_callinfo) (n : Nat)
    (a : setter_arg) (hv : flags_valid ci) : flags_valid (setter_body size ci n a).1 := by
  cases a with
  | orig_reason v =>
    by_cases h : uint32_of_int v = ci.originalCdpnRedirectReason
    · simpa [setter_body, h] using hv
    · intro g
      simpa [setter_body, h] using hv g
  | last_reason v =>
    by_cases h : uint32_of_int v = ci.lastRedirectingReason
    · simpa [setter_body, h] using hv
    · intro g
      simpa [setter_body, h] using hv g
  | presentation v =>
    by_cases h : v = ci.presentation
    · simpa [setter_body, h] using hv
    · intro g
      simpa [setter_body, h] using hv g
  | text k v =>
    cases v with
    | none => simpa [setter_body] using hv
    | some v =>
      by_cases h : read_dst (ci.entries (callinfo_lookup k).group) (callinfo_lookup k).type = v
      · simpa [setter_body, sccp_strequals, h] using hv
      · intro g
        simp only [setter_body, sccp_strequals, h, decide_False, Bool.false_eq_true,
          not_false_eq_true, if_true]
        by_cases hg : g = (callinfo_lookup k).group
        · simp only [hg, if_true]
          exact entry_valid_write _ _ _ _ hsize (hv _)
        · simp only [hg, if_false]
          exact hv g

theorem setter_loop_valid (size : Nat) (hsize : 2 ≤ size) (args : List setter_arg) :
    ∀ (ci : sccp_callinfo) (n : Nat), flags_valid ci →
      flags_valid (setter_loop size ci n args).1 := by
  induction args with
  | nil => intro ci n hv; exact hv
  | cons a rest ih =>
    intro ci n hv
    simp only [setter_loop]
    exact ih _ _ (setter_body_valid size hsize ci n a hv)

theorem setter_calls_valid (size : Nat) (hsize : 2 ≤ size) (calls : List (List setter_arg)) :
    ∀ ci : sccp_callinfo, flags_valid ci → flags_valid (setter_calls size ci calls) := by
  induction calls with
  | nil => intro ci hv; exact hv
  | cons args rest ih =>
    intro ci hv
    simp only [setter_calls]
    exact ih _ (setter_loop_valid size hsize args ci 0 hv)

/-- An argument that sets a name leaves both validity flags of every group as
they are. -/
theorem setter_body_name (size : Nat) (ci : sccp_callinfo) (n : Nat) (a : setter_arg)
    (ha : names_only a) (g : callinfo_groups) :
    ((setter_body size ci n a).1.entries g).NumberValid = (ci.entries g).NumberValid ∧
    ((setter_body size ci n a).1.entries g).VoiceMailboxValid
      = (ci.entries g).VoiceMailboxValid := by
  cases a with
  | orig_reason v => exact absurd ha (fun h => h)
  | last_reason v => exact absurd ha (fun h => h)
  | presentation v => exact absurd ha (fun h => h)
  | text k v =>
    have ht : (callinfo_lookup k).type = callinfo_types.NAME := ha
    cases v with
    | none => simp [setter_body]
    | some v =>
      by_cases h : read_dst (ci.entries (callinfo_lookup k).group) (callinfo_lookup k).type = v
      · simp [setter_body, sccp_strequals, h]
      · simp only [setter_body, sccp_strequals, h, decide_False, Bool.false_eq_true,
          not_false_eq_true, if_true]
        by_cases hg : g = (callinfo_lookup k).group
        · simp only [hg, if_true, ht]
          exact ⟨rfl, rfl⟩
        · simp only [hg, if_false]
          exact ⟨trivial, trivial⟩

theorem setter_loop_name (size : Nat) (args : List setter_arg) (g : callinfo_groups) :
    ∀ (ci : sccp_callinfo) (n : Nat), (∀ a ∈ args, names_only a) →
      ((setter_loop size ci n args).1.entries g).NumberValid = (ci.entries g).NumberValid ∧
      ((setter_loop size ci n args).1.entries g).VoiceMailboxValid
        = (ci.entries g).VoiceMailboxValid := by
  induction args with
  | nil => intro ci n _; exact ⟨rfl, rfl⟩
  | cons a rest ih =>
    intro ci n hall
    simp only [setter_loop]
    obtain ⟨i1, i2⟩ := ih (setter_body size ci n a).1 (setter_body size ci n a).2
      (fun b hb => hall b (List.mem_cons_of_mem _ hb))
    obtain ⟨b1, b2⟩ := setter_body_name size ci n a (hall a (List.mem_cons_self _ _)) g
    exact ⟨i1.trans b1, i2.trans b2⟩

/-! ## The last release for any destructor -/

theorem remove_obj_calling_any (body : Nat → Registry → Nat → Registry) (s : Registry)
    (h : Nat) (before after : List RefCountedObject) (e : RefCountedObject) (h0 : h ≠ 0)
    (hat : entry_at s h before e after) :
    remove_obj_calling body s h =
      if (s.obj_info e.type).destructor ≠ 0 then
        body (s.obj_info e.type).destructor (set_slot s (slot h) (some (before ++ after))) h
      else set_slot s (slot h) (some (before ++ after)) := by
  obtain ⟨hb, hd, hp⟩ := hat
  by_cases hz : (s.obj_info e.type).destructor = 0
  · simp [remove_obj_calling, h0, hb, traverse_append before after e h hd hp,
      unlink_append before after e h hd hp, set_slot, hz]
  · simp [remove_obj_calling, h0, hb, traverse_append before after e h hd hp,
      unlink_append before after e h hd hp, set_slot, hz]

/-- The release that takes the counter from 1 to 0, for any destructor: the
entry is unlinked, and the destructor of its type, if there is one, is applied
once to the state so reached. -/
theorem release_calling_last (body : Nat → Registry → Nat → Registry) (s : Registry)
    (h : Nat) (before after : List RefCountedObject) (e : RefCountedObject) (h0 : h ≠ 0)
    (hat : entry_at s h before e after) (ha : e.alive = SCCP_LIVE_MARKER)
    (c1 : e.refcount = 1) :
    sccp_refcount_release_calling body s h =
      (if (s.obj_info e.type).destructor ≠ 0 then
          body (s.obj_info e.type).destructor (set_slot s (slot h) (some (before ++ after))) h
        else set_slot s (slot h) (some (before ++ after)), 0) := by
  have hf := find_obj_of_entry_at s h before after e h0 hat ha
  have hd : e.data = h := hat.2.1
  have hp := hat.2.2
  have hs1 := store_obj_of_entry_at s h before after e
    (fun o => { o with refcount := e.refcount - 1 }) hat
  have hat1 : entry_at
      (set_slot s (slot h) (some (before ++ { e with refcount := e.refcount - 1 } :: after)))
      h before { e with refcount := e.refcount - 1 } after :=
    entry_at_set_slot s h before after _ hd hp
  have hs2 := store_obj_of_entry_at _ h before after { e with refcount := e.refcount - 1 }
    (fun o => { o with alive := (0 : Int) }) hat1
  have hat2 : entry_at (set_slot s (slot h)
      (some (before ++ { e with refcount := e.refcount - 1, alive := 0 } :: after)))
      h before { e with refcount := e.refcount - 1, alive := 0 } after :=
    entry_at_set_slot s h before after _ hd hp
  have hr := remove_obj_calling_any body _ h before after _ h0 hat2
  rw [set_slot_set_slot] at hs2 hr
  have hcond : ¬ (SCCP_LIVE_MARKER ≠ e.alive ∨ e.refcount < 0) := by
    simp [ha, c1]
  have hzero : e.refcount - 1 = 0 := by omega
  unfold sccp_refcount_release_calling
  simp only [hf, hcond, if_false, CAS32_hit, hzero, if_true]
  rw [hzero] at hs1 hs2 hr
  rw [hs1, hs2, hr]
  rfl

/-! ## The claims -/

/-- C2 (last release destroys), as amended: when the entry of a non-null handle
`h` sits in bucket `h mod 563`, is live and has counter exactly 1,
`sccp_refcount_release` first unlinks exactly that entry, reaching a state `m`
in which the entries before and after it stay, in order, and all other buckets,
the type table, the running flag and the destructor trace are as they were; it
then calls the destructor registered for the type of the entry once, with
argument `h`, in the state `m`, and ends in the state that the destructor
leaves; when none is registered it ends in `m`.  For a destructor that does not
call into the registry (it only leaves its call in the trace) the state after
the release is `m` with the call `(d, h)` appended to the trace. -/
theorem release_last_destroys (s : Registry) (h : Nat) (before after : List RefCountedObject)
    (e : RefCountedObject) (h0 : h ≠ 0) (hat : entry_at s h before e after)
    (ha : e.alive = SCCP_LIVE_MARKER) (hc : e.refcount = 1) :
    (∃ m : Registry,
      m.objects (slot h) = some (before ++ after) ∧ same_outside s m (slot h) ∧
      m.calls = s.calls ∧
      ∀ body : Nat → Registry → Nat → Registry,
        sccp_refcount_release_calling body s h =
          (if (s.obj_info e.type).destructor ≠ 0 then body (s.obj_info e.type).destructor m h
            else m, 0)) ∧
    sccp_refcount_release_calling record_call s h = sccp_refcount_release s h ∧
    (sccp_refcount_release s h).1.objects (slot h) = some (before ++ after) ∧
    same_outside s (sccp_refcount_release s h).1 (slot h) ∧
    (sccp_refcount_release s h).1.calls =
      s.calls ++ (if (s.obj_info e.type).destructor ≠ 0
        then [((s.obj_info e.type).destructor, h)] else []) := by
  refine ⟨⟨set_slot s (slot h) (some (before ++ after)), set_slot_same _ _ _,
    same_outside_set_slot s (slot h) _, rfl,
    fun body => release_calling_last body s h before after e h0 hat ha hc⟩,
    release_calling_record s h, ?_⟩
  rw [release_of_hit_last s h before after e h0 hat ha hc]
  refine ⟨?_, ⟨rfl, rfl, ?_⟩, rfl⟩
  · simp [set_slot]
  · intro j hj
    simp [set_slot, hj]

theorem release_last_destroys_witness :
    (1563 ≠ 0 ∧ entry_at example_registry 1563 [] example_first [example_second] ∧
      example_first.alive = SCCP_LIVE_MARKER ∧ example_first.refcount = 1) ∧
    ((∃ m : Registry,
      m.objects (slot 1563) = some ([] ++ [example_second]) ∧
      same_outside example_registry m (slot 1563) ∧ m.calls = example_registry.calls ∧
      ∀ body : Nat → Registry → Nat → Registry,
        sccp_refcount_release_calling body example_registry 1563 =
          (if (example_registry.obj_info example_first.type).destructor ≠ 0
            then body (example_registry.obj_info example_first.type).destructor m 1563
            else m, 0)) ∧
      sccp_refcount_release_calling record_call example_registry 1563
        = sccp_refcount_release example_registry 1563 ∧
      (sccp_refcount_release example_registry 1563).1.objects (slot 1563)
        = some ([] ++ [example_second]) ∧
      same_outside example_registry (sccp_refcount_release example_registry 1563).1 (slot 1563) ∧
      (sccp_refcount_release example_registry 1563).1.calls =
        example_registry.calls ++
          (if (example_registry.obj_info example_first.type).destructor ≠ 0
            then [((example_registry.obj_info example_first.type).destructor, 1563)] else [])) :=
  ⟨⟨by decide, ⟨by decide, by decide, by decide⟩, by decide, by decide⟩,
    release_last_destroys example_registry 1563 [] [example_second] example_first (by decide)
      ⟨by decide, by decide, by decide⟩ (by decide) (by decide)⟩

/-- C2, the claim as first stated fails: in `example_attached` the entry of the
linedevice at 2000 sits in bucket 311, is live and has counter 1, and its type
has `__sccp_lineDevice_destroy` as destructor.  The release of 2000 calls that
destructor, which releases the line at 1000, so that afterwards the entry of
the line at 1000, in another bucket, has counter 1 instead of 2: that bucket is
not left unchanged. -/
theorem last_release_changes_other_bucket :
    (2000 ≠ 0 ∧ entry_at example_attached 2000 [] example_linedevice_entry [] ∧
      example_linedevice_entry.alive = SCCP_LIVE_MARKER ∧
      example_linedevice_entry.refcount = 1) ∧
    slot 1000 ≠ slot 2000 ∧
    example_attached.objects (slot 1000) = some [example_first, example_second] ∧
    (sccp_refcount_release_calling example_destructors example_attached 2000).1.objects
        (slot 1000)
      = some [example_first, { example_second with refcount := 1 }] ∧
    ¬ same_outside example_attached
      (sccp_refcount_release_calling example_destructors example_attached 2000).1 (slot 2000) := by
  have hnew : (sccp_refcount_release_calling example_destructors example_attached 2000).1.objects
      (slot 1000) = some [example_first, { example_second with refcount := 1 }] := by decide
  have hold : example_attached.objects (slot 1000) = some [example_first, example_second] := by
    decide
  refine ⟨⟨by decide, ⟨by decide, by decide, by decide⟩, by decide, by decide⟩, by decide,
    hold, hnew, ?_⟩
  intro hsame
  have h := hsame.2.2 (slot 1000) (by decide)
  rw [hnew, hold] at h
  exact absurd h (by decide)

/-- C3 (a release that is not the last only decrements): when the lookup of `h`
finds the live entry `e` with counter at least 2, `sccp_refcount_release` leaves
the entry at its position in the bucket with the counter lowered by one and all
other fields (the live marker included) as they were, calls no destructor and
changes no other entry, no other bucket and no type descriptor. -/
theorem release_nonfinal_decrements (s : Registry) (h : Nat) (e : RefCountedObject)
    (hf : find_obj s h = some e) (hc : 2 ≤ e.refcount) :
    ∃ before after, entry_at s h before e after ∧
      (sccp_refcount_release s h).1.objects (slot h)
        = some (before ++ { e with refcount := e.refcount - 1 } :: after) ∧
      e.alive = SCCP_LIVE_MARKER ∧
      same_outside s (sccp_refcount_release s h).1 (slot h) ∧
      (sccp_refcount_release s h).1.calls = s.calls := by
  obtain ⟨h0, ha, p, q, hat⟩ := (find_obj_eq_some_iff s h e).mp hf
  refine ⟨p, q, hat, ?_, ha, ?_, ?_⟩
  · rw [release_of_hit_many s h p q e h0 hat ha (by omega) (by omega)]
    exact set_slot_same _ _ _
  · rw [release_of_hit_many s h p q e h0 hat ha (by omega) (by omega)]
    exact same_outside_set_slot _ _ _
  · rw [release_of_hit_many s h p q e h0 hat ha (by omega) (by omega)]
    rfl

theorem release_nonfinal_decrements_witness :
    (find_obj example_registry 1000 = some example_second ∧ 2 ≤ example_second.refcount) ∧
    ∃ before after, entry_at example_registry 1000 before example_second after ∧
      (sccp_refcount_release example_registry 1000).1.objects (slot 1000)
        = some (before ++
            { example_second with refcount := example_second.refcount - 1 } :: after) ∧
      example_second.alive = SCCP_LIVE_MARKER ∧
      same_outside example_registry (sccp_refcount_release example_registry 1000).1 (slot 1000) ∧
      (sccp_refcount_release example_registry 1000).1.calls = example_registry.calls :=
  ⟨⟨by decide, by decide⟩,
    release_nonfinal_decrements example_registry 1000 example_second (by decide) (by decide)⟩

/-- C4 (retain on a hit): when the entry of a non-null handle `h` sits in bucket
`h mod 563`, is live and has a counter `c` with `1 ≤ c < 2^31 - 1`,
`sccp_refcount_retain` returns `h` itself, and the state afterwards differs from
the one before only in the counter of that entry, which is `c + 1`. -/
theorem retain_hit (s : Registry) (h : Nat) (before after : List RefCountedObject)
    (e : RefCountedObject) (h0 : h ≠ 0) (hat : entry_at s h before e after)
    (ha : e.alive = SCCP_LIVE_MARKER) (c1 : 1 ≤ e.refcount) (c2 : e.refcount < 2 ^ 31 - 1) :
    (sccp_refcount_retain s h).2 = h ∧
    (sccp_refcount_retain s h).1.objects (slot h)
      = some (before ++ { e with refcount := e.refcount + 1 } :: after) ∧
    same_outside s (sccp_refcount_retain s h).1 (slot h) ∧
    (sccp_refcount_retain s h).1.calls = s.calls := by
  rw [retain_of_hit s h before after e h0 hat ha c1 c2]
  exact ⟨rfl, set_slot_same _ _ _, same_outside_set_slot _ _ _, rfl⟩

theorem retain_hit_witness :
    (1000 ≠ 0 ∧ entry_at example_registry 1000 [example_first] example_second [] ∧
      example_second.alive = SCCP_LIVE_MARKER ∧ 1 ≤ example_second.refcount ∧
      example_second.refcount < 2 ^ 31 - 1) ∧
    ((sccp_refcount_retain example_registry 1000).2 = 1000 ∧
      (sccp_refcount_retain example_registry 1000).1.objects (slot 1000)
        = some ([example_first] ++
            { example_second with refcount := example_second.refcount + 1 } :: []) ∧
      same_outside example_registry (sccp_refcount_retain example_registry 1000).1 (slot 1000) ∧
      (sccp_refcount_retain example_registry 1000).1.calls = example_registry.calls) :=
  ⟨⟨by decide, ⟨by decide, by decide, by decide⟩, by decide, by decide, by decide⟩,
    retain_hit example_registry 1000 [example_first] [] example_second (by decide)
      ⟨by decide, by decide, by decide⟩ (by decide) (by decide) (by decide)⟩

/-- C8: `sccp_refcount_release` returns `NULL` in every state and for every
argument. -/
theorem release_returns_null (s : Registry) (ptr : Nat) :
    (sccp_refcount_release s ptr).2 = 0 := by
  unfold sccp_refcount_release
  split
  · split
    · rfl
    · simp only []
      split <;> rfl
  · rfl

/-- C9 (retain on a miss): when `h` is null, or bucket `h mod 563` does not
exist, or it holds no entry with payload address `h`, or the entry found there
does not carry the live marker, `sccp_refcount_retain` returns `NULL` and the
state is unchanged. -/
theorem retain_miss (s : Registry) (h : Nat)
    (hm : h = 0 ∨ s.objects (slot h) = none ∨
      (∃ l, s.objects (slot h) = some l ∧ ∀ x ∈ l, x.data ≠ h) ∨
      (∃ before e after, entry_at s h before e after ∧ e.alive ≠ SCCP_LIVE_MARKER)) :
    sccp_refcount_retain s h = (s, 0) :=
  retain_of_miss s h (find_obj_of_miss s h hm)

theorem retain_miss_witness :
    (∃ before e after, entry_at example_registry 568 before e after ∧
      e.alive ≠ SCCP_LIVE_MARKER) ∧
    sccp_refcount_retain example_registry 568 = (example_registry, 0) :=
  ⟨⟨[], example_dead, [], ⟨by decide, by decide, by decide⟩, by decide⟩,
    retain_miss example_registry 568
      (Or.inr (Or.inr (Or.inr
        ⟨[], example_dead, [], ⟨by decide, by decide, by decide⟩, by decide⟩)))⟩

/-- C10 (release on a miss): when `h` is null, or not present in bucket
`h mod 563` (no bucket, or no entry with that address), or present but not
live, `sccp_refcount_release` leaves the state as it is: no counter changes, no
entry is removed and no destructor is called. -/
theorem release_miss (s : Registry) (h : Nat)
    (hm : h = 0 ∨ s.objects (slot h) = none ∨
      (∃ l, s.objects (slot h) = some l ∧ ∀ x ∈ l, x.data ≠ h) ∨
      (∃ before e after, entry_at s h before e after ∧ e.alive ≠ SCCP_LIVE_MARKER)) :
    (sccp_refcount_release s h).1 = s := by
  rw [release_of_miss s h (find_obj_of_miss s h hm)]

theorem release_miss_witness :
    (∃ l, example_registry.objects (slot 2126) = some l ∧ ∀ x ∈ l, x.data ≠ 2126) ∧
    (sccp_refcount_release example_registry 2126).1 = example_registry :=
  ⟨⟨[example_first, example_second], by decide, by decide⟩,
    release_miss example_registry 2126
      (Or.inr (Or.inr (Or.inl ⟨[example_first, example_second], by decide, by decide⟩)))⟩

/-- C5 (allocation postcondition): whenever `sccp_refcount_object_alloc`
succeeds, i.e. returns a non-null pointer `h`, then `h` is the payload address
of the new block, the entry of `h` is the head of bucket `h mod 563` and has
counter 1, the live marker (13, which is not 0), the given type, the given
size and the identifier cut to at most `REFCOUNT_INDENTIFIER_SIZE - 1`
characters, and `find_obj h` returns that entry. -/
theorem alloc_postcondition (s : Registry) (calloc_data : Nat) (malloc_ok : Bool)
    (REFCOUNT_INDENTIFIER_SIZE size : Nat) (type : sccp_refcounted_types)
    (identifier : List Char) (destructor : Nat)
    (hok : (sccp_refcount_object_alloc s calloc_data malloc_ok REFCOUNT_INDENTIFIER_SIZE size
      type identifier destructor).2 ≠ 0) :
    (sccp_refcount_object_alloc s calloc_data malloc_ok REFCOUNT_INDENTIFIER_SIZE size
      type identifier destructor).2 = calloc_data ∧
    (∃ rest, entry_at
      (sccp_refcount_object_alloc s calloc_data malloc_ok REFCOUNT_INDENTIFIER_SIZE size
        type identifier destructor).1 calloc_data []
      { refcount := 1, type := type,
        identifier := identifier.take (REFCOUNT_INDENTIFIER_SIZE - 1),
        alive := 13, len := size, data := calloc_data } rest) ∧
    find_obj
      (sccp_refcount_object_alloc s calloc_data malloc_ok REFCOUNT_INDENTIFIER_SIZE size
        type identifier destructor).1 calloc_data
      = some { refcount := 1, type := type,
               identifier := identifier.take (REFCOUNT_INDENTIFIER_SIZE - 1),
               alive := 13, len := size, data := calloc_data } ∧
    (identifier.take (REFCOUNT_INDENTIFIER_SIZE - 1)).length ≤ REFCOUNT_INDENTIFIER_SIZE - 1 ∧
    SCCP_LIVE_MARKER = 13 ∧ SCCP_LIVE_MARKER ≠ 0 := by
  obtain ⟨h0, rest, _, heq⟩ := alloc_of_success s calloc_data malloc_ok
    REFCOUNT_INDENTIFIER_SIZE size type identifier destructor hok
  rw [heq]
  have hat : entry_at (set_slot (register_destructor s type destructor) (slot calloc_data)
      (some (new_entry REFCOUNT_INDENTIFIER_SIZE size type identifier calloc_data :: rest)))
      calloc_data [] (new_entry REFCOUNT_INDENTIFIER_SIZE size type identifier calloc_data) rest :=
    entry_at_set_slot _ calloc_data [] rest _ rfl (by simp)
  refine ⟨rfl, ⟨rest, hat⟩, find_obj_of_entry_at _ _ [] rest _ h0 hat rfl, ?_, by decide, by decide⟩
  rw [List.length_take]
  exact Nat.min_le_left _ _

theorem alloc_postcondition_witness :
    (sccp_refcount_object_alloc example_registry 2000 true 25 64 SCCP_REF_CHANNEL
      "SCCP/7001-00000001 (a long identifier)".toList 8192).2 ≠ 0 ∧
    find_obj
      (sccp_refcount_object_alloc example_registry 2000 true 25 64 SCCP_REF_CHANNEL
        "SCCP/7001-00000001 (a long identifier)".toList 8192).1 2000
      = some { refcount := 1, type := SCCP_REF_CHANNEL,
               identifier := "SCCP/7001-00000001 (a lo".toList,
               alive := 13, len := 64, data := 2000 } :=
  ⟨by decide,
    (alloc_postcondition example_registry 2000 true 25 64 SCCP_REF_CHANNEL
      "SCCP/7001-00000001 (a long identifier)".toList 8192 (by decide)).2.2.1⟩

/-- C1 (counter tracking / balance): let `sccp_refcount_object_alloc` succeed
and return `h`.  For every sequence of `retain(h)` / `release(h)` calls in
which no prefix holds more releases than retains and the counter stays below
`2^31 - 1`, after every prefix the lookup of `h` still finds its live entry,
the counter is `1 + #retains - #releases`, and no destructor has been called;
the release that follows such a sequence with `#releases = #retains` (the first
one that makes `#releases = #retains + 1`) calls the destructor registered for
the type exactly once, with argument `h` (a type without destructor gets no
call).  In particular `N` retains and then `M ≤ N` releases leave the counter
at `N + 1 - M` without a destructor call, and `N` retains and then `N + 1`
releases produce exactly that one destructor call. -/
theorem counter_balance (s0 : Registry) (calloc_data : Nat) (malloc_ok : Bool)
    (REFCOUNT_INDENTIFIER_SIZE size : Nat) (type : sccp_refcounted_types)
    (identifier : List Char) (destructor : Nat) (s1 : Registry) (h : Nat)
    (halloc : sccp_refcount_object_alloc s0 calloc_data malloc_ok REFCOUNT_INDENTIFIER_SIZE
      size type identifier destructor = (s1, h))
    (hok : h ≠ 0) :
    (∀ cs : List HandleCall,
      (∀ k, k ≤ cs.length →
        (cs.take k).count HandleCall.release ≤ (cs.take k).count HandleCall.retain ∧
        (1 : Int) + (cs.take k).count HandleCall.retain - (cs.take k).count HandleCall.release
          < 2 ^ 31 - 1) →
      (∀ k, k ≤ cs.length →
        ∃ e, find_obj (apply_calls s1 h (cs.take k)) h = some e ∧
          e.refcount = 1 + (cs.take k).count HandleCall.retain
            - (cs.take k).count HandleCall.release ∧
          (apply_calls s1 h (cs.take k)).calls = s0.calls) ∧
      (cs.count HandleCall.release = cs.count HandleCall.retain →
        (sccp_refcount_release (apply_calls s1 h cs) h).1.calls =
          s0.calls ++ (if (s1.obj_info type).destructor ≠ 0
            then [((s1.obj_info type).destructor, h)] else []))) ∧
    (∀ N M : Nat, M ≤ N → (N : Int) + 1 < 2 ^ 31 - 1 →
      ∃ e, find_obj (apply_calls s1 h
          (List.replicate N HandleCall.retain ++ List.replicate M HandleCall.release)) h
          = some e ∧
        e.refcount = (N : Int) + 1 - M ∧
        (apply_calls s1 h
          (List.replicate N HandleCall.retain ++ List.replicate M HandleCall.release)).calls
          = s0.calls) ∧
    (∀ N : Nat, (N : Int) + 1 < 2 ^ 31 - 1 →
      (apply_calls s1 h
        (List.replicate N HandleCall.retain ++ List.replicate (N + 1) HandleCall.release)).calls
        = s0.calls ++ (if (s1.obj_info type).destructor ≠ 0
            then [((s1.obj_info type).destructor, h)] else [])) := by
  obtain ⟨_, rest, hs1, hcalls, _⟩ := alloc_state s0 calloc_data malloc_ok
    REFCOUNT_INDENTIFIER_SIZE size type identifier destructor s1 h halloc hok
  refine ⟨?_, ?_, ?_⟩
  · intro cs hpre
    constructor
    · intro k _
      obtain ⟨_, hfind, hc, _⟩ := apply_calls_result s1 h hok _ rest hs1 rfl rfl rfl
        (cs.take k) (prefixes_take cs k hpre)
      exact ⟨_, hfind, rfl, hc.trans hcalls⟩
    · intro heq
      have hr : stays_in_range 1 cs := by
        have := prefixes_take cs cs.length hpre
        rwa [List.take_length] at this
      have := release_after_balanced s1 h hok _ rest hs1 rfl rfl rfl cs hr heq
      rw [this, hcalls]
      rfl
  · intro N M hMN hN
    have hr : stays_in_range 1
        (List.replicate N HandleCall.retain ++ List.replicate M HandleCall.release) :=
      stays_in_range_replicate N M 1 (by omega) (by omega) (by omega)
    obtain ⟨_, hfind, hc, _⟩ := apply_calls_result s1 h hok _ rest hs1 rfl rfl rfl _ hr
    refine ⟨_, hfind, ?_, hc.trans hcalls⟩
    simp [List.count_append, List.count_replicate]
    ring
  · intro N hN
    have hr : stays_in_range 1
        (List.replicate N HandleCall.retain ++ List.replicate N HandleCall.release) :=
      stays_in_range_replicate N N 1 (by omega) (by omega) (by omega)
    have hcount : (List.replicate N HandleCall.retain
          ++ List.replicate N HandleCall.release).count HandleCall.release
        = (List.replicate N HandleCall.retain
          ++ List.replicate N HandleCall.release).count HandleCall.retain := by
      simp [List.count_append, List.count_replicate]
    have := release_after_balanced s1 h hok _ rest hs1 rfl rfl rfl _ hr hcount
    rw [List.replicate_succ', ← List.append_assoc, apply_calls_append]
    simp only [apply_calls]
    rw [this, hcalls]
    rfl

theorem counter_balance_witness :
    ((sccp_refcount_object_alloc example_registry 2000 true 25 64 SCCP_REF_CHANNEL
        "SCCP/7001-00000001".toList 8192).2 = 2000 ∧ 2000 ≠ 0) ∧
    (∃ e, find_obj (apply_calls
          (sccp_refcount_object_alloc example_registry 2000 true 25 64 SCCP_REF_CHANNEL
            "SCCP/7001-00000001".toList 8192).1 2000
          [HandleCall.retain, HandleCall.retain, HandleCall.release]) 2000 = some e ∧
        e.refcount = (2 : Nat) + 1 - (1 : Nat) ∧
        (apply_calls
          (sccp_refcount_object_alloc example_registry 2000 true 25 64 SCCP_REF_CHANNEL
            "SCCP/7001-00000001".toList 8192).1 2000
          [HandleCall.retain, HandleCall.retain, HandleCall.release]).calls = []) ∧
    (apply_calls
        (sccp_refcount_object_alloc example_registry 2000 true 25 64 SCCP_REF_CHANNEL
          "SCCP/7001-00000001".toList 8192).1 2000
        [HandleCall.retain, HandleCall.retain, HandleCall.release, HandleCall.release,
          HandleCall.release]).calls = [(8192, 2000)] :=
  ⟨⟨by decide, by decide⟩,
    (counter_balance example_registry 2000 true 25 64 SCCP_REF_CHANNEL
      "SCCP/7001-00000001".toList 8192 _ 2000 (Prod.ext rfl (by decide)) (by decide)).2.1
      2 1 (by decide) (by norm_num),
    (counter_balance example_registry 2000 true 25 64 SCCP_REF_CHANNEL
      "SCCP/7001-00000001".toList 8192 _ 2000 (Prod.ext rfl (by decide)) (by decide)).2.2
      2 (by norm_num)⟩

/-- C6 (dead-handle rejection): take any execution from the initial registry in
which the allocator never answers with an address still in the table, and let
its next call be the last release of `h` (the lookup finds the entry of `h`
with counter 1, so the entry is unlinked and its destructor, if any, runs).
After any further calls none of which is an allocation that returns `h`, both
`sccp_refcount_retain(h)` and `sccp_refcount_release(h)` return `NULL` and
leave the whole state, destructor trace included, unchanged.  The further calls
may themselves be retains and releases of `h`; every one of them is covered by
the statement for the calls before it. -/
theorem dead_handle_rejected (n : Nat) (ops0 : List Op)
    (hfresh : fresh_allocs n Registry.initial ops0) (h : Nat) (e : RefCountedObject)
    (hf : find_obj (run n Registry.initial ops0) h = some e) (hc : e.refcount = 1)
    (ops1 : List Op)
    (hno : never_hands_out n (sccp_refcount_release (run n Registry.initial ops0) h).1 h ops1) :
    sccp_refcount_retain
        (run n (sccp_refcount_release (run n Registry.initial ops0) h).1 ops1) h
      = (run n (sccp_refcount_release (run n Registry.initial ops0) h).1 ops1, 0) ∧
    sccp_refcount_release
        (run n (sccp_refcount_release (run n Registry.initial ops0) h).1 ops1) h
      = (run n (sccp_refcount_release (run n Registry.initial ops0) h).1 ops1, 0) := by
  obtain ⟨h0, ha, b, a, hat⟩ := (find_obj_eq_some_iff _ h e).mp hf
  have hd := run_distinct n ops0 Registry.initial distinct_addrs_initial hfresh
  have habs := absent_after_last_release _ h b a e hd h0 hat ha hc
  have hfin := find_obj_of_absent _ h (run_absent n h ops1 _ habs hno)
  exact ⟨retain_of_miss _ h hfin, release_of_miss _ h hfin⟩

theorem dead_handle_rejected_witness :
    (fresh_allocs 25 Registry.initial example_history ∧
      find_obj (run 25 Registry.initial example_history) 2000 = some example_channel ∧
      example_channel.refcount = 1 ∧
      never_hands_out 25
        (sccp_refcount_release (run 25 Registry.initial example_history) 2000).1 2000
        example_afterwards) ∧
    (sccp_refcount_retain
        (run 25 (sccp_refcount_release (run 25 Registry.initial example_history) 2000).1
          example_afterwards) 2000
      = (run 25 (sccp_refcount_release (run 25 Registry.initial example_history) 2000).1
          example_afterwards, 0) ∧
    sccp_refcount_release
        (run 25 (sccp_refcount_release (run 25 Registry.initial example_history) 2000).1
          example_afterwards) 2000
      = (run 25 (sccp_refcount_release (run 25 Registry.initial example_history) 2000).1
          example_afterwards, 0)) :=
  ⟨⟨by decide, by decide, by decide, by decide⟩,
    dead_handle_rejected 25 example_history (by decide) 2000 example_channel (by decide)
      (by decide) example_afterwards (by decide)⟩

/-- C7 (no double destruction, sequential): in every execution of allocate /
retain / release / update_identifier calls from the initial registry in which
the allocator never answers with an address still in the table, (1) a call
invokes at most one destructor, (2) a destructor is only invoked on an address
that an earlier allocation returned, and (3) between two destructor invocations
on the same address there is an allocation that returned this address again.
Hence every allocated object is destroyed at most once, whatever pointers the
retain and release calls are given. -/
theorem no_double_destruction (n : Nat) (ops : List Op)
    (hfresh : fresh_allocs n Registry.initial ops) :
    (∀ A op B, ops = A ++ op :: B →
      (step n (run n Registry.initial A) op).calls = (run n Registry.initial A).calls ∨
      ∃ d p, destructor_called n (run n Registry.initial A) op d p) ∧
    (∀ A op B d p, ops = A ++ op :: B →
      destructor_called n (run n Registry.initial A) op d p →
      ∃ front a back, A = front ++ a :: back ∧
        hands_out n (run n Registry.initial front) a p) ∧
    (∀ A op1 B op2 C d1 d2 p, ops = A ++ op1 :: (B ++ op2 :: C) →
      destructor_called n (run n Registry.initial A) op1 d1 p →
      destructor_called n (run n Registry.initial (A ++ op1 :: B)) op2 d2 p →
      ∃ front a back, B = front ++ a :: back ∧
        hands_out n (run n (step n (run n Registry.initial A) op1) front) a p) := by
  refine ⟨?_, ?_, ?_⟩
  · intro A op B _
    rcases step_calls n (run n Registry.initial A) op with h | ⟨q, b, e, a, _, _, _, h⟩
    · exact Or.inl h
    · by_cases hz : ((run n Registry.initial A).obj_info e.type).destructor = 0
      · left; simpa [hz] using h
      · right
        exact ⟨_, q, by simpa [destructor_called, hz] using h⟩
  · intro A op B d p hops hcall
    have hfA : fresh_allocs n Registry.initial A := by
      rw [hops] at hfresh
      exact ((fresh_allocs_append n _ A (op :: B)).mp hfresh).1
    have hd := run_distinct n A Registry.initial distinct_addrs_initial hfA
    have hpresent := (absent_of_destructor_called n _ op d p hd hcall).1
    apply exists_hands_out n p A Registry.initial
    intro hnever
    exact hpresent (run_absent n p A Registry.initial (absent_initial p) hnever)
  · intro A op1 B op2 C d1 d2 p hops hcall1 hcall2
    rw [hops] at hfresh
    obtain ⟨hfA, hfrest⟩ := (fresh_allocs_append n _ A (op1 :: (B ++ op2 :: C))).mp hfresh
    have hdA := run_distinct n A Registry.initial distinct_addrs_initial hfA
    have hgone := (absent_of_destructor_called n _ op1 d1 p hdA hcall1).2
    have hfAB : fresh_allocs n Registry.initial (A ++ op1 :: B) := by
      refine (fresh_allocs_append n _ A (op1 :: B)).mpr ⟨hfA, hfrest.1, ?_⟩
      exact ((fresh_allocs_append n _ B (op2 :: C)).mp hfrest.2).1
    have hdAB := run_distinct n _ Registry.initial distinct_addrs_initial hfAB
    have hpresent := (absent_of_destructor_called n _ op2 d2 p hdAB hcall2).1
    apply exists_hands_out n p B
    intro hnever
    apply hpresent
    rw [run_append]
    exact run_absent n p B _ hgone hnever

theorem no_double_destruction_witness :
    (fresh_allocs 25 Registry.initial
        [example_alloc, Op.release 2000, example_realloc, Op.release 2000] ∧
      destructor_called 25 (run 25 Registry.initial [example_alloc]) (Op.release 2000)
        8192 2000 ∧
      destructor_called 25
        (run 25 Registry.initial ([example_alloc] ++ Op.release 2000 :: [example_realloc]))
        (Op.release 2000) 8192 2000) ∧
    ∃ front a back, [example_realloc] = front ++ a :: back ∧
      hands_out 25
        (run 25 (step 25 (run 25 Registry.initial [example_alloc]) (Op.release 2000)) front)
        a 2000 :=
  ⟨⟨by decide, by decide, by decide⟩,
    (no_double_destruction 25
      [example_alloc, Op.release 2000, example_realloc, Op.release 2000] (by decide)).2.2
      [example_alloc] (Op.release 2000) [example_realloc] (Op.release 2000) [] 8192 8192 2000
      rfl (by decide) (by decide)⟩

/-- C11 (retain rejects a counter that is not positive): when the lookup of `h`
finds the live entry `e` and its counter is at most 0, `sccp_refcount_retain`
returns `NULL` and the state, the counter included, is unchanged. -/
theorem retain_rejects_nonpositive (s : Registry) (h : Nat) (e : RefCountedObject)
    (hf : find_obj s h = some e) (hc : e.refcount ≤ 0) :
    sccp_refcount_retain s h = (s, 0) := by
  simp [sccp_refcount_retain, hf, hc]

theorem retain_rejects_nonpositive_witness :
    (find_obj example_fading 3000 = some example_zero ∧ example_zero.refcount ≤ 0) ∧
    sccp_refcount_retain example_fading 3000 = (example_fading, 0) :=
  ⟨⟨by decide, by decide⟩,
    retain_rejects_nonpositive example_fading 3000 example_zero (by decide) (by decide)⟩

/-- C12 (release has no floor at 0; the code at the failing input): in the
registry `example_fading` the lookup of the handle 3000 finds a live entry
whose counter is 0.  `sccp_refcount_release(3000)` passes the guard
`obj->refcount < 0`, stores `0 - 1`, and since the new value is not 0 it leaves
the entry linked and live: afterwards the counter of that entry is -1. -/
theorem release_at_zero_goes_negative :
    find_obj example_fading 3000 = some example_zero ∧
    example_zero.alive = SCCP_LIVE_MARKER ∧ example_zero.refcount = 0 ∧
    (sccp_refcount_release example_fading 3000).1.objects (slot 3000)
      = some [{ example_zero with refcount := -1 }, example_negative] ∧
    find_obj (sccp_refcount_release example_fading 3000).1 3000
      = some { example_zero with refcount := -1 } ∧
    (sccp_refcount_release example_fading 3000).1.calls = [] := by
  decide

/-- C13 (release short-circuits on a negative counter): when the lookup of `h`
finds the live entry `e` and its counter is below 0, `sccp_refcount_release`
returns `NULL` and the state is unchanged: the counter is not decremented, the
entry is not removed and no destructor is called. -/
theorem release_rejects_negative (s : Registry) (h : Nat) (e : RefCountedObject)
    (hf : find_obj s h = some e) (hc : e.refcount < 0) :
    sccp_refcount_release s h = (s, 0) := by
  simp [sccp_refcount_release, hf, hc]

theorem release_rejects_negative_witness :
    (find_obj example_fading 3563 = some example_negative ∧ example_negative.refcount < 0) ∧
    sccp_refcount_release example_fading 3563 = (example_fading, 0) :=
  ⟨⟨by decide, by decide⟩,
    release_rejects_negative example_fading 3563 example_negative (by decide) (by decide)⟩

/-- C19 (failure of the block allocation is atomic): when `calloc` returns
`NULL`, `sccp_refcount_object_alloc` returns `NULL` and the registry is exactly
as before: no bucket created, no entry inserted, no descriptor modified. -/
theorem alloc_block_failure (s : Registry) (malloc_ok : Bool)
    (REFCOUNT_INDENTIFIER_SIZE size : Nat) (type : sccp_refcounted_types)
    (identifier : List Char) (destructor : Nat) :
    sccp_refcount_object_alloc s 0 malloc_ok REFCOUNT_INDENTIFIER_SIZE size type identifier
      destructor = (s, 0) := by
  simp [sccp_refcount_object_alloc]

/-- C20 (failure of the bucket creation): when the block was allocated, the
slot selected by its payload address is empty and the `malloc` of the bucket
head fails, `sccp_refcount_object_alloc` returns `NULL`, that slot stays empty
and the whole bucket table is as before the call. -/
theorem alloc_bucket_failure (s : Registry) (calloc_data : Nat)
    (REFCOUNT_INDENTIFIER_SIZE size : Nat) (type : sccp_refcounted_types)
    (identifier : List Char) (destructor : Nat)
    (hc : calloc_data ≠ 0) (hb : s.objects (slot calloc_data) = none) :
    (sccp_refcount_object_alloc s calloc_data false REFCOUNT_INDENTIFIER_SIZE size type
      identifier destructor).2 = 0 ∧
    (sccp_refcount_object_alloc s calloc_data false REFCOUNT_INDENTIFIER_SIZE size type
      identifier destructor).1.objects (slot calloc_data) = none ∧
    (sccp_refcount_object_alloc s calloc_data false REFCOUNT_INDENTIFIER_SIZE size type
      identifier destructor).1.objects = s.objects := by
  have h : sccp_refcount_object_alloc s calloc_data false REFCOUNT_INDENTIFIER_SIZE size type
      identifier destructor = (register_destructor s type destructor, 0) := by
    simp [sccp_refcount_object_alloc, hc, register_destructor_objects, hb]
  rw [h]
  refine ⟨rfl, ?_, register_destructor_objects s type destructor⟩
  rw [register_destructor_objects]
  exact hb

theorem alloc_bucket_failure_witness :
    (2000 ≠ 0 ∧ example_registry.objects (slot 2000) = none) ∧
    ((sccp_refcount_object_alloc example_registry 2000 false 25 64 SCCP_REF_CHANNEL
        "SCCP/7001-00000001".toList 8192).2 = 0 ∧
      (sccp_refcount_object_alloc example_registry 2000 false 25 64 SCCP_REF_CHANNEL
        "SCCP/7001-00000001".toList 8192).1.objects (slot 2000) = none ∧
      (sccp_refcount_object_alloc example_registry 2000 false 25 64 SCCP_REF_CHANNEL
        "SCCP/7001-00000001".toList 8192).1.objects = example_registry.objects) :=
  ⟨⟨by decide, by decide⟩,
    alloc_bucket_failure example_registry 2000 25 64 SCCP_REF_CHANNEL
      "SCCP/7001-00000001".toList 8192 (by decide) (by decide)⟩

/-- C15 (update identifier): when the lookup of `h` finds the live entry `e`,
`sccp_refcount_updateIdentifier(h, label)` replaces the identifier of that entry
by `label` cut to at most `REFCOUNT_INDENTIFIER_SIZE - 1` characters and leaves
everything else as it was: the other fields of the entry and its position in
the bucket, every other entry, every other bucket, the type table, the flag
and the destructor trace.  When the lookup misses, the state is unchanged. -/
theorem update_identifier_effect (s : Registry) (REFCOUNT_INDENTIFIER_SIZE h : Nat)
    (label : List Char) :
    (∀ e, find_obj s h = some e →
      ∃ before after, entry_at s h before e after ∧
        (sccp_refcount_updateIdentifier s REFCOUNT_INDENTIFIER_SIZE h label).objects (slot h)
          = some (before ++
              { e with identifier := label.take (REFCOUNT_INDENTIFIER_SIZE - 1) } :: after) ∧
        (label.take (REFCOUNT_INDENTIFIER_SIZE - 1)).length ≤ REFCOUNT_INDENTIFIER_SIZE - 1 ∧
        same_outside s (sccp_refcount_updateIdentifier s REFCOUNT_INDENTIFIER_SIZE h label)
          (slot h) ∧
        (sccp_refcount_updateIdentifier s REFCOUNT_INDENTIFIER_SIZE h label).calls = s.calls) ∧
    (find_obj s h = none →
      sccp_refcount_updateIdentifier s REFCOUNT_INDENTIFIER_SIZE h label = s) := by
  constructor
  · intro e hf
    obtain ⟨_, _, p, a, hat⟩ := (find_obj_eq_some_iff s h e).mp hf
    have hupd : sccp_refcount_updateIdentifier s REFCOUNT_INDENTIFIER_SIZE h label
        = set_slot s (slot h)
            (some (p ++ { e with identifier := label.take (REFCOUNT_INDENTIFIER_SIZE - 1) }
              :: a)) := by
      simp [sccp_refcount_updateIdentifier, hf, store_obj_of_entry_at s h p a e _ hat,
        sccp_copy_string]
    rw [hupd]
    refine ⟨p, a, hat, set_slot_same _ _ _, ?_, same_outside_set_slot _ _ _, rfl⟩
    rw [List.length_take]
    exact Nat.min_le_left _ _
  · intro hf
    simp [sccp_refcount_updateIdentifier, hf]

theorem update_identifier_effect_witness :
    find_obj example_registry 1000 = some example_second ∧
    (sccp_refcount_updateIdentifier example_registry 25 1000
        "a label that is longer than the field".toList).objects (slot 1000)
      = some [example_first,
          { example_second with identifier := "a label that is longer t".toList }] ∧
    sccp_refcount_updateIdentifier example_registry 25 568 "x".toList = example_registry :=
  ⟨by decide, by decide,
    (update_identifier_effect example_registry 25 568 "x".toList).2 (by decide)⟩

/-- C14, the claim as stated fails: after the allocation of the channel at 2000
in `example_registry`, one release followed by one retain (N = 1, M = 1, so
M < N + 1) ends with the destructor called and no entry left for the handle,
not with counter 1 and no destructor call. -/
theorem balance_any_order_counterexample :
    ([HandleCall.release, HandleCall.retain].count HandleCall.retain = 1 ∧
      [HandleCall.release, HandleCall.retain].count HandleCall.release = 1) ∧
    (apply_calls
        (sccp_refcount_object_alloc example_registry 2000 true 25 64 SCCP_REF_CHANNEL
          "SCCP/7001-00000001".toList 8192).1 2000
        [HandleCall.release, HandleCall.retain]).calls = [(8192, 2000)] ∧
    find_obj (apply_calls
        (sccp_refcount_object_alloc example_registry 2000 true 25 64 SCCP_REF_CHANNEL
          "SCCP/7001-00000001".toList 8192).1 2000
        [HandleCall.release, HandleCall.retain]) 2000 = none ∧
    ¬ ((apply_calls
          (sccp_refcount_object_alloc example_registry 2000 true 25 64 SCCP_REF_CHANNEL
            "SCCP/7001-00000001".toList 8192).1 2000
          [HandleCall.release, HandleCall.retain]).calls = example_registry.calls ∧
        ∃ e, find_obj (apply_calls
            (sccp_refcount_object_alloc example_registry 2000 true 25 64 SCCP_REF_CHANNEL
              "SCCP/7001-00000001".toList 8192).1 2000
            [HandleCall.release, HandleCall.retain]) 2000 = some e ∧
          e.refcount = ((1 : Nat) : Int) + 1 - ((1 : Nat) : Int)) := by
  refine ⟨by decide, by decide, by decide, ?_⟩
  rintro ⟨hcalls, _⟩
  revert hcalls
  decide

/-- C14 as amended (balance for every order that never runs ahead with
releases): after a successful allocation returning `h`, for every sequence of
`N` retains and `M` releases of `h` in which no prefix holds more releases than
retains and the counter stays below `2^31 - 1`, at the end no destructor has
been called and the counter of the entry of `h` is `N + 1 - M`. -/
theorem balance_in_order (s0 : Registry) (calloc_data : Nat) (malloc_ok : Bool)
    (REFCOUNT_INDENTIFIER_SIZE size : Nat) (type : sccp_refcounted_types)
    (identifier : List Char) (destructor : Nat) (s1 : Registry) (h : Nat)
    (halloc : sccp_refcount_object_alloc s0 calloc_data malloc_ok REFCOUNT_INDENTIFIER_SIZE
      size type identifier destructor = (s1, h))
    (hok : h ≠ 0) (N M : Nat) (cs : List HandleCall)
    (hN : cs.count HandleCall.retain = N) (hM : cs.count HandleCall.release = M)
    (hpre : ∀ k, k ≤ cs.length →
      (cs.take k).count HandleCall.release ≤ (cs.take k).count HandleCall.retain ∧
      (1 : Int) + (cs.take k).count HandleCall.retain - (cs.take k).count HandleCall.release
        < 2 ^ 31 - 1) :
    M < N + 1 ∧
    (apply_calls s1 h cs).calls = s0.calls ∧
    ∃ e, find_obj (apply_calls s1 h cs) h = some e ∧ e.refcount = (N : Int) + 1 - M := by
  obtain ⟨_, rest, hs1, hcalls, _⟩ := alloc_state s0 calloc_data malloc_ok
    REFCOUNT_INDENTIFIER_SIZE size type identifier destructor s1 h halloc hok
  have hr : stays_in_range 1 cs := by
    have := prefixes_take cs cs.length hpre
    rwa [List.take_length] at this
  obtain ⟨_, hfind, hc, _⟩ := apply_calls_result s1 h hok _ rest hs1 rfl rfl rfl cs hr
  have hlast := (hpre cs.length (le_refl _)).1
  rw [List.take_length, hN, hM] at hlast
  refine ⟨by omega, hc.trans hcalls, _, hfind, ?_⟩
  show (1 : Int) + cs.count HandleCall.retain - cs.count HandleCall.release = (N : Int) + 1 - M
  rw [hN, hM]
  ring

theorem balance_in_order_witness :
    ((sccp_refcount_object_alloc example_registry 2000 true 25 64 SCCP_REF_CHANNEL
        "SCCP/7001-00000001".toList 8192).2 = 2000 ∧ 2000 ≠ 0) ∧
    (1 < 2 + 1 ∧
      (apply_calls
        (sccp_refcount_object_alloc example_registry 2000 true 25 64 SCCP_REF_CHANNEL
          "SCCP/7001-00000001".toList 8192).1 2000
        [HandleCall.retain, HandleCall.release, HandleCall.retain]).calls
        = example_registry.calls ∧
      ∃ e, find_obj (apply_calls
          (sccp_refcount_object_alloc example_registry 2000 true 25 64 SCCP_REF_CHANNEL
            "SCCP/7001-00000001".toList 8192).1 2000
          [HandleCall.retain, HandleCall.release, HandleCall.retain]) 2000 = some e ∧
        e.refcount = ((2 : Nat) : Int) + 1 - ((1 : Nat) : Int)) :=
  ⟨⟨by decide, by decide⟩,
    balance_in_order example_registry 2000 true 25 64 SCCP_REF_CHANNEL
      "SCCP/7001-00000001".toList 8192 _ 2000 (Prod.ext rfl (by decide)) (by decide) 2 1
      [HandleCall.retain, HandleCall.release, HandleCall.retain] (by decide) (by decide)
      (by decide)⟩

/-- C16 (shutdown sweep): for every registry state, `sccp_refcount_destroy`
empties every existing bucket, so that afterwards no bucket contains an entry,
and the destructor calls it makes are, bucket by bucket in ascending slot order
and entry by entry in list order, one call of the destructor registered for
the type of the entry on the payload address of the entry, whatever its
counter and live marker are, and no call for an entry whose type has no
destructor registered. -/
theorem shutdown_sweep (s : Registry) :
    (∀ x, (sccp_refcount_destroy s).objects x = (s.objects x).map (fun _ => [])) ∧
    (∀ x l, (sccp_refcount_destroy s).objects x = some l → l = []) ∧
    (sccp_refcount_destroy s).calls
      = s.calls ++ (List.finRange SCCP_HASH_PRIME).flatMap (fun x =>
          match s.objects x with
          | none => []
          | some l => l.filterMap (fun obj =>
              if (s.obj_info obj.type).destructor ≠ 0
                then some ((s.obj_info obj.type).destructor, obj.data) else none)) := by
  rw [destroy_eq]
  refine ⟨fun x => rfl, ?_, rfl⟩
  intro x l hl
  simp only [] at hl
  cases hb : s.objects x with
  | none => rw [hb] at hl; cases hl
  | some l2 =>
    rw [hb] at hl
    simp only [Option.map_some', Option.some.injEq] at hl
    exact hl.symm

theorem shutdown_sweep_witness :
    (sccp_refcount_destroy example_registry).objects (slot 1000) = some [] ∧
    (sccp_refcount_destroy example_registry).objects (slot 568) = some [] ∧
    (sccp_refcount_destroy example_registry).objects (slot 2000) = none :=
  ⟨((shutdown_sweep example_registry).1 (slot 1000)).trans (by decide),
    ((shutdown_sweep example_registry).1 (slot 568)).trans (by decide),
    ((shutdown_sweep example_registry).1 (slot 2000)).trans (by decide)⟩

/-- C17 (registry-closed flag): `sccp_refcount_isRunning` returns false in the
initial state and after any calls of allocate, retain, release and
update_identifier made before `sccp_refcount_init`, true after
`sccp_refcount_init`, false after `sccp_refcount_destroy`, and none of allocate,
retain, release and update_identifier changes the value it returns. -/
theorem running_flag :
    sccp_refcount_isRunning Registry.initial = false ∧
    (∀ n ops, sccp_refcount_isRunning (run n Registry.initial ops) = false) ∧
    (∀ s, sccp_refcount_isRunning (sccp_refcount_init s) = true) ∧
    (∀ s, sccp_refcount_isRunning (sccp_refcount_destroy s) = false) ∧
    (∀ s c m n size type identifier d,
      sccp_refcount_isRunning (sccp_refcount_object_alloc s c m n size type identifier d).1
        = sccp_refcount_isRunning s) ∧
    (∀ s ptr, sccp_refcount_isRunning (sccp_refcount_retain s ptr).1
        = sccp_refcount_isRunning s) ∧
    (∀ s ptr, sccp_refcount_isRunning (sccp_refcount_release s ptr).1
        = sccp_refcount_isRunning s) ∧
    (∀ s n ptr identifier,
      sccp_refcount_isRunning (sccp_refcount_updateIdentifier s n ptr identifier)
        = sccp_refcount_isRunning s) := by
  refine ⟨rfl, ?_, fun s => rfl, ?_, ?_, ?_, ?_, ?_⟩
  · intro n ops
    simp only [sccp_refcount_isRunning, run_flag]
    rfl
  · intro s
    rw [destroy_eq]
    rfl
  · intro s c m n size type identifier d
    simp only [sccp_refcount_isRunning, alloc_flag]
  · intro s ptr
    simp only [sccp_refcount_isRunning, (retain_frame s ptr).1]
  · intro s ptr
    simp only [sccp_refcount_isRunning, (release_frame s ptr).1]
  · intro s n ptr identifier
    simp only [sccp_refcount_isRunning, (update_frame s n ptr identifier).1]

/-- C18, the claim as stated fails: in the initial registry the type `line`
has no destructor; an allocation of a line with the destructor 4096 whose
`calloc` fails returns `NULL` before the registration statement, so the type
still has no destructor afterwards. -/
theorem registration_counterexample :
    (Registry.initial.obj_info SCCP_REF_LINE).destructor = 0 ∧
    (sccp_refcount_object_alloc Registry.initial 0 true 25 64 SCCP_REF_LINE "7001".toList
      4096).2 = 0 ∧
    ((sccp_refcount_object_alloc Registry.initial 0 true 25 64 SCCP_REF_LINE "7001".toList
      4096).1.obj_info SCCP_REF_LINE).destructor = 0 ∧
    ((sccp_refcount_object_alloc Registry.initial 0 true 25 64 SCCP_REF_LINE "7001".toList
      4096).1.obj_info SCCP_REF_LINE).destructor ≠ 4096 := by
  decide

/-- C18 as amended (destructor registration is first-writer-wins and
permanent): a call of `sccp_refcount_object_alloc` with type `T` and destructor
`d` whose block allocation succeeds sets the destructor of `T` to `d` if `T` had
none and leaves it unchanged otherwise, keeps the name and the logging category
of `T`, and keeps the descriptor of every other type; a call whose block
allocation fails changes no descriptor; retain, release, update_identifier and
the shutdown sweep change no descriptor; and along every execution a
registered destructor is never cleared or replaced. -/
theorem registration_first_writer_wins (n : Nat) (s : Registry) :
    (∀ c m size T identifier d, c ≠ 0 →
      ((sccp_refcount_object_alloc s c m n size T identifier d).1.obj_info T).destructor
        = (if (s.obj_info T).destructor = 0 then d else (s.obj_info T).destructor) ∧
      ((sccp_refcount_object_alloc s c m n size T identifier d).1.obj_info T).datatype
        = (s.obj_info T).datatype ∧
      ((sccp_refcount_object_alloc s c m n size T identifier d).1.obj_info T).debugcat
        = (s.obj_info T).debugcat ∧
      ∀ other, other ≠ T →
        (sccp_refcount_object_alloc s c m n size T identifier d).1.obj_info other
          = s.obj_info other) ∧
    (∀ m size T identifier d,
      (sccp_refcount_object_alloc s 0 m n size T identifier d).1.obj_info = s.obj_info) ∧
    (∀ ptr, (sccp_refcount_retain s ptr).1.obj_info = s.obj_info) ∧
    (∀ ptr, (sccp_refcount_release s ptr).1.obj_info = s.obj_info) ∧
    (∀ ptr identifier, (sccp_refcount_updateIdentifier s n ptr identifier).obj_info
      = s.obj_info) ∧
    (sccp_refcount_destroy s).obj_info = s.obj_info ∧
    (∀ ops T, (s.obj_info T).destructor ≠ 0 →
      (run n s ops).obj_info T = s.obj_info T ∧
      (sccp_refcount_destroy (run n s ops)).obj_info T = s.obj_info T) := by
  refine ⟨?_, ?_, fun ptr => (retain_frame s ptr).2, fun ptr => (release_frame s ptr).2,
    fun ptr identifier => (update_frame s n ptr identifier).2, ?_, ?_⟩
  · intro c m size T identifier d hc
    rw [alloc_obj_info s c m n size T identifier d hc]
    obtain ⟨h1, h2, h3⟩ := register_destructor_same s T d
    exact ⟨h1, h2, h3, fun other ho => register_destructor_other s T other d ho⟩
  · intro m size T identifier d
    simp [sccp_refcount_object_alloc]
  · rw [destroy_eq]
  · intro ops T hr
    refine ⟨run_registered n ops T s hr, ?_⟩
    rw [destroy_eq]
    exact run_registered n ops T s hr

theorem registration_first_writer_wins_witness :
    (2000 ≠ 0 ∧ (example_registry.obj_info SCCP_REF_CHANNEL).destructor = 0 ∧
      (example_registry.obj_info SCCP_REF_LINE).destructor ≠ 0) ∧
    ((sccp_refcount_object_alloc example_registry 2000 false 25 64 SCCP_REF_CHANNEL
        "SCCP/7001-00000001".toList 8192).1.obj_info SCCP_REF_CHANNEL).destructor = 8192 ∧
    ((sccp_refcount_object_alloc example_registry 2000 true 25 64 SCCP_REF_LINE
        "7004".toList 8192).1.obj_info SCCP_REF_LINE).destructor = 4096 ∧
    (run 25 example_registry example_history).obj_info SCCP_REF_LINE
      = example_registry.obj_info SCCP_REF_LINE :=
  ⟨⟨by decide, by decide, by decide⟩,
    (((registration_first_writer_wins 25 example_registry).1 2000 false 64 SCCP_REF_CHANNEL
      "SCCP/7001-00000001".toList 8192 (by decide)).1).trans (by decide),
    (((registration_first_writer_wins 25 example_registry).1 2000 true 64 SCCP_REF_LINE
      "7004".toList 8192 (by decide)).1).trans (by decide),
    ((registration_first_writer_wins 25 example_registry).2.2.2.2.2.2 example_history
      SCCP_REF_LINE (by decide)).1⟩

/-- C30 (the bucket index is always in range): the table size 563 is a prime
number, and for every address `a` the index `SCCP_SIMPLE_HASH a` is `a mod 563`
and lies below 563; it is the index with which lookup, insertion and removal
select the slot of `objects[]`. -/
theorem bucket_index_in_range :
    Nat.Prime SCCP_HASH_PRIME ∧ SCCP_HASH_PRIME = 563 ∧
    ∀ a : Nat, SCCP_SIMPLE_HASH a = a % 563 ∧ 0 ≤ SCCP_SIMPLE_HASH a ∧
      SCCP_SIMPLE_HASH a < SCCP_HASH_PRIME ∧ (slot a).val = SCCP_SIMPLE_HASH a := by
  refine ⟨by norm_num [SCCP_HASH_PRIME], rfl, fun a => ⟨rfl, Nat.zero_le _, ?_, rfl⟩⟩
  exact Nat.mod_lt a (by decide)

/-- C23 (allocation inserts at the head of the bucket selected by the address):
when `sccp_refcount_object_alloc` succeeds with the payload address `p`, the new
entry is the first one of bucket `p mod 563`, followed by the entries that were
in that bucket before, in their order (by none when the slot was empty and the
bucket is created by this call); every other slot is as before. -/
theorem alloc_inserts_at_head (s : Registry) (p : Nat) (malloc_ok : Bool)
    (REFCOUNT_INDENTIFIER_SIZE size : Nat) (type : sccp_refcounted_types)
    (identifier : List Char) (destructor : Nat)
    (hok : (sccp_refcount_object_alloc s p malloc_ok REFCOUNT_INDENTIFIER_SIZE size
      type identifier destructor).2 ≠ 0) :
    (sccp_refcount_object_alloc s p malloc_ok REFCOUNT_INDENTIFIER_SIZE size
      type identifier destructor).2 = p ∧
    (sccp_refcount_object_alloc s p malloc_ok REFCOUNT_INDENTIFIER_SIZE size
      type identifier destructor).1.objects (slot p)
      = some ({ refcount := 1, type := type,
                identifier := identifier.take (REFCOUNT_INDENTIFIER_SIZE - 1),
                alive := 13, len := size, data := p }
              :: (s.objects (slot p)).getD []) ∧
    (∀ j, j ≠ slot p →
      (sccp_refcount_object_alloc s p malloc_ok REFCOUNT_INDENTIFIER_SIZE size
        type identifier destructor).1.objects j = s.objects j) ∧
    (s.objects (slot p) = none → malloc_ok = true) := by
  obtain ⟨h0, rest, hrest, heq⟩ := alloc_of_success s p malloc_ok
    REFCOUNT_INDENTIFIER_SIZE size type identifier destructor hok
  have hrest2 : rest = (s.objects (slot p)).getD [] := by
    rcases hrest with hr | ⟨hr, hnil⟩
    · rw [hr]; rfl
    · rw [hr, hnil]; rfl
  refine ⟨by rw [heq], ?_, ?_, ?_⟩
  · rw [heq, ← hrest2]
    exact set_slot_same _ _ _
  · intro j hj
    rw [heq, set_slot_other _ _ _ _ hj, register_destructor_objects]
  · intro hnone
    cases hm : malloc_ok with
    | true => rfl
    | false =>
      exfalso
      apply hok
      rw [hm]
      simp [sccp_refcount_object_alloc, h0, register_destructor_objects, hnone]

theorem alloc_inserts_at_head_witness :
    (sccp_refcount_object_alloc example_registry 2126 false 25 64 SCCP_REF_LINE
      "7005".toList 4096).2 ≠ 0 ∧
    (sccp_refcount_object_alloc example_registry 2126 false 25 64 SCCP_REF_LINE
      "7005".toList 4096).1.objects (slot 2126)
      = some [{ refcount := 1, type := SCCP_REF_LINE, identifier := "7005".toList,
                alive := 13, len := 64, data := 2126 }, example_first, example_second] :=
  ⟨by decide,
    ((alloc_inserts_at_head example_registry 2126 false 25 64 SCCP_REF_LINE
      "7005".toList 4096 (by decide)).2.1).trans (by decide)⟩

/-- C28, the claim as stated fails: in `example_registry` the slot of the handle
1000 has been created; after `sccp_refcount_destroy` that slot is not empty
again, it still refers to its bucket, whose list is now empty, so the slot
array is not back in its initial state. -/
theorem shutdown_storage_counterexample :
    example_registry.objects (slot 1000) ≠ none ∧
    (sccp_refcount_destroy example_registry).objects (slot 1000) = some [] ∧
    (sccp_refcount_destroy example_registry).objects (slot 1000) ≠ none ∧
    (sccp_refcount_destroy example_registry).objects (slot 1000)
      ≠ Registry.initial.objects (slot 1000) := by
  have h : (sccp_refcount_destroy example_registry).objects (slot 1000) = some [] := by
    rw [destroy_eq]
    decide
  refine ⟨by decide, h, ?_, ?_⟩
  · rw [h]; exact Option.some_ne_none _
  · rw [h]; exact Option.some_ne_none _

/-- C28 as amended (shutdown empties the buckets and keeps the slots): after
`sccp_refcount_destroy`, every bucket slot that had been created still refers
to its bucket and the list of that bucket is empty, and every slot that had not
been created is still empty. -/
theorem shutdown_keeps_slots (s : Registry) (x : Fin SCCP_HASH_PRIME) :
    (s.objects x ≠ none → (sccp_refcount_destroy s).objects x = some []) ∧
    (s.objects x = none → (sccp_refcount_destroy s).objects x = none) := by
  rw [destroy_eq]
  constructor
  · intro hx
    cases hb : s.objects x with
    | none => exact absurd hb hx
    | some l => simp [hb]
  · intro hx
    simp [hx]

theorem shutdown_keeps_slots_witness :
    (example_registry.objects (slot 568) ≠ none ∧ example_registry.objects (slot 2000) = none) ∧
    (sccp_refcount_destroy example_registry).objects (slot 568) = some [] ∧
    (sccp_refcount_destroy example_registry).objects (slot 2000) = none :=
  ⟨⟨by decide, by decide⟩,
    (shutdown_keeps_slots example_registry (slot 568)).1 (by decide),
    (shutdown_keeps_slots example_registry (slot 2000)).2 (by decide)⟩

/-- C29 (hash distribution for strided addresses): for every `K ≥ 563`, every
base address `b` and every stride `s` that 563 does not divide, the number of
indices `i < K` whose address `b + i * s` is sent to bucket `r` by
`SCCP_SIMPLE_HASH` is `⌊K / 563⌋` or `⌈K / 563⌉`, for every bucket `r`; hence it
is less than three times the average `K / 563`.  (Addresses are natural numbers
here, so the bound `b + K * s < 2^64`, which keeps the C addresses from
wrapping, is not needed.) -/
theorem strided_distribution (K b s r : Nat) (hK : 563 ≤ K) (hs : ¬ 563 ∣ s) (hr : r < 563) :
    (Nat.count (fun i => SCCP_SIMPLE_HASH (b + i * s) = r) K = K / 563 ∨
      Nat.count (fun i => SCCP_SIMPLE_HASH (b + i * s) = r) K = (K + 562) / 563) ∧
    Nat.count (fun i => SCCP_SIMPLE_HASH (b + i * s) = r) K * 563 < 3 * K := by
  obtain ⟨v, hv⟩ := strided_bucket_modEq b s r hs hr
  have hcount : Nat.count (fun i => SCCP_SIMPLE_HASH (b + i * s) = r) K
      = K / 563 + if v % 563 < K % 563 then 1 else 0 := by
    rw [← Nat.count_modEq_card K (by norm_num : 0 < 563) v]
    simp only [hv]
  rw [hcount]
  by_cases hlt : v % 563 < K % 563
  · simp only [hlt, if_true]
    constructor
    · right; omega
    · omega
  · simp only [hlt, if_false]
    constructor
    · left; omega
    · omega

theorem strided_distribution_witness :
    (563 ≤ 1000 ∧ ¬ 563 ∣ 64 ∧ 5 < 563) ∧
    (Nat.count (fun i => SCCP_SIMPLE_HASH (4096 + i * 64) = 5) 1000 = 1000 / 563 ∨
      Nat.count (fun i => SCCP_SIMPLE_HASH (4096 + i * 64) = 5) 1000 = (1000 + 562) / 563) ∧
    Nat.count (fun i => SCCP_SIMPLE_HASH (4096 + i * 64) = 5) 1000 * 563 < 3 * 1000 :=
  ⟨⟨by decide, by decide, by decide⟩,
    strided_distribution 1000 4096 64 5 (by decide) (by decide) (by decide)⟩

/-- C24 (liveness invariant): in every state reached from the initial registry
by allocate / retain / release / update_identifier calls in which every retain
finds a counter below `2^31 - 1`, every entry that is in a bucket carries the
live marker and has a counter of at least 1; and a handle is found by the
lookup exactly when an entry with that payload address is in the table.  (The
freshness of the allocated addresses is not needed for this invariant.) -/
theorem liveness_invariant (n : Nat) (ops : List Op)
    (hrange : retains_in_range n Registry.initial ops) :
    (∀ i l e, (run n Registry.initial ops).objects i = some l → e ∈ l →
      e.alive = SCCP_LIVE_MARKER ∧ 1 ≤ e.refcount) ∧
    (∀ h, (∃ e, find_obj (run n Registry.initial ops) h = some e) ↔
      ∃ i, h ∈ addrs (run n Registry.initial ops) i) := by
  have hl := run_live n ops Registry.initial all_live_initial hrange
  have hp := run_placed n ops Registry.initial placed_initial
  exact ⟨fun i l e hb he => hl i l hb e he, fun h => found_iff_in_table _ hp hl h⟩

theorem liveness_invariant_witness :
    retains_in_range 25 Registry.initial example_history ∧
    (run 25 Registry.initial example_history).objects (slot 2000) = some [example_channel] ∧
    (example_channel.alive = SCCP_LIVE_MARKER ∧ 1 ≤ example_channel.refcount) ∧
    ((∃ e, find_obj (run 25 Registry.initial example_history) 2000 = some e) ↔
      ∃ i, 2000 ∈ addrs (run 25 Registry.initial example_history) i) :=
  ⟨by decide, by decide,
    (liveness_invariant 25 example_history (by decide)).1 (slot 2000) [example_channel]
      example_channel (by decide) (by decide),
    (liveness_invariant 25 example_history (by decide)).2 2000⟩

/-- C25 (placement invariant): in every state reached from the initial registry
by allocate / retain / release / update_identifier calls in which the allocator
never answers with an address still held by an entry, every entry with payload
address `p` is in bucket `p mod 563` and in no other bucket, its address occurs
exactly once among the addresses of that bucket, and two entries of the table
with the same payload address are the same entry of the same bucket. -/
theorem placement_invariant (n : Nat) (ops : List Op)
    (hfresh : fresh_allocs n Registry.initial ops) :
    (∀ i l e, (run n Registry.initial ops).objects i = some l → e ∈ l → i = slot e.data) ∧
    (∀ i l e, (run n Registry.initial ops).objects i = some l → e ∈ l →
      (l.map (fun o => o.data)).count e.data = 1) ∧
    (∀ i j l1 l2 e1 e2, (run n Registry.initial ops).objects i = some l1 →
      (run n Registry.initial ops).objects j = some l2 → e1 ∈ l1 → e2 ∈ l2 →
      e1.data = e2.data → i = j ∧ e1 = e2) := by
  have hp := run_placed n ops Registry.initial placed_initial
  have hd := run_distinct n ops Registry.initial distinct_addrs_initial hfresh
  have hslot : ∀ i l e, (run n Registry.initial ops).objects i = some l → e ∈ l →
      i = slot e.data := by
    intro i l e hb he
    have hmem : e.data ∈ addrs (run n Registry.initial ops) i := by
      simp only [addrs, hb]
      exact List.mem_map.mpr ⟨e, he, rfl⟩
    exact (hp i e.data hmem).1.symm
  have hnodup : ∀ i l, (run n Registry.initial ops).objects i = some l →
      (l.map (fun o => o.data)).Nodup := by
    intro i l hb
    have := hd i
    simpa [addrs, hb] using this
  refine ⟨hslot, ?_, ?_⟩
  · intro i l e hb he
    exact List.count_eq_one_of_mem (hnodup i l hb) (List.mem_map.mpr ⟨e, he, rfl⟩)
  · intro i j l1 l2 e1 e2 hb1 hb2 he1 he2 hdata
    have hi := hslot i l1 e1 hb1 he1
    have hj := hslot j l2 e2 hb2 he2
    have hij : i = j := by rw [hi, hj, hdata]
    subst hij
    rw [hb1] at hb2
    cases hb2
    exact ⟨rfl, List.inj_on_of_nodup_map (hnodup i l1 hb1) he1 he2 hdata⟩

theorem placement_invariant_witness :
    fresh_allocs 25 Registry.initial (example_history ++ [example_realloc_other]) ∧
    (run 25 Registry.initial (example_history ++ [example_realloc_other])).objects (slot 2563)
      = some [example_other, example_channel] ∧
    slot 2563 = slot example_other.data ∧
    ([example_other, example_channel].map (fun o => o.data)).count example_channel.data = 1 :=
  ⟨by decide, by decide,
    (placement_invariant 25 (example_history ++ [example_realloc_other]) (by decide)).1
      (slot 2563) [example_other, example_channel] example_other (by decide) (by decide),
    (placement_invariant 25 (example_history ++ [example_realloc_other]) (by decide)).2.1
      (slot 2563) [example_other, example_channel] example_channel (by decide) (by decide)⟩

/-- C21 (identifier visibility): when the lookup of `h` finds the live entry
`e` and the label `X` is shorter than `REFCOUNT_INDENTIFIER_SIZE`, the dump
after `sccp_refcount_updateIdentifier(h, X)` equals the dump before it in every
line except the row of `e`, and that row, at the same place and with the same
mark and the same other columns, shows `X` as identifier. -/
theorem identifier_visible (s : Registry) (REFCOUNT_INDENTIFIER_SIZE h header_size : Nat)
    (X : List Char) (e : RefCountedObject) (hf : find_obj s h = some e)
    (hX : X.length < REFCOUNT_INDENTIFIER_SIZE) :
    ∃ front back mark,
      sccp_refcount_print_hashtable s header_size
        = front ++ cli_line.row mark (s.obj_info e.type).datatype e.identifier
            (e.data - header_size) e.refcount
            (if SCCP_LIVE_MARKER = e.alive then "yes".toList else "no".toList)
            (wrap32 e.len) :: back ∧
      sccp_refcount_print_hashtable
          (sccp_refcount_updateIdentifier s REFCOUNT_INDENTIFIER_SIZE h X) header_size
        = front ++ cli_line.row mark (s.obj_info e.type).datatype X
            (e.data - header_size) e.refcount
            (if SCCP_LIVE_MARKER = e.alive then "yes".toList else "no".toList)
            (wrap32 e.len) :: back := by
  obtain ⟨_, _, p, a, hat⟩ := (find_obj_eq_some_iff s h e).mp hf
  have htake : X.take (REFCOUNT_INDENTIFIER_SIZE - 1) = X :=
    List.take_of_length_le (by omega)
  have hupd : sccp_refcount_updateIdentifier s REFCOUNT_INDENTIFIER_SIZE h X
      = set_slot s (slot h) (some (p ++ { e with identifier := X } :: a)) := by
    simp [sccp_refcount_updateIdentifier, hf, store_obj_of_entry_at s h p a e _ hat,
      sccp_copy_string, htake]
  obtain ⟨front, back, mark, hprint⟩ := print_store s header_size h p a
  refine ⟨front, back, mark, ?_, ?_⟩
  · have := hprint e
    rw [set_slot_id s (slot h) _ hat.1] at this
    exact this
  · rw [hupd]
    exact hprint { e with identifier := X }

theorem identifier_visible_witness :
    (find_obj example_registry 1000 = some example_second ∧ "7009".toList.length < 25) ∧
    ∃ front back mark,
      sccp_refcount_print_hashtable example_registry 64
        = front ++ cli_line.row mark (example_registry.obj_info example_second.type).datatype
            example_second.identifier (example_second.data - 64) example_second.refcount
            (if SCCP_LIVE_MARKER = example_second.alive then "yes".toList else "no".toList)
            (wrap32 example_second.len) :: back ∧
      sccp_refcount_print_hashtable
          (sccp_refcount_updateIdentifier example_registry 25 1000 "7009".toList) 64
        = front ++ cli_line.row mark (example_registry.obj_info example_second.type).datatype
            "7009".toList (example_second.data - 64) example_second.refcount
            (if SCCP_LIVE_MARKER = example_second.alive then "yes".toList else "no".toList)
            (wrap32 example_second.len) :: back :=
  ⟨⟨by decide, by decide⟩,
    identifier_visible example_registry 25 1000 64 "7009".toList example_second (by decide)
      (by decide)⟩

/-- C26, the claim as stated fails in the size column: the registry
`example_huge` holds one entry, in bucket 5, whose payload size is 2^31; the
dump shows -2147483648 in the size column of its row, the value of
`(int)obj->len`, not the payload size. -/
theorem dump_size_counterexample :
    example_huge.objects (slot 568)
      = some [{ refcount := 1, type := SCCP_REF_TEST, identifier := "big".toList, alive := 13,
                len := 2147483648, data := 568 }] ∧
    sccp_refcount_print_hashtable example_huge 64
      = [cli_line.border, cli_line.heading, cli_line.separator,
          cli_line.row (some 5) "test".toList "big".toList 504 1 "yes".toList (-2147483648),
          cli_line.border] ∧
    (-2147483648 : Int) ≠ ((2147483648 : Nat) : Int) := by
  refine ⟨by decide, ?_, by decide⟩
  rw [print_single example_huge 64 (slot 568)]
  · decide
  · intro y hy
    have hval : y.val ≠ 5 := fun h => hy (Fin.ext h)
    simp [example_huge, hval]

/-- C26 as amended (dump coverage and order): for every registry state the
dump consists of the three frame lines, then, for the slots 0 .. 562 in
ascending order, one row per entry of the bucket in list order and nothing
else, then the closing frame line.  The row of an entry carries the name of its
type, its identifier, its counter, `yes` exactly when its live marker is set,
and its payload size converted to `int`, which is the payload size itself when
that is below `2^31`.  The dump only reads the registry. -/
theorem dump_coverage (s : Registry) (header_size : Nat) :
    sccp_refcount_print_hashtable s header_size
      = [cli_line.border, cli_line.heading, cli_line.separator]
        ++ (List.finRange SCCP_HASH_PRIME).flatMap (fun x =>
            match s.objects x with
            | none => []
            | some l => bucket_rows s.obj_info header_size x.val l)
        ++ [cli_line.border] ∧
    (∀ x l, (bucket_rows s.obj_info header_size x l).length = l.length) ∧
    (∀ x l, ∃ marks : List (Option Nat), marks.length = l.length ∧
      bucket_rows s.obj_info header_size x l
        = List.zipWith (fun mark e =>
            cli_line.row mark (s.obj_info e.type).datatype e.identifier (e.data - header_size)
              e.refcount (if e.alive = SCCP_LIVE_MARKER then "yes".toList else "no".toList)
              (wrap32 e.len)) marks l) ∧
    (∀ e : RefCountedObject, e.len < 2 ^ 31 → wrap32 e.len = e.len) := by
  refine ⟨print_eq s header_size, ?_, ?_, ?_⟩
  · intro x l
    cases l <;> simp [bucket_rows]
  · intro x l
    cases l with
    | nil => exact ⟨[], rfl, rfl⟩
    | cons e rest =>
      refine ⟨(if x = 0 then none else some x) :: List.replicate rest.length none, by simp, ?_⟩
      have hrest : ∀ r : List RefCountedObject,
          r.map (print_row s.obj_info header_size none)
            = List.zipWith (fun mark e =>
                cli_line.row mark (s.obj_info e.type).datatype e.identifier
                  (e.data - header_size) e.refcount
                  (if e.alive = SCCP_LIVE_MARKER then "yes".toList else "no".toList)
                  (wrap32 e.len)) (List.replicate r.length none) r := by
        intro r
        induction r with
        | nil => rfl
        | cons a r ih =>
          simp only [List.map_cons, List.length_cons, List.replicate_succ, List.zipWith_cons_cons]
          rw [ih]
          simp [print_row, eq_comm]
      simp only [bucket_rows, List.zipWith_cons_cons, hrest]
      simp [print_row, eq_comm]
  · intro e he
    apply wrap32_of_range
    · have : (0 : Int) ≤ e.len := Int.ofNat_nonneg _
      omega
    · have : ((e.len : Nat) : Int) < 2 ^ 31 := by exact_mod_cast he
      norm_num at this
      omega

/-- C27, the claim as stated fails: bucket 185 of `example_fading` holds two
entries; the dump shows the index 185 in the row of the first one only, the
row of the second one starts with the continuation mark and holds no bucket
index. -/
theorem dump_index_counterexample :
    example_fading.objects (slot 3563) = some [example_zero, example_negative] ∧
    (slot 3563).val = 185 ∧
    sccp_refcount_print_hashtable example_fading 64
      = [cli_line.border, cli_line.heading, cli_line.separator,
          cli_line.row (some 185) "device".toList "SEP02".toList 2936 0 "yes".toList 32,
          cli_line.row none "device".toList "SEP03".toList 3499 (-1) "yes".toList 32,
          cli_line.border] := by
  refine ⟨by decide, by decide, ?_⟩
  rw [print_single example_fading 64 (slot 3563)]
  · decide
  · intro y hy
    have hval : y.val ≠ 185 := fun h => hy (Fin.ext h)
    simp [example_fading, hval]

/-- C27 as amended (where the dump shows the bucket index): for every registry
state and every bucket with an index of at least 1 that holds entries, the row
of its first entry carries the index of the bucket and the rows of its other
entries, which follow it in list order, carry the continuation mark in place of
the index; the rows of the entries after the first one of bucket 0 carry the
continuation mark as well. -/
theorem dump_index_marks (s : Registry) (header_size : Nat) (x : Fin SCCP_HASH_PRIME)
    (e : RefCountedObject) (rest : List RefCountedObject)
    (hb : s.objects x = some (e :: rest)) :
    (x.val ≠ 0 → ∃ front back,
      sccp_refcount_print_hashtable s header_size
        = front ++ (print_row s.obj_info header_size (some x.val) e
            :: rest.map (print_row s.obj_info header_size none)) ++ back) ∧
    (∃ front back,
      sccp_refcount_print_hashtable s header_size
        = front ++ rest.map (print_row s.obj_info header_size none) ++ back) ∧
    (∀ mark o, print_row s.obj_info header_size mark o
      = cli_line.row mark (s.obj_info o.type).datatype o.identifier (o.data - header_size)
          o.refcount (if SCCP_LIVE_MARKER = o.alive then "yes".toList else "no".toList)
          (wrap32 o.len)) := by
  obtain ⟨fr, bk, _, hp⟩ := print_split s header_size x
  have hrows : slot_rows s header_size x
      = print_row s.obj_info header_size (if x.val = 0 then none else some x.val) e
        :: rest.map (print_row s.obj_info header_size none) := by
    simp [slot_rows, hb, bucket_rows]
  rw [hrows] at hp
  refine ⟨?_, ?_, fun mark o => rfl⟩
  · intro hx
    simp only [hx, if_false] at hp
    exact ⟨_, _, hp⟩
  · refine ⟨([cli_line.border, cli_line.heading, cli_line.separator]
        ++ fr.flatMap (slot_rows s header_size))
        ++ [print_row s.obj_info header_size (if x.val = 0 then none else some x.val) e],
      bk.flatMap (slot_rows s header_size) ++ [cli_line.border], ?_⟩
    rw [hp]
    simp [List.append_assoc]

theorem dump_index_marks_witness :
    (example_registry.objects (slot 1000) = some (example_first :: [example_second]) ∧
      (slot 1000).val ≠ 0) ∧
    ∃ front back,
      sccp_refcount_print_hashtable example_registry 64
        = front ++ (print_row example_registry.obj_info 64 (some (slot 1000).val) example_first
            :: [example_second].map (print_row example_registry.obj_info 64 none)) ++ back :=
  ⟨⟨by decide, by decide⟩,
    (dump_index_marks example_registry 64 (slot 1000) example_first [example_second]
      (by decide)).1 (by decide)⟩

/-- C34 (retain / release round trip): when the lookup of `h` finds the live
entry `e` with a counter `c`, `1 ≤ c < 2^31 - 1`, then `sccp_refcount_retain(h)`
returns `h` and the following `sccp_refcount_release(h)` yields exactly the
state before the retain: same counters, buckets, type table, flag, and the same
destructor trace, so no destructor was invoked. -/
theorem retain_release_round_trip (s : Registry) (h : Nat) (e : RefCountedObject)
    (hf : find_obj s h = some e) (c1 : 1 ≤ e.refcount) (c2 : e.refcount < 2 ^ 31 - 1) :
    (sccp_refcount_retain s h).2 = h ∧
    sccp_refcount_release (sccp_refcount_retain s h).1 h = (s, 0) ∧
    (sccp_refcount_release (sccp_refcount_retain s h).1 h).1.calls = s.calls := by
  obtain ⟨h0, ha, p, a, hat⟩ := (find_obj_eq_some_iff s h e).mp hf
  have hround := retain_then_release s h p a e h0 hat ha c1 c2
  refine ⟨?_, hround, ?_⟩
  · rw [retain_of_hit s h p a e h0 hat ha c1 c2]
  · rw [hround]

theorem retain_release_round_trip_witness :
    (find_obj example_registry 1000 = some example_second ∧ 1 ≤ example_second.refcount ∧
      example_second.refcount < 2 ^ 31 - 1) ∧
    ((sccp_refcount_retain example_registry 1000).2 = 1000 ∧
      sccp_refcount_release (sccp_refcount_retain example_registry 1000).1 1000
        = (example_registry, 0) ∧
      (sccp_refcount_release (sccp_refcount_retain example_registry 1000).1 1000).1.calls
        = example_registry.calls) :=
  ⟨⟨by decide, by decide, by decide⟩,
    retain_release_round_trip example_registry 1000 example_second (by decide) (by decide)
      (by decide)⟩

/-- C35 (a failed allocation still registers the destructor): when the block
was allocated, the slot selected by its address is empty, the `malloc` of the
bucket head fails and the type `T` had no destructor, then `NULL` is returned,
no entry is added, and afterwards the destructor of `T` is `d`; nothing else
has changed: the bucket table, the flag, the destructor trace, the name and the
logging category of `T` and the descriptors of all other types are as before. -/
theorem failed_alloc_registers (s : Registry) (calloc_data : Nat)
    (REFCOUNT_INDENTIFIER_SIZE size : Nat) (T : sccp_refcounted_types)
    (identifier : List Char) (d : Nat)
    (hc : calloc_data ≠ 0) (hb : s.objects (slot calloc_data) = none)
    (hT : (s.obj_info T).destructor = 0) :
    (sccp_refcount_object_alloc s calloc_data false REFCOUNT_INDENTIFIER_SIZE size T
      identifier d).2 = 0 ∧
    ((sccp_refcount_object_alloc s calloc_data false REFCOUNT_INDENTIFIER_SIZE size T
      identifier d).1.obj_info T).destructor = d ∧
    (sccp_refcount_object_alloc s calloc_data false REFCOUNT_INDENTIFIER_SIZE size T
      identifier d).1
      = { s with obj_info := fun t =>
            if t = T then { s.obj_info t with destructor := d } else s.obj_info t } := by
  have h : sccp_refcount_object_alloc s calloc_data false REFCOUNT_INDENTIFIER_SIZE size T
      identifier d = (register_destructor s T d, 0) := by
    simp [sccp_refcount_object_alloc, hc, register_destructor_objects, hb]
  have hreg : register_destructor s T d
      = { s with obj_info := fun t =>
            if t = T then { s.obj_info t with destructor := d } else s.obj_info t } := by
    simp [register_destructor, hT]
  rw [h, hreg]
  refine ⟨rfl, ?_, rfl⟩
  simp

theorem failed_alloc_registers_witness :
    (2000 ≠ 0 ∧ example_registry.objects (slot 2000) = none ∧
      (example_registry.obj_info SCCP_REF_CHANNEL).destructor = 0) ∧
    (sccp_refcount_object_alloc example_registry 2000 false 25 64 SCCP_REF_CHANNEL
      "SCCP/7001-00000001".toList 8192).2 = 0 ∧
    ((sccp_refcount_object_alloc example_registry 2000 false 25 64 SCCP_REF_CHANNEL
      "SCCP/7001-00000001".toList 8192).1.obj_info SCCP_REF_CHANNEL).destructor = 8192 :=
  ⟨⟨by decide, by decide, by decide⟩,
    (failed_alloc_registers example_registry 2000 25 64 SCCP_REF_CHANNEL
      "SCCP/7001-00000001".toList 8192 (by decide) (by decide) (by decide)).1,
    (failed_alloc_registers example_registry 2000 25 64 SCCP_REF_CHANNEL
      "SCCP/7001-00000001".toList 8192 (by decide) (by decide) (by decide)).2.1⟩

/-- C31 (address reuse defeats dead-handle detection): let `h` be a handle that
the lookup rejects in `s0`, as it does once the object behind `h` was destroyed,
so that `sccp_refcount_retain(h)` returns `NULL` there.  When a later allocation
succeeds and returns the same payload address `h`, then the new entry, with
counter 1, is the head of the bucket of `h`; `sccp_refcount_retain(h)` through
the stale handle returns `h` and takes the counter of the new entry to 2;
`sccp_refcount_release(h)` after that takes it back to 1; and
`sccp_refcount_release(h)` on the counter 1 unlinks the new entry and calls the
destructor registered for its type on `h`. -/
theorem address_reuse (s0 : Registry) (c : Nat) (m : Bool) (n size : Nat)
    (type : sccp_refcounted_types) (identifier : List Char) (d : Nat) (s1 : Registry) (h : Nat)
    (hdead : find_obj s0 h = none)
    (halloc : sccp_refcount_object_alloc s0 c m n size type identifier d = (s1, h))
    (hok : h ≠ 0) :
    sccp_refcount_retain s0 h = (s0, 0) ∧
    ∃ rest, s1.objects (slot h) = some (new_entry n size type identifier h :: rest) ∧
      sccp_refcount_retain s1 h =
        (set_slot s1 (slot h)
          (some ({ new_entry n size type identifier h with refcount := 2 } :: rest)), h) ∧
      sccp_refcount_release (sccp_refcount_retain s1 h).1 h = (s1, 0) ∧
      sccp_refcount_release s1 h =
        ({ set_slot s1 (slot h) (some rest) with
           calls := s1.calls ++
             (if (s1.obj_info type).destructor ≠ 0 then [((s1.obj_info type).destructor, h)]
              else []) }, 0) := by
  obtain ⟨_, rest, hobj, _, _⟩ := alloc_state s0 c m n size type identifier d s1 h halloc hok
  have hat : entry_at s1 h [] (new_entry n size type identifier h) rest :=
    ⟨hobj, rfl, by simp⟩
  have hone : 1 ≤ (new_entry n size type identifier h).refcount := by
    show (1 : Int) ≤ 1
    decide
  have htwo : (new_entry n size type identifier h).refcount < 2 ^ 31 - 1 := by
    show (1 : Int) < 2 ^ 31 - 1
    decide
  refine ⟨retain_of_miss s0 h hdead, rest, hobj, ?_, ?_, ?_⟩
  · rw [retain_of_hit s1 h [] rest _ hok hat rfl hone htwo]
    rfl
  · exact retain_then_release s1 h [] rest _ hok hat rfl hone htwo
  · rw [release_of_hit_last s1 h [] rest _ hok hat rfl rfl]
    rfl

theorem address_reuse_witness :
    (find_obj example_destroyed 2000 = none ∧ (2000 : Nat) ≠ 0) ∧
    (sccp_refcount_retain example_destroyed 2000 = (example_destroyed, 0) ∧
      ∃ rest,
        (sccp_refcount_object_alloc example_destroyed 2000 true 25 48 SCCP_REF_CHANNEL
          "SCCP/7002-00000002".toList 8192).1.objects (slot 2000)
          = some (new_entry 25 48 SCCP_REF_CHANNEL "SCCP/7002-00000002".toList 2000 :: rest) ∧
        sccp_refcount_retain
            (sccp_refcount_object_alloc example_destroyed 2000 true 25 48 SCCP_REF_CHANNEL
              "SCCP/7002-00000002".toList 8192).1 2000 =
          (set_slot
            (sccp_refcount_object_alloc example_destroyed 2000 true 25 48 SCCP_REF_CHANNEL
              "SCCP/7002-00000002".toList 8192).1 (slot 2000)
            (some ({ new_entry 25 48 SCCP_REF_CHANNEL "SCCP/7002-00000002".toList 2000 with
                      refcount := 2 } :: rest)), 2000) ∧
        sccp_refcount_release
            (sccp_refcount_retain
              (sccp_refcount_object_alloc example_destroyed 2000 true 25 48 SCCP_REF_CHANNEL
                "SCCP/7002-00000002".toList 8192).1 2000).1 2000 =
          ((sccp_refcount_object_alloc example_destroyed 2000 true 25 48 SCCP_REF_CHANNEL
            "SCCP/7002-00000002".toList 8192).1, 0) ∧
        sccp_refcount_release
            (sccp_refcount_object_alloc example_destroyed 2000 true 25 48 SCCP_REF_CHANNEL
              "SCCP/7002-00000002".toList 8192).1 2000 =
          ({ set_slot
              (sccp_refcount_object_alloc example_destroyed 2000 true 25 48 SCCP_REF_CHANNEL
                "SCCP/7002-00000002".toList 8192).1 (slot 2000) (some rest) with
             calls :=
              (sccp_refcount_object_alloc example_destroyed 2000 true 25 48 SCCP_REF_CHANNEL
                "SCCP/7002-00000002".toList 8192).1.calls ++
               (if ((sccp_refcount_object_alloc example_destroyed 2000 true 25 48
                      SCCP_REF_CHANNEL "SCCP/7002-00000002".toList 8192).1.obj_info
                      SCCP_REF_CHANNEL).destructor ≠ 0
                then [(((sccp_refcount_object_alloc example_destroyed 2000 true 25 48
                      SCCP_REF_CHANNEL "SCCP/7002-00000002".toList 8192).1.obj_info
                      SCCP_REF_CHANNEL).destructor, 2000)]
                else []) }, 0)) :=
  ⟨⟨by decide, by decide⟩,
    address_reuse example_destroyed 2000 true 25 48 SCCP_REF_CHANNEL
      "SCCP/7002-00000002".toList 8192 _ 2000 (by decide) (Prod.ext rfl (by decide))
      (by decide)⟩

/-- C33 (destructor dispatch is per type): let the type `T` have the destructor
`d1` registered in `s0`, a state in which every address sits in its own bucket
and which does not hold the address that the allocator answers with.  When an object of type `T` is then allocated with another destructor
`d2`, returning `h`, then the release that takes its counter from 1 to 0, after
any balanced sequence of retains and releases on `h`, calls `d1` on `h` and
nothing else; and the shutdown sweep, run instead, calls `d1` on `h` and never
`d2` on `h`. -/
theorem dispatch_per_type (s0 : Registry) (T : sccp_refcounted_types) (d1 d2 : Nat)
    (c : Nat) (m : Bool) (n size : Nat) (identifier : List Char) (s1 : Registry) (h : Nat)
    (hplaced : placed s0) (hfresh : absent s0 c)
    (hreg : (s0.obj_info T).destructor = d1) (h1 : d1 ≠ 0) (hne : d2 ≠ d1)
    (halloc : sccp_refcount_object_alloc s0 c m n size T identifier d2 = (s1, h))
    (hok : h ≠ 0)
    (cs : List HandleCall) (hr : stays_in_range 1 cs)
    (heq : cs.count HandleCall.release = cs.count HandleCall.retain) :
    (s1.obj_info T).destructor = d1 ∧
    (sccp_refcount_release (apply_calls s1 h cs) h).1.calls = s0.calls ++ [(d1, h)] ∧
    ∃ swept, (sccp_refcount_destroy s1).calls = s0.calls ++ swept ∧
      (d1, h) ∈ swept ∧ (d2, h) ∉ swept := by
  have hreg0 : (s0.obj_info T).destructor ≠ 0 := by rw [hreg]; exact h1
  have hok2 : (sccp_refcount_object_alloc s0 c m n size T identifier d2).2 ≠ 0 := by
    rw [halloc]; exact hok
  obtain ⟨_, rest, hrest, hs1⟩ := alloc_of_success s0 c m n size T identifier d2 hok2
  rw [hs1, register_destructor_of_registered s0 T d2 hreg0] at halloc
  have e1 : set_slot s0 (slot c) (some (new_entry n size T identifier c :: rest)) = s1 :=
    congrArg Prod.fst halloc
  have e2 : c = h := congrArg Prod.snd halloc
  subst e2
  subst e1
  have hinfo : (set_slot s0 (slot c) (some (new_entry n size T identifier c :: rest))).obj_info
      = s0.obj_info := rfl
  have hcalls : (set_slot s0 (slot c) (some (new_entry n size T identifier c :: rest))).calls
      = s0.calls := rfl
  have hobj : (set_slot s0 (slot c) (some (new_entry n size T identifier c :: rest))).objects
      (slot c) = some (new_entry n size T identifier c :: rest) := set_slot_same _ _ _
  have htype : (new_entry n size T identifier c).type = T := rfl
  refine ⟨by rw [hinfo]; exact hreg, ?_, ?_⟩
  · rw [release_after_balanced _ c hok (new_entry n size T identifier c) rest hobj rfl rfl rfl
      cs hr heq, hinfo, hcalls, htype, hreg]
    simp [h1]
  · refine ⟨(List.finRange SCCP_HASH_PRIME).flatMap
      (slot_calls (set_slot s0 (slot c) (some (new_entry n size T identifier c :: rest)))),
      ?_, ?_, ?_⟩
    · rw [destroy_eq, hcalls]
    · rw [List.mem_flatMap]
      refine ⟨slot c, List.mem_finRange _, ?_⟩
      rw [mem_slot_calls]
      exact ⟨_, hobj, new_entry n size T identifier c, List.mem_cons_self _ _,
        by rw [hinfo, htype]; exact hreg, h1, rfl⟩
    · intro hmem
      rw [List.mem_flatMap] at hmem
      obtain ⟨j, _, hj⟩ := hmem
      rw [mem_slot_calls] at hj
      obtain ⟨l, hl, obj, hobjl, hd, _, hp⟩ := hj
      by_cases hjc : j = slot c
      · subst hjc
        rw [hobj] at hl
        cases hl
        rcases List.mem_cons.mp hobjl with hnew | hold
        · subst hnew
          rw [hinfo, htype, hreg] at hd
          exact hne hd.symm
        · apply hfresh
          unfold addrs
          rcases hrest with hsome | ⟨_, hnil⟩
          · rw [hsome]
            exact List.mem_map.mpr ⟨obj, hold, hp⟩
          · rw [hnil] at hold
            cases hold
      · rw [set_slot_other _ _ _ _ hjc] at hl
        have hin : c ∈ addrs s0 j := by
          unfold addrs
          rw [hl]
          exact List.mem_map.mpr ⟨obj, hobjl, hp⟩
        exact hjc (hplaced j c hin).1.symm

theorem dispatch_per_type_witness :
    (placed example_registered ∧ absent example_registered 2000 ∧
      (example_registered.obj_info SCCP_REF_LINE).destructor = 4096 ∧
      stays_in_range 1 [HandleCall.retain, HandleCall.release]) ∧
    (((sccp_refcount_object_alloc example_registered 2000 true 25 64 SCCP_REF_LINE
        "7004".toList 8192).1.obj_info SCCP_REF_LINE).destructor = 4096 ∧
      (sccp_refcount_release
        (apply_calls
          (sccp_refcount_object_alloc example_registered 2000 true 25 64 SCCP_REF_LINE
            "7004".toList 8192).1 2000 [HandleCall.retain, HandleCall.release]) 2000).1.calls
        = example_registered.calls ++ [(4096, 2000)] ∧
      ∃ swept,
        (sccp_refcount_destroy
          (sccp_refcount_object_alloc example_registered 2000 true 25 64 SCCP_REF_LINE
            "7004".toList 8192).1).calls = example_registered.calls ++ swept ∧
        (4096, 2000) ∈ swept ∧ (8192, 2000) ∉ swept) :=
  ⟨⟨run_placed 25 _ Registry.initial placed_initial, by decide, by decide,
      by simp [stays_in_range]⟩,
    dispatch_per_type example_registered SCCP_REF_LINE 4096 8192 2000 true 25 64 "7004".toList
      _ 2000 (run_placed 25 _ Registry.initial placed_initial) (by decide) (by decide)
      (by decide) (by decide) (Prod.ext rfl (by decide)) (by decide)
      [HandleCall.retain, HandleCall.release] (by simp [stays_in_range]) (by decide)⟩

/-- C32 (the destructor runs after unlinking): in a state in which no bucket
holds an address twice and every address sits in its own bucket, as in every
state reached from the initial one, (1) the release that takes the counter of
`h` from 1 to 0 calls the destructor `d` of the type in a state `m` in which
the entry is already unlinked, and (2) each pass of the shutdown sweep over a
bucket calls the destructor of the head entry in a state `m` in which that
entry is already unlinked.  In both cases no destructor call has been recorded
yet in `m`, the lookup of the own handle in `m` misses, and a retain or release
of the own handle in `m` returns `NULL` and leaves `m` as it is.  After a pass
of the sweep the two conditions on the state hold again. -/
theorem destructor_after_unlink (s : Registry) (hd : distinct_addrs s) (hp : placed s) :
    (∀ h e d, find_obj s h = some e → e.refcount = 1 → (s.obj_info e.type).destructor = d →
      d ≠ 0 →
      ∃ m, (∀ body, sccp_refcount_release_calling body s h = (body d m h, 0)) ∧
        m.calls = s.calls ∧ find_obj m h = none ∧
        sccp_refcount_retain m h = (m, 0) ∧ sccp_refcount_release m h = (m, 0)) ∧
    (∀ x obj rest d, s.objects x = some (obj :: rest) →
      (s.obj_info obj.type).destructor = d → d ≠ 0 →
      ∃ m, (∀ body, sweep_pass_calling body s x = some (body d m obj.data)) ∧
        m.calls = s.calls ∧ find_obj m obj.data = none ∧
        sccp_refcount_retain m obj.data = (m, 0) ∧
        sccp_refcount_release m obj.data = (m, 0) ∧
        distinct_addrs (record_call d m obj.data) ∧ placed (record_call d m obj.data)) := by
  constructor
  · intro h e d hf hc hdes hd0
    obtain ⟨h0, ha, before, after, hat⟩ := (find_obj_eq_some_iff s h e).mp hf
    have hmiss : find_obj (set_slot s (slot h) (some (before ++ after))) h = none :=
      find_obj_of_absent _ h (absent_of_unlinked s h before after e hd hat)
    refine ⟨set_slot s (slot h) (some (before ++ after)), ?_, rfl, hmiss,
      retain_of_miss _ h hmiss, release_of_miss _ h hmiss⟩
    intro body
    rw [release_calling_of_hit_last body s h before after e h0 hat ha hc
      (by rw [hdes]; exact hd0), hdes]
  · intro x obj rest d hs hdes hd0
    obtain ⟨habs, hdist, hplaced⟩ := head_removed s x obj rest hd hp hs
    have hmiss : find_obj (set_slot s x (some rest)) obj.data = none :=
      find_obj_of_absent _ obj.data habs
    refine ⟨set_slot s x (some rest), ?_, rfl, hmiss, retain_of_miss _ _ hmiss,
      release_of_miss _ _ hmiss, hdist, hplaced⟩
    intro body
    have hz : (s.obj_info obj.type).destructor ≠ 0 := by rw [hdes]; exact hd0
    subst hdes
    simp [sweep_pass_calling, hs, set_slot, hz]

theorem destructor_after_unlink_witness :
    (distinct_addrs (run 25 Registry.initial [example_alloc]) ∧
      placed (run 25 Registry.initial [example_alloc])) ∧
    (∃ m, (∀ body, sccp_refcount_release_calling body (run 25 Registry.initial [example_alloc])
          2000 = (body 8192 m 2000, 0)) ∧
        m.calls = (run 25 Registry.initial [example_alloc]).calls ∧ find_obj m 2000 = none ∧
        sccp_refcount_retain m 2000 = (m, 0) ∧ sccp_refcount_release m 2000 = (m, 0)) ∧
    (∃ m, (∀ body, sweep_pass_calling body (run 25 Registry.initial [example_alloc])
          (slot 2000) = some (body 8192 m example_channel.data)) ∧
        m.calls = (run 25 Registry.initial [example_alloc]).calls ∧
        find_obj m example_channel.data = none ∧
        sccp_refcount_retain m example_channel.data = (m, 0) ∧
        sccp_refcount_release m example_channel.data = (m, 0) ∧
        distinct_addrs (record_call 8192 m example_channel.data) ∧
        placed (record_call 8192 m example_channel.data)) :=
  ⟨⟨run_distinct 25 _ Registry.initial distinct_addrs_initial (by decide),
      run_placed 25 _ Registry.initial placed_initial⟩,
    (destructor_after_unlink (run 25 Registry.initial [example_alloc])
      (run_distinct 25 _ Registry.initial distinct_addrs_initial (by decide))
      (run_placed 25 _ Registry.initial placed_initial)).1 2000 example_channel 8192
      (by decide) (by decide) (by decide) (by decide),
    (destructor_after_unlink (run 25 Registry.initial [example_alloc])
      (run_distinct 25 _ Registry.initial distinct_addrs_initial (by decide))
      (run_placed 25 _ Registry.initial placed_initial)).2 (slot 2000) example_channel []
      8192 (by decide) (by decide) (by decide)⟩

/-- C37 (call-forward setting): for a non-null line and device whose linedevice
is found, and with the three constants `SCCP_CFWD_NONE`, `SCCP_CFWD_ALL`,
`SCCP_CFWD_BUSY` pairwise different, `sccp_line_cfwd` returns with the
linedevice `after`, where: with the type `SCCP_CFWD_ALL` and a non-empty number,
`cfwdAll.enabled` is 1, `cfwdAll.number` is the number cut to the field size and
`cfwdBusy` is untouched; with `SCCP_CFWD_BUSY` and a non-empty number the same
holds with the two forwards exchanged; with `SCCP_CFWD_NONE`, with a null or an
empty number, or with any other type, both `enabled` fields are 0 and both
stored numbers are as before.  The other fields are never written. -/
theorem cfwd_setting (SCCP_CFWD_NONE SCCP_CFWD_ALL SCCP_CFWD_BUSY number_size : Nat)
    (l device : Nat) (linedevice : sccp_linedevices_t) (type : Nat)
    (number : Option (List Char))
    (hl : l ≠ 0) (hdev : device ≠ 0) (h1 : SCCP_CFWD_ALL ≠ SCCP_CFWD_NONE)
    (h2 : SCCP_CFWD_BUSY ≠ SCCP_CFWD_NONE) (h3 : SCCP_CFWD_ALL ≠ SCCP_CFWD_BUSY) :
    ∃ after told,
      sccp_line_cfwd SCCP_CFWD_NONE SCCP_CFWD_ALL SCCP_CFWD_BUSY number_size l device
        (some linedevice) type number = (some after, told) ∧
      after.device = linedevice.device ∧ after.lineInstance = linedevice.lineInstance ∧
      (∀ digits, type = SCCP_CFWD_ALL → number = some digits → digits ≠ [] →
        after.cfwdAll = { enabled := 1, number := digits.take (number_size - 1) } ∧
        after.cfwdBusy = linedevice.cfwdBusy) ∧
      (∀ digits, type = SCCP_CFWD_BUSY → number = some digits → digits ≠ [] →
        after.cfwdBusy = { enabled := 1, number := digits.take (number_size - 1) } ∧
        after.cfwdAll = linedevice.cfwdAll) ∧
      ((type = SCCP_CFWD_NONE ∨ number = none ∨ number = some [] ∨
          (type ≠ SCCP_CFWD_ALL ∧ type ≠ SCCP_CFWD_BUSY)) →
        after.cfwdAll = { enabled := 0, number := linedevice.cfwdAll.number } ∧
        after.cfwdBusy = { enabled := 0, number := linedevice.cfwdBusy.number }) := by
  have hnull : ¬ (l = 0 ∨ device = 0) := by
    rintro (h | h)
    · exact hl h
    · exact hdev h
  by_cases hcond : type = SCCP_CFWD_NONE ∨ number = none ∨ number = some [] ∨
      (type ≠ SCCP_CFWD_ALL ∧ type ≠ SCCP_CFWD_BUSY)
  · have hrun : (sccp_line_cfwd SCCP_CFWD_NONE SCCP_CFWD_ALL SCCP_CFWD_BUSY number_size l device
        (some linedevice) type number).1 = some (cfwd_disable linedevice) := by
      rcases hcond with hn | hnum | hnum | ⟨ha, hb⟩
      · simp [sccp_line_cfwd, hnull, hn]
      · simp [sccp_line_cfwd, hnull, hnum]
      · simp [sccp_line_cfwd, hnull, hnum, sccp_strlen_zero]
      · cases number with
        | none => simp [sccp_line_cfwd, hnull]
        | some d =>
          by_cases hz : sccp_strlen_zero d = true <;> simp [sccp_line_cfwd, hnull, ha, hb, hz]
    refine ⟨cfwd_disable linedevice, _, Prod.ext hrun rfl, rfl, rfl, ?_, ?_,
      fun _ => ⟨rfl, rfl⟩⟩
    · intro digits ht hnum hne
      exfalso
      rcases hcond with hn | hn | hn | ⟨ha, _⟩
      · exact h1 (ht.symm.trans hn)
      · rw [hnum] at hn
        cases hn
      · rw [hnum] at hn
        exact hne (Option.some.inj hn)
      · exact ha ht
    · intro digits ht hnum hne
      exfalso
      rcases hcond with hn | hn | hn | ⟨_, hb⟩
      · exact h2 (ht.symm.trans hn)
      · rw [hnum] at hn
        cases hn
      · rw [hnum] at hn
        exact hne (Option.some.inj hn)
      · exact hb ht
  · push_neg at hcond
    obtain ⟨hn, hnum1, hnum2, hab⟩ := hcond
    cases number with
    | none => exact absurd rfl hnum1
    | some d =>
      have hd : d ≠ [] := fun h => hnum2 (by rw [h])
      have hz : sccp_strlen_zero d = false := by
        cases d with
        | nil => exact absurd rfl hd
        | cons x xs => rfl
      by_cases ha : type = SCCP_CFWD_ALL
      · have hrun : (sccp_line_cfwd SCCP_CFWD_NONE SCCP_CFWD_ALL SCCP_CFWD_BUSY number_size l
            device (some linedevice) type (some d)).1
            = some { linedevice with
                cfwdAll := { enabled := 1, number := sccp_copy_string d number_size } } := by
          subst ha
          simp [sccp_line_cfwd, hnull, h1, hz]
        refine ⟨_, _, Prod.ext hrun rfl, rfl, rfl, ?_, ?_, ?_⟩
        · intro digits _ hnum _
          cases hnum
          exact ⟨rfl, rfl⟩
        · intro digits ht _ _
          exact absurd (ha.symm.trans ht) h3
        · rintro (h | h | h | ⟨h, _⟩)
          · exact absurd h hn
          · cases h
          · exact absurd (Option.some.inj h) hd
          · exact absurd ha h
      · have hb : type = SCCP_CFWD_BUSY := hab ha
        have hrun : (sccp_line_cfwd SCCP_CFWD_NONE SCCP_CFWD_ALL SCCP_CFWD_BUSY number_size l
            device (some linedevice) type (some d)).1
            = some { linedevice with
                cfwdBusy := { enabled := 1, number := sccp_copy_string d number_size } } := by
          subst hb
          simp [sccp_line_cfwd, hnull, h2, hz, Ne.symm h3]
        refine ⟨_, _, Prod.ext hrun rfl, rfl, rfl, ?_, ?_, ?_⟩
        · intro digits ht _ _
          exact absurd ht ha
        · intro digits _ hnum _
          cases hnum
          exact ⟨rfl, rfl⟩
        · rintro (h | h | h | ⟨_, h⟩)
          · exact absurd h hn
          · cases h
          · exact absurd (Option.some.inj h) hd
          · exact absurd hb h

theorem cfwd_setting_witness :
    ((1000 : Nat) ≠ 0 ∧ (7000 : Nat) ≠ 0 ∧ (1 : Nat) ≠ 0 ∧ (2 : Nat) ≠ 0 ∧ (1 : Nat) ≠ 2) ∧
    sccp_line_cfwd 0 1 2 8 1000 7000 (some example_linedevice) 1 (some "0123456789".toList)
      = (some { example_linedevice with
                cfwdAll := { enabled := 1, number := "0123456".toList } },
        [cfwd_call.sccp_dev_starttone 7000,
          cfwd_call.sccp_feat_changed 7000 sccp_feature_type.SCCP_FEATURE_CFWDALL,
          cfwd_call.sccp_dev_forward_status 1000 1 7000]) ∧
    ∃ after told,
      sccp_line_cfwd 0 1 2 8 1000 7000 (some example_linedevice) 1 (some "0123456789".toList)
        = (some after, told) ∧
      after.device = example_linedevice.device ∧
      after.lineInstance = example_linedevice.lineInstance ∧
      (∀ digits, 1 = 1 → some "0123456789".toList = some digits → digits ≠ [] →
        after.cfwdAll = { enabled := 1, number := digits.take (8 - 1) } ∧
        after.cfwdBusy = example_linedevice.cfwdBusy) ∧
      (∀ digits, 1 = 2 → some "0123456789".toList = some digits → digits ≠ [] →
        after.cfwdBusy = { enabled := 1, number := digits.take (8 - 1) } ∧
        after.cfwdAll = example_linedevice.cfwdAll) ∧
      ((1 = 0 ∨ some "0123456789".toList = none ∨ some "0123456789".toList = some [] ∨
          (1 ≠ 1 ∧ 1 ≠ 2)) →
        after.cfwdAll = { enabled := 0, number := example_linedevice.cfwdAll.number } ∧
        after.cfwdBusy = { enabled := 0, number := example_linedevice.cfwdBusy.number }) :=
  ⟨⟨by decide, by decide, by decide, by decide, by decide⟩, by decide,
    cfwd_setting 0 1 2 8 1000 7000 example_linedevice 1 (some "0123456789".toList)
      (by decide) (by decide) (by decide) (by decide) (by decide)⟩

/-- C36 (the global list of lines keeps names unique): let no two lines of
`GLOB(lines)` have names that are equal when case is ignored, and let `line` be
a non-null line that the registry finds with a counter of at least 1.  Then
`sccp_line_addToGlobals(line)` returns, and afterwards the names in the list are
still unique.  When a line with the name of `line`, case ignored, is in the list,
the list and the events are unchanged, `line` has been released once and that
line of the list is returned.  When there is none, `line` is the new head of the
list in front of the old lines, it has been retained once for the list and once
more for the event that is fired, and `line` is returned. -/
theorem line_names_unique (g : line_globals) (line : sccp_line_t) (e : RefCountedObject)
    (hu : names_unique g.lines) (hf : find_obj g.registry line.ptr = some e)
    (hc : 1 ≤ e.refcount) :
    ∃ g2 ret, sccp_line_addToGlobals g (some line) = some (g2, ret) ∧
      names_unique g2.lines ∧
      (∀ l ∈ g.lines, l.name.map Char.toLower = line.name.map Char.toLower →
        g2.lines = g.lines ∧ g2.events = g.events ∧
        g2.registry = (sccp_refcount_release g.registry line.ptr).1 ∧ ret = some l) ∧
      ((∀ l ∈ g.lines, l.name.map Char.toLower ≠ line.name.map Char.toLower) →
        g2.lines = line :: g.lines ∧
        g2.registry = (sccp_refcount_retain (sccp_refcount_retain g.registry line.ptr).1
          line.ptr).1 ∧
        g2.events = g.events ++ [(sccp_refcount_retain
          (sccp_refcount_retain g.registry line.ptr).1 line.ptr).2] ∧
        ret = some line) := by
  obtain ⟨h0, _, _, _, _⟩ := (find_obj_eq_some_iff g.registry line.ptr e).mp hf
  have hret : (sccp_refcount_retain g.registry line.ptr).2 = line.ptr :=
    retain_returns g.registry line.ptr e hf hc
  cases hfind : g.lines.find? (fun l => strcasecmp l.name line.name = 0) with
  | some l0 =>
    have hmem : l0 ∈ g.lines := List.mem_of_find?_eq_some hfind
    have hname : l0.name.map Char.toLower = line.name.map Char.toLower := by
      have h := List.find?_some hfind
      simp only [decide_eq_true_eq] at h
      exact (strcasecmp_eq_zero_iff _ _).mp h
    refine ⟨{ g with registry := (sccp_refcount_release g.registry line.ptr).1 }, some l0,
      by simp [sccp_line_addToGlobals, hfind], hu, ?_, ?_⟩
    · intro l hl hlname
      refine ⟨rfl, rfl, rfl, ?_⟩
      by_contra hne
      have hsym : Symmetric (fun a b : sccp_line_t =>
          a.name.map Char.toLower ≠ b.name.map Char.toLower) := fun _ _ h => Ne.symm h
      have hdiff := List.Pairwise.forall hsym hu hmem hl (fun h => hne (by rw [h]))
      exact hdiff (hname.trans hlname.symm)
    · intro hnone
      exact absurd hname (hnone l0 hmem)
  | none =>
    have hnone : ∀ l ∈ g.lines, l.name.map Char.toLower ≠ line.name.map Char.toLower := by
      intro l hl hlname
      have h := List.find?_eq_none.mp hfind l hl
      simp only [decide_eq_true_eq] at h
      exact h ((strcasecmp_eq_zero_iff _ _).mpr hlname)
    have hptr : ¬ ((sccp_refcount_retain g.registry line.ptr).2 = 0) := by
      rw [hret]
      exact h0
    have hline : ({ line with ptr := (sccp_refcount_retain g.registry line.ptr).2 }
        : sccp_line_t) = line := by
      rw [hret]
    refine ⟨
      { registry :=
          (sccp_refcount_retain (sccp_refcount_retain g.registry line.ptr).1 line.ptr).1
        lines := line :: g.lines
        events := g.events ++
          [(sccp_refcount_retain (sccp_refcount_retain g.registry line.ptr).1 line.ptr).2] },
      some line, ?_, ?_, ?_, fun _ => ⟨rfl, rfl, rfl, rfl⟩⟩
    · simp only [sccp_line_addToGlobals, hfind, hptr, if_false, hline]
      rw [hret]
    · exact List.pairwise_cons.mpr ⟨fun l hl => Ne.symm (hnone l hl), hu⟩
    · intro l hl hlname
      exact absurd hlname (hnone l hl)

theorem line_names_unique_witness :
    (names_unique example_globals.lines ∧
      find_obj example_globals.registry 1000 = some example_second ∧
      1 ≤ example_second.refcount) ∧
    sccp_line_addToGlobals example_globals (some { ptr := 1000, name := "7001".toList })
      = some (
          { registry :=
              (sccp_refcount_retain (sccp_refcount_retain example_registry 1000).1 1000).1
            lines := [{ ptr := 1000, name := "7001".toList },
              { ptr := 1563, name := "7002".toList }]
            events := [1000] },
          some { ptr := 1000, name := "7001".toList }) ∧
    ∃ g2 ret,
      sccp_line_addToGlobals example_globals (some { ptr := 1000, name := "7001".toList })
        = some (g2, ret) ∧
      names_unique g2.lines ∧
      (∀ l ∈ example_globals.lines,
        l.name.map Char.toLower = "7001".toList.map Char.toLower →
        g2.lines = example_globals.lines ∧ g2.events = example_globals.events ∧
        g2.registry = (sccp_refcount_release example_globals.registry 1000).1 ∧
        ret = some l) ∧
      ((∀ l ∈ example_globals.lines,
          l.name.map Char.toLower ≠ "7001".toList.map Char.toLower) →
        g2.lines = { ptr := 1000, name := "7001".toList } :: example_globals.lines ∧
        g2.registry = (sccp_refcount_retain
          (sccp_refcount_retain example_globals.registry 1000).1 1000).1 ∧
        g2.events = example_globals.events ++ [(sccp_refcount_retain
          (sccp_refcount_retain example_globals.registry 1000).1 1000).2] ∧
        ret = some { ptr := 1000, name := "7001".toList }) :=
  ⟨⟨by decide, by decide, by decide⟩, by
      simp only [sccp_line_addToGlobals, example_globals]
      rfl,
    line_names_unique example_globals { ptr := 1000, name := "7001".toList } example_second
      (by decide) (by decide) (by decide)⟩

/-- C38 (validity flags of a callinfo): with a field size `StationMaxDirnumSize`
of at least 2, `sccp_callinfo_ctor` returns a callinfo whose strings are empty
and whose flags are 0, and after any sequence of `sccp_callinfo_setter` calls
on it, in every party group `NumberValid` is 1 when the stored `Number` is not
empty and 0 when it is, and `VoiceMailboxValid` is 1 when the stored
`VoiceMailbox` is not empty and 0 when it is.  A call of the setter, on any
callinfo, whose keys all select a name leaves both flags of every group as they
are. -/
theorem callinfo_validity (StationMaxDirnumSize CALLERID_PRESENCE_ALLOWED : Nat)
    (hsize : 2 ≤ StationMaxDirnumSize) (calls : List (List setter_arg)) :
    ∃ ci0, sccp_callinfo_ctor true CALLERID_PRESENCE_ALLOWED = some ci0 ∧
      (∀ g, ci0.entries g =
        { Name := [], Number := [], VoiceMailbox := [], NumberValid := 0,
          VoiceMailboxValid := 0 }) ∧
      (∀ g,
        ((setter_calls StationMaxDirnumSize ci0 calls).entries g).NumberValid
          = (if ((setter_calls StationMaxDirnumSize ci0 calls).entries g).Number = [] then 0
              else 1) ∧
        ((setter_calls StationMaxDirnumSize ci0 calls).entries g).VoiceMailboxValid
          = (if ((setter_calls StationMaxDirnumSize ci0 calls).entries g).VoiceMailbox = []
              then 0 else 1)) ∧
      ∀ (ci : sccp_callinfo) (args : List setter_arg) (g : callinfo_groups),
        (∀ a ∈ args, names_only a) →
        ((sccp_callinfo_setter StationMaxDirnumSize ci args).1.entries g).NumberValid
          = (ci.entries g).NumberValid ∧
        ((sccp_callinfo_setter StationMaxDirnumSize ci args).1.entries g).VoiceMailboxValid
          = (ci.entries g).VoiceMailboxValid := by
  refine ⟨_, rfl, fun _ => rfl, ?_, ?_⟩
  · refine setter_calls_valid StationMaxDirnumSize hsize calls _ ?_
    intro g
    exact ⟨rfl, rfl⟩
  · intro ci args g hall
    exact setter_loop_name StationMaxDirnumSize args g ci 0 hall

theorem callinfo_validity_witness :
    2 ≤ 24 ∧
    ∃ ci0, sccp_callinfo_ctor true 0 = some ci0 ∧
      (∀ g, ci0.entries g =
        { Name := [], Number := [], VoiceMailbox := [], NumberValid := 0,
          VoiceMailboxValid := 0 }) ∧
      (∀ g,
        ((setter_calls 24 ci0
            [example_args, [setter_arg.text SCCP_CALLINFO_CALLINGPARTY_NUMBER (some [])]]
          ).entries g).NumberValid
          = (if ((setter_calls 24 ci0
              [example_args, [setter_arg.text SCCP_CALLINFO_CALLINGPARTY_NUMBER (some [])]]
            ).entries g).Number = [] then 0 else 1) ∧
        ((setter_calls 24 ci0
            [example_args, [setter_arg.text SCCP_CALLINFO_CALLINGPARTY_NUMBER (some [])]]
          ).entries g).VoiceMailboxValid
          = (if ((setter_calls 24 ci0
              [example_args, [setter_arg.text SCCP_CALLINFO_CALLINGPARTY_NUMBER (some [])]]
            ).entries g).VoiceMailbox = [] then 0 else 1)) ∧
      ∀ (ci : sccp_callinfo) (args : List setter_arg) (g : callinfo_groups),
        (∀ a ∈ args, names_only a) →
        ((sccp_callinfo_setter 24 ci args).1.entries g).NumberValid
          = (ci.entries g).NumberValid ∧
        ((sccp_callinfo_setter 24 ci args).1.entries g).VoiceMailboxValid
          = (ci.entries g).VoiceMailboxValid :=
  ⟨by decide, callinfo_validity 24 0 (by decide)
    [example_args, [setter_arg.text SCCP_CALLINFO_CALLINGPARTY_NUMBER (some [])]]⟩

/-- C39 (change count and idempotence of the setter): for every callinfo and
every argument list whose keys are pairwise different and whose strings are
shorter than `StationMaxDirnumSize`, `sccp_callinfo_setter` returns the number
of arguments whose value is not null and differs from the value stored in the
field that the key selects, and a second call with the same arguments returns 0
and leaves the callinfo as the first call left it. -/
theorem setter_count_idempotent (StationMaxDirnumSize : Nat) (ci : sccp_callinfo)
    (args : List setter_arg) (hkeys : (args.map setter_arg.curkey).Nodup)
    (hfit : strings_fit StationMaxDirnumSize args) :
    (sccp_callinfo_setter StationMaxDirnumSize ci args).2
      = (args.filter (arg_differs ci)).length ∧
    sccp_callinfo_setter StationMaxDirnumSize
        (sccp_callinfo_setter StationMaxDirnumSize ci args).1 args
      = ((sccp_callinfo_setter StationMaxDirnumSize ci args).1, 0) := by
  obtain ⟨h1, h2, _⟩ := setter_loop_count StationMaxDirnumSize args ci 0 hkeys hfit
  refine ⟨?_, ?_⟩
  · unfold sccp_callinfo_setter
    rw [h1, Nat.zero_add]
  · exact setter_loop_of_same StationMaxDirnumSize args _ 0 h2

theorem setter_count_idempotent_witness :
    ((example_args.map setter_arg.curkey).Nodup ∧ strings_fit 24 example_args) ∧
    (example_args.filter (arg_differs example_callinfo)).length = 2 ∧
    (sccp_callinfo_setter 24 example_callinfo example_args).2
      = (example_args.filter (arg_differs example_callinfo)).length ∧
    sccp_callinfo_setter 24 (sccp_callinfo_setter 24 example_callinfo example_args).1
        example_args
      = ((sccp_callinfo_setter 24 example_callinfo example_args).1, 0) :=
  ⟨⟨by decide, by decide⟩, by decide,
    setter_count_idempotent 24 example_callinfo example_args (by decide) (by decide)⟩

end SccpRefcount
